import Mathlib

/-!
# PBRT-Curve-Generator: `loadCYHairModel` and `savePBRT`

A shallow embedding of `src/main.cpp`.

* `float` is modelled twice. In the first part it is an arbitrary linear ordered field `K`
  (exact arithmetic); instantiating `K := ℚ` makes every definition executable. In the
  second part (the definitions whose names end in `R`) it is IEEE 754 binary32: the values
  are rationals and every arithmetic operation is followed by a rounding `rnd : ℚ → ℚ`,
  which is `roundF32` (round to nearest, ties to even) for the program and `id` for exact
  arithmetic. Each operation is rounded on its own (no fused multiply-add, no excess
  precision).
* `std::pow` is a parameter `pw` of `convert`; `powF32` is its value on `float` at the
  arguments the program passes.
* `unsigned` is modelled by `Nat` with explicit reduction modulo `2 ^ 32`.
* Unchecked `std::vector::operator[]` past the end, and integer division by zero, are
  undefined behaviour in C++; the embedding reports them as a `Fault`.
* The member function `length()` of a glm vector is the number of its components.
* The file reader `cyHairFile` is outside the repository; `CyHairFile` records what
  `loadCYHairModel` reads from it.
* The values returned by `rand11` after `srand(time(nullptr))` are a parameter
  `rnd : Nat → K` of `loadCYHairModel`.
-/

set_option linter.unusedSectionVars false

namespace PBRTCurve

/-! ## 32-bit unsigned arithmetic -/

/-- Addition of two `unsigned` values. -/
def u32add (a b : Nat) : Nat := (a + b) % 4294967296

/-- Subtraction of two `unsigned` values (wraps around below zero). -/
def u32sub (a b : Nat) : Nat := (a + 4294967296 - b % 4294967296) % 4294967296

/-! ## `glm::tvec3<float>` -/

/-- The type `Vec3f = glm::tvec3<float>`. -/
@[ext]
structure Vec3 (K : Type) where
  x : K
  y : K
  z : K
deriving DecidableEq

namespace Vec3

variable {K : Type}

instance [Add K] : Add (Vec3 K) := ⟨fun a b => ⟨a.x + b.x, a.y + b.y, a.z + b.z⟩⟩
instance [Sub K] : Sub (Vec3 K) := ⟨fun a b => ⟨a.x - b.x, a.y - b.y, a.z - b.z⟩⟩
/-- The product `scalar * vector`. -/
instance [Mul K] : HMul K (Vec3 K) (Vec3 K) := ⟨fun s v => ⟨s * v.x, s * v.y, s * v.z⟩⟩
/-- The product `vector * scalar`. -/
instance [Mul K] : HMul (Vec3 K) K (Vec3 K) := ⟨fun v s => ⟨v.x * s, v.y * s, v.z * s⟩⟩
/-- The quotient `vector / scalar`. -/
instance [Div K] : HDiv (Vec3 K) K (Vec3 K) := ⟨fun v s => ⟨v.x / s, v.y / s, v.z / s⟩⟩

/-- The one-argument constructor `Vec3f(s)`: all three components equal to `s`. -/
def splat (s : K) : Vec3 K := ⟨s, s, s⟩

/-- The member function `length()` of a glm vector: the number of components of the vector
type (for `tvec3` the constant `3`); it is not the Euclidean norm `glm::length(v)`. -/
def length (_v : Vec3 K) : Nat := 3

/-- Component access `v[i]` for `i = 0, 1, 2`. -/
def get (v : Vec3 K) (i : Fin 3) : K :=
  match i with
  | 0 => v.x
  | 1 => v.y
  | 2 => v.z

/-- Component assignment `v[i] = a` for `i = 0, 1, 2`. -/
def set (v : Vec3 K) (i : Fin 3) (a : K) : Vec3 K :=
  match i with
  | 0 => { v with x := a }
  | 1 => { v with y := a }
  | 2 => { v with z := a }


end Vec3

/-- The type `VPoints = std::array<Vec3f, 4>`. -/
@[ext]
structure VPoints (K : Type) where
  e0 : Vec3 K
  e1 : Vec3 K
  e2 : Vec3 K
  e3 : Vec3 K
deriving DecidableEq

/-! ## Global state -/

/-- The global variables of `main.cpp`. `strandRanges` holds the pairs
`(range[0], range[1])`. -/
structure Model (K : Type) where
  nStrands : Nat
  nTotalVertices : Nat
  vertices : List (Vec3 K)
  thicknesses : List K
  strandRanges : List (Nat × Nat)
  strandNumSegments : List Nat
  bMin : Vec3 K
  bMax : Vec3 K
  diff : Vec3 K
  center : Vec3 K

/-- Ways in which a run leaves defined behaviour or throws. -/
inductive Fault where
  /-- The exception "Cannot load file!". -/
  | cannotLoad
  /-- The exception "Cannot load point array!". -/
  | noPointArray
  /-- The exception "Cannot open file for writing!". -/
  | cannotOpen
  /-- An integer division or remainder by zero. -/
  | divByZero
  /-- An access of a `std::vector` past its end. -/
  | outOfBounds
deriving DecidableEq

/-! ## `savePBRT` -/

section Save

variable {K : Type} [LinearOrderedField K]

/-- The constant `alpha = 0.5f` of `convert`. -/
def alpha : K := 1 / 2

/-- The denominator of `Bi[1]` in `convert`. -/
def convertDen1 (pw : K → K → K) (controlPoints : VPoints K) : K :=
  let P0 := controlPoints.e0
  let P1 := controlPoints.e1
  let P2 := controlPoints.e2
  let d1 : K := ((P0 - P1).length : K)
  let d2 : K := ((P1 - P2).length : K)
  let d1_alpha := pw d1 alpha
  let d2_alpha := pw d2 alpha
  3 * d1_alpha * (d1_alpha + d2_alpha)

/-- The denominator of `Bi[2]` in `convert`. -/
def convertDen2 (pw : K → K → K) (controlPoints : VPoints K) : K :=
  let P1 := controlPoints.e1
  let P2 := controlPoints.e2
  let P3 := controlPoints.e3
  let d2 : K := ((P1 - P2).length : K)
  let d3 : K := ((P2 - P3).length : K)
  let d2_alpha := pw d2 alpha
  let d3_alpha := pw d3 alpha
  3 * d3_alpha * (d3_alpha + d2_alpha)

/-- The lambda `convert` of `savePBRT`; `pw` is `std::pow`. -/
def convert (pw : K → K → K) (controlPoints : VPoints K) : VPoints K :=
  let P0 := controlPoints.e0
  let P1 := controlPoints.e1
  let P2 := controlPoints.e2
  let P3 := controlPoints.e3
  let d1 : K := ((P0 - P1).length : K)
  let d2 : K := ((P1 - P2).length : K)
  let d3 : K := ((P2 - P3).length : K)
  let d1_alpha := pw d1 alpha
  let d2_alpha := pw d2 alpha
  let d3_alpha := pw d3 alpha
  let d1_2alpha := pw d1 (2 * alpha)
  let d2_2alpha := pw d2 (2 * alpha)
  let d3_2alpha := pw d3 (2 * alpha)
  { e0 := P1
    e3 := P2
    e1 := (d1_2alpha * P2 - d2_2alpha * P0
            + (2 * d1_2alpha + 3 * d1_alpha * d2_alpha + d2_2alpha) * P1)
          / (3 * d1_alpha * (d1_alpha + d2_alpha))
    e2 := (d3_2alpha * P1 - d2_2alpha * P3
            + (2 * d3_2alpha + 3 * d3_alpha * d2_alpha + d2_2alpha) * P2)
          / (3 * d3_alpha * (d3_alpha + d2_alpha)) }

/-- The three arguments of one call of `writeFile`: four points and two widths. Before
`convert` is applied the points are the window, afterwards the Bezier control points. -/
structure Curve (K : Type) where
  points : VPoints K
  t0 : K
  t1 : K
deriving DecidableEq

/-- The indices read for one curve: `v0 .. v3` index `vertices` (the window), and
`w0`, `w1` index `thicknesses` (the two widths passed to `writeFile`). -/
structure Reads where
  v0 : Nat
  v1 : Nat
  v2 : Nat
  v3 : Nat
  w0 : Nat
  w1 : Nat
deriving DecidableEq

/-- Indices of the block "First segment". -/
def headReads (range : Nat × Nat) : Reads :=
  { v0 := range.1
    v1 := range.1
    v2 := u32add range.1 1
    v3 := u32add range.1 2
    w0 := range.1
    w1 := u32add range.1 2 }

/-- Indices of one iteration of the middle loop, at loop variable `i`. -/
def loopReads (i : Nat) : Reads :=
  { v0 := i
    v1 := u32add i 1
    v2 := u32add i 2
    v3 := u32add i 3
    w0 := i
    w1 := u32add i 3 }

/-- Indices of the block "Last segment". -/
def tailReads (range : Nat × Nat) : Reads :=
  { v0 := u32sub range.2 3
    v1 := u32sub range.2 2
    v2 := u32sub range.2 1
    v3 := u32sub range.2 1
    w0 := u32sub range.2 3
    w1 := u32sub range.2 1 }

/-- The loop `for(unsigned i = ...; i < range[1] - 3u; ++i)`, started at `i`. -/
def interiorLoop (range : Nat × Nat) (i : Nat) : List Reads :=
  if _h : i < u32sub range.2 3 then loopReads i :: interiorLoop range (u32add i 1) else []
termination_by u32sub range.2 3 - i
decreasing_by
  have h1 : u32sub range.2 3 < 4294967296 := Nat.mod_lt _ (by norm_num)
  have h2 : u32add i 1 = i + 1 := Nat.mod_eq_of_lt (by omega)
  rw [h2]
  omega

/-- The index reads of one iteration of the strand loop, after the progress display:
nothing when `range[1] - range[0] < 4`, otherwise first segment, middle loop, last
segment. -/
def strandReads (range : Nat × Nat) : List Reads :=
  if u32sub range.2 range.1 < 4 then []
  else headReads range :: (interiorLoop range (u32add range.1 1) ++ [tailReads range])

/-- Unchecked element access `xs[i]` of a `std::vector`. -/
def readAt {α : Type} (xs : List α) (i : Nat) : Except Fault α :=
  match xs[i]? with
  | some a => .ok a
  | none => .error .outOfBounds

/-- Builds the window from `vertices` and reads the two widths from `thicknesses`. -/
def fetch (m : Model K) (r : Reads) : Except Fault (Curve K) := do
  let p0 ← readAt m.vertices r.v0
  let p1 ← readAt m.vertices r.v1
  let p2 ← readAt m.vertices r.v2
  let p3 ← readAt m.vertices r.v3
  let t0 ← readAt m.thicknesses r.w0
  let t1 ← readAt m.thicknesses r.w1
  pure { points := ⟨p0, p1, p2, p3⟩, t0 := t0, t1 := t1 }

/-- Runs `fetch` over a list of index reads, in order. -/
def fetchAll (m : Model K) : List Reads → Except Fault (List (Curve K))
  | [] => .ok []
  | r :: rs => do
    let c ← fetch m r
    let cs ← fetchAll m rs
    pure (c :: cs)

/-- The windows handed to `convert`, with the widths handed to `writeFile`, for one
strand range (lines 189-220). -/
def strandWindows (m : Model K) (range : Nat × Nat) : Except Fault (List (Curve K)) :=
  fetchAll m (strandReads range)

/-- Applies `convert` to the window of a curve, as done before `writeFile`. -/
def convertCurve (pw : K → K → K) (c : Curve K) : Curve K :=
  { c with points := convert pw c.points }

/-- The records written for one strand range (lines 189-220). -/
def strandBody (pw : K → K → K) (m : Model K) (range : Nat × Nat) :
    Except Fault (List (Curve K)) :=
  (strandWindows m range).map (List.map (convertCurve pw))

/-- The test `count % (nStrands / 10u) == 0` of the progress display. -/
def progressTest (count nStrands : Nat) : Except Fault Bool :=
  if nStrands / 10 = 0 then .error .divByZero
  else .ok (count % (nStrands / 10) == 0)

/-- The loop `for(const auto& range: strandRanges)`; `count` is never changed by the
loop and stays at its initial value. Yields the windows handed to `convert`. -/
def strandLoop (m : Model K) (count : Nat) : List (Nat × Nat) → Except Fault (List (Curve K))
  | [] => .ok []
  | range :: rest => do
    let _ ← progressTest count m.nStrands
    let cs ← strandWindows m range
    let more ← strandLoop m count rest
    pure (cs ++ more)

/-- The windows handed to `convert` by `savePBRT`, in order; `fileIsOpen` is the result of
`file.is_open()`. -/
def savePBRTWindows (fileIsOpen : Bool) (m : Model K) : Except Fault (List (Curve K)) :=
  if fileIsOpen then strandLoop m 0 m.strandRanges else .error .cannotOpen

/-- The function `savePBRT`: the records written to the file, in order. -/
def savePBRT (pw : K → K → K) (fileIsOpen : Bool) (m : Model K) :
    Except Fault (List (Curve K)) :=
  (savePBRTWindows fileIsOpen m).map (List.map (convertCurve pw))

/-- The two facts about `std::pow` (in exact arithmetic) that `convert` relies on: the
exponent `2 * alpha = 1` returns the base, and the exponent `alpha = 1 / 2` returns a square
root of a non-negative base. -/
structure PowLaws (pw : K → K → K) : Prop where
  pow_one : ∀ x : K, pw x 1 = x
  pow_half : ∀ x : K, 0 ≤ x → pw x (1 / 2) * pw x (1 / 2) = x

/-- The curve built from the reads `r` when every index is in bounds. -/
def peek (m : Model K) (r : Reads) : Curve K :=
  { points := ⟨m.vertices.getD r.v0 ⟨0, 0, 0⟩, m.vertices.getD r.v1 ⟨0, 0, 0⟩,
               m.vertices.getD r.v2 ⟨0, 0, 0⟩, m.vertices.getD r.v3 ⟨0, 0, 0⟩⟩
    t0 := m.thicknesses.getD r.w0 0
    t1 := m.thicknesses.getD r.w1 0 }

/-- All six indices of `r` are inside the vectors of `m`. -/
def InBounds (m : Model K) (r : Reads) : Prop :=
  r.v0 < m.vertices.length ∧ r.v1 < m.vertices.length ∧ r.v2 < m.vertices.length ∧
    r.v3 < m.vertices.length ∧ r.w0 < m.thicknesses.length ∧ r.w1 < m.thicknesses.length

instance (m : Model K) (r : Reads) : Decidable (InBounds m r) := by
  unfold InBounds
  infer_instance

/-- The curve `c` consists of the vertices at the indices `r.v0 .. r.v3` (its window) and
of the thicknesses at the indices `r.w0` and `r.w1` (its two widths). -/
def IsReadOf (m : Model K) (r : Reads) (c : Curve K) : Prop :=
  m.vertices[r.v0]? = some c.points.e0 ∧ m.vertices[r.v1]? = some c.points.e1 ∧
    m.vertices[r.v2]? = some c.points.e2 ∧ m.vertices[r.v3]? = some c.points.e3 ∧
    m.thicknesses[r.w0]? = some c.t0 ∧ m.thicknesses[r.w1]? = some c.t1

instance (m : Model K) (r : Reads) (c : Curve K) : Decidable (IsReadOf m r c) := by
  unfold IsReadOf
  infer_instance

end Save

/-! ## Example inputs -/

/-- One strand of five vertices on the x axis, with thicknesses `1 .. 5`. -/
def exampleModel : Model ℚ :=
  { nStrands := 1
    nTotalVertices := 5
    vertices := [⟨0, 0, 0⟩, ⟨1, 0, 0⟩, ⟨2, 0, 0⟩, ⟨3, 0, 0⟩, ⟨4, 0, 0⟩]
    thicknesses := [1, 2, 3, 4, 5]
    strandRanges := [(0, 5)]
    strandNumSegments := [4]
    bMin := ⟨0, 0, 0⟩
    bMax := ⟨4, 0, 0⟩
    diff := ⟨4, 0, 0⟩
    center := ⟨2, 0, 0⟩ }

/-- A stand-in for `std::pow` over `ℚ` that returns its base. -/
def powBase (x : ℚ) (_y : ℚ) : ℚ := x

/-- One strand of four vertices, all at the origin, with thickness `1` (scenario D). -/
def pointModel (K : Type) [LinearOrderedField K] : Model K :=
  { nStrands := 1
    nTotalVertices := 4
    vertices := [⟨0, 0, 0⟩, ⟨0, 0, 0⟩, ⟨0, 0, 0⟩, ⟨0, 0, 0⟩]
    thicknesses := [1, 1, 1, 1]
    strandRanges := [(0, 4)]
    strandNumSegments := [3]
    bMin := ⟨0, 0, 0⟩
    bMax := ⟨0, 0, 0⟩
    diff := ⟨0, 0, 0⟩
    center := ⟨0, 0, 0⟩ }

/-- A window on the x axis with chord lengths `1`, `4`, `1`. -/
def gapWindow (K : Type) [LinearOrderedField K] : VPoints K :=
  ⟨⟨0, 0, 0⟩, ⟨1, 0, 0⟩, ⟨5, 0, 0⟩, ⟨6, 0, 0⟩⟩

/-- A head window `(v0, v0, v1, v2)` of three equally spaced points on the x axis. -/
def headWindow (K : Type) [LinearOrderedField K] : VPoints K :=
  ⟨⟨0, 0, 0⟩, ⟨0, 0, 0⟩, ⟨6, 0, 0⟩, ⟨12, 0, 0⟩⟩

/-! ## The formula of the specification -/

section Spec

variable {K : Type} [LinearOrderedField K]

/-- The squared Euclidean norm of a vector. -/
def normSq (v : Vec3 K) : K := v.x * v.x + v.y * v.y + v.z * v.z

/-- The number `r` is the square root of the Euclidean distance of `a` and `b`. -/
def IsRootOfChord (r : K) (a b : Vec3 K) : Prop :=
  0 ≤ r ∧ (r * r) * (r * r) = normSq (b - a)

instance (r : K) (a b : Vec3 K) : Decidable (IsRootOfChord r a b) := by
  unfold IsRootOfChord
  infer_instance

/-- Follows the wording of the specification, not the source: the centripetal formula
(`alpha = 0.5`) for a window whose chord lengths `d1 = |P1 - P0|`, `d2 = |P2 - P1|`,
`d3 = |P3 - P2|` have the square roots `r1`, `r2`, `r3`. -/
def centripetalSpec (r1 r2 r3 : K) (w : VPoints K) : VPoints K :=
  let d1 := r1 * r1
  let d2 := r2 * r2
  let d3 := r3 * r3
  { e0 := w.e1
    e3 := w.e2
    e1 := (d1 * w.e2 - d2 * w.e0 + (2 * d1 + 3 * r1 * r2 + d2) * w.e1) / (3 * r1 * (r1 + r2))
    e2 := (d3 * w.e1 - d2 * w.e3 + (2 * d3 + 3 * r3 * r2 + d2) * w.e2) / (3 * r3 * (r3 + r2)) }

end Spec

/-! ## `loadCYHairModel` -/

section Load

variable {K : Type} [LinearOrderedField K]

/-- The constants `thicknessScale`, `thicknessJitter`, `yScale`, `scale`, `translation`. -/
structure Config (K : Type) where
  thicknessScale : K
  thicknessJitter : K
  yScale : K
  scale : K
  translation : Vec3 K

/-- The values of the constants as compiled (`fileName = "dark"`). -/
def config : Config K :=
  { thicknessScale := 1
    thicknessJitter := 0
    yScale := 1
    scale := 17 / 100
    translation := ⟨0, 15 / 2, 0⟩ }

/-- What `loadCYHairModel` uses of a `cyHairFile` after `LoadFromFile`: the return value of
`LoadFromFile`, the header fields, and the three arrays (`none` is `nullptr`; an array is
the memory behind the pointer, addressed by element index). -/
structure CyHairFile (K : Type) where
  loadResult : Int
  hair_count : Nat
  point_count : Nat
  d_segments : Nat
  d_thickness : K
  pointsArray : Option (Nat → Vec3 K)
  segmentsArray : Option (Nat → Nat)
  thicknessArray : Option (Nat → K)

/-- The call `xs.resize(n)` of a `std::vector`, new elements being `d`. -/
def resize {α : Type} (xs : List α) (n : Nat) (d : α) : List α :=
  xs.take n ++ List.replicate (n - xs.length) d

/-- The call `std::memcpy(xs.data(), src, n * sizeof(element))`. -/
def memcpy {α : Type} (xs : List α) (src : Nat → α) (n : Nat) : List α :=
  (List.range n).map src ++ xs.drop n

/-- Unchecked element assignment `xs[i] = a` of a `std::vector`. -/
def writeAt {α : Type} (xs : List α) (i : Nat) (a : α) : Except Fault (List α) :=
  if i < xs.length then .ok (xs.set i a) else .error .outOfBounds

/-- A loop `for(unsigned i = i0; i < hi; ++i)` whose body may fault. The increment cannot
wrap around, because `i < hi` and `hi` is an `unsigned` value. -/
def forLoopM {σ : Type} (hi : Nat) (body : Nat → σ → Except Fault σ) (i : Nat) (s : σ) :
    Except Fault σ :=
  if i < hi then
    match body i s with
    | .ok s1 => forLoopM hi body (i + 1) s1
    | .error e => .error e
  else .ok s
termination_by hi - i

/-- The first three statements of the body of the first vertex loop: swap `y` and `z`,
scale, translate. -/
def transformVertex (cfg : Config K) (vertex : Vec3 K) : Vec3 K :=
  let swapped : Vec3 K := ⟨vertex.x, vertex.z, vertex.y⟩
  let scaled : Vec3 K := swapped * cfg.scale
  scaled + cfg.translation

/-- One iteration `i` of the inner loop over the three axes; `b` is `(bMin, bMax)`. -/
def boxStep (vertex : Vec3 K) (b : Vec3 K × Vec3 K) (i : Fin 3) : Vec3 K × Vec3 K :=
  let bMin := if b.1.get i > vertex.get i then b.1.set i (vertex.get i) else b.1
  let bMax := if b.2.get i < vertex.get i then b.2.set i (vertex.get i) else b.2
  (bMin, bMax)

/-- The inner loop `for(unsigned i = 0; i < 3; ++i)`. -/
def boxLoop (vertex : Vec3 K) (b : Vec3 K × Vec3 K) : Vec3 K × Vec3 K :=
  [0, 1, 2].foldl (boxStep vertex) b

/-- The first loop over `vertices`: transforms every vertex in place and accumulates
`(bMin, bMax)`. -/
def pass1 (cfg : Config K) : List (Vec3 K) → Vec3 K × Vec3 K → List (Vec3 K) × (Vec3 K × Vec3 K)
  | [], b => ([], b)
  | vertex :: rest, b =>
    let v1 := transformVertex cfg vertex
    let r := pass1 cfg rest (boxLoop v1 b)
    (v1 :: r.1, r.2)

/-- The body of the second loop over `vertices`. -/
def rescaleY (cfg : Config K) (center : Vec3 K) (vertex : Vec3 K) : Vec3 K :=
  let v1 := vertex.set 1 (vertex.get 1 - center.y)
  let v2 := v1.set 1 (v1.get 1 * cfg.yScale)
  v2.set 1 (v2.get 1 + center.y)

/-- The second loop over `vertices`. -/
def pass2 (cfg : Config K) (center : Vec3 K) (vs : List (Vec3 K)) : List (Vec3 K) :=
  vs.map (rescaleY cfg center)

/-- The local variables and vectors changed by the strand loop; `randCalls` counts the
calls of `rand11` made so far. -/
structure LoadState (K : Type) where
  startVertex : Nat
  endVertex : Nat
  thicknesses : List K
  strandNumSegments : List Nat
  strandRanges : List (Nat × Nat)
  randCalls : Nat

/-- The body of the loop over `j`; the state is `(thicknesses, randCalls)` and `rnd k` is
the value returned by the `k`-th call of `rand11`. -/
def thicknessStep (cfg : Config K) (rnd : Nat → K) (f : CyHairFile K) (j : Nat)
    (s : List K × Nat) : Except Fault (List K × Nat) :=
  let base : K :=
    match f.thicknessArray with
    | some a => a j
    | none => f.d_thickness
  let scaled : K := base * (cfg.scale * cfg.thicknessScale)
  if cfg.thicknessJitter > 0 then
    (writeAt s.1 j (scaled * (1 + cfg.thicknessJitter * rnd s.2))).map (fun ts => (ts, s.2 + 1))
  else
    (writeAt s.1 j scaled).map (fun ts => (ts, s.2))

/-- The expression `bHasSegmentArray ? cyHair.GetSegmentsArray()[idx] : d_segments`. -/
def segmentsOf (f : CyHairFile K) (idx : Nat) : Nat :=
  match f.segmentsArray with
  | some a => a idx
  | none => f.d_segments

/-- The body of the loop over `idx`. The two vectors indexed by `idx` have just been
resized to `nStrands`, and `idx < nStrands`, so these two assignments are in bounds. -/
def strandStep (cfg : Config K) (rnd : Nat → K) (f : CyHairFile K) (idx : Nat)
    (s : LoadState K) : Except Fault (LoadState K) :=
  let segs : Nat := segmentsOf f idx
  let endVertex := u32add (u32add s.startVertex segs) 1
  match forLoopM endVertex (thicknessStep cfg rnd f) s.startVertex (s.thicknesses, s.randCalls) with
  | .error e => .error e
  | .ok r =>
    .ok { startVertex := endVertex
          endVertex := endVertex
          thicknesses := r.1
          strandNumSegments := s.strandNumSegments.set idx segs
          strandRanges := s.strandRanges.set idx (s.startVertex, endVertex)
          randCalls := r.2 }

/-- Lines 39-43: the header counts are stored and the two vertex vectors are resized. -/
def loadHeader (f : CyHairFile K) (m : Model K) : Model K :=
  { m with
    nStrands := f.hair_count
    nTotalVertices := f.point_count
    vertices := resize m.vertices f.point_count ⟨0, 0, 0⟩
    thicknesses := resize m.thicknesses f.point_count 0 }

/-- Lines 49-83: the points are copied, transformed and bounded, rescaled vertically, and the
two strand vectors are resized. -/
def loadVertices (cfg : Config K) (pts : Nat → Vec3 K) (m : Model K) : Model K :=
  let copied := memcpy m.vertices pts m.nTotalVertices
  let r := pass1 cfg copied (Vec3.splat 10000000000, Vec3.splat (-10000000000))
  let bMin := r.2.1
  let bMax := r.2.2
  let diff := bMax - bMin
  let center := (bMin + bMax) * (1 / 2 : K)
  { m with
    vertices := pass2 cfg center r.1
    bMin := bMin
    bMax := bMax
    diff := diff
    center := center
    strandNumSegments := resize m.strandNumSegments m.nStrands 0
    strandRanges := resize m.strandRanges m.nStrands (0, 0) }

/-- The variables of the strand loop before its first iteration (lines 91-92). -/
def initialLoadState (m : Model K) : LoadState K :=
  { startVertex := 0
    endVertex := 0
    thicknesses := m.thicknesses
    strandNumSegments := m.strandNumSegments
    strandRanges := m.strandRanges
    randCalls := 0 }

/-- The function `loadCYHairModel`, from the globals `m` before the call to the globals
after it, together with the exception or fault that ended the call, if any. -/
def loadCYHairModel (cfg : Config K) (rnd : Nat → K) (f : CyHairFile K) (m : Model K) :
    Model K × Option Fault :=
  if f.loadResult < 0 then (m, some .cannotLoad)
  else
    let m1 := loadHeader f m
    match f.pointsArray with
    | none => (m1, some .noPointArray)
    | some pts =>
      let m2 := loadVertices cfg pts m1
      match forLoopM m2.nStrands (strandStep cfg rnd f) 0 (initialLoadState m2) with
      | .error e => (m2, some e)
      | .ok s =>
        ({ m2 with
           thicknesses := s.thicknesses
           strandNumSegments := s.strandNumSegments
           strandRanges := s.strandRanges }, none)

/-- The number of vertices of the strands before strand `k`: the sum of
`segmentsOf f j + 1` over `j < k`. -/
def strandOffset (f : CyHairFile K) : Nat → Nat
  | 0 => 0
  | k + 1 => strandOffset f k + (segmentsOf f k + 1)

/-- The invariant of the strand loop after `k` iterations, for `n` strands and `L`
vertices. -/
def StrandInv (f : CyHairFile K) (n L k : Nat) (s : LoadState K) : Prop :=
  s.startVertex = strandOffset f k ∧ s.thicknesses.length = L ∧
    s.strandRanges.length = n ∧ s.strandNumSegments.length = n ∧
    (∀ i, i < k → s.strandRanges[i]? = some (strandOffset f i, strandOffset f (i + 1))) ∧
    (∀ i, i < k → s.strandNumSegments[i]? = some (segmentsOf f i))

/-- Componentwise `≤` on vectors. -/
def Vec3.le (a b : Vec3 K) : Prop := a.x ≤ b.x ∧ a.y ≤ b.y ∧ a.z ≤ b.z

instance (a b : Vec3 K) : Decidable (Vec3.le a b) := by
  unfold Vec3.le
  infer_instance

instance (f : CyHairFile K) (n L k : Nat) (s : LoadState K) : Decidable (StrandInv f n L k s) := by
  unfold StrandInv
  infer_instance

end Load

/-! ## Example files -/

/-- A file with one strand of two segments whose header announces five points. -/
def looseFile : CyHairFile ℚ :=
  { loadResult := 0
    hair_count := 1
    point_count := 5
    d_segments := 2
    d_thickness := 1
    pointsArray := some (fun _ => ⟨0, 0, 0⟩)
    segmentsArray := none
    thicknessArray := none }

/-- A file with three strands of `2`, `1` and `3` segments and nine points. -/
def threeStrandFile : CyHairFile ℚ :=
  { loadResult := 0
    hair_count := 3
    point_count := 9
    d_segments := 7
    d_thickness := 1
    pointsArray := some (fun j => ⟨j, 2 * j, 0⟩)
    segmentsArray := some (fun idx => if idx = 0 then 2 else if idx = 1 then 1 else 3)
    thicknessArray := none }

/-- The globals before `main` runs: zero-initialised. -/
def emptyModel (K : Type) [LinearOrderedField K] : Model K :=
  { nStrands := 0
    nTotalVertices := 0
    vertices := []
    thicknesses := []
    strandRanges := []
    strandNumSegments := []
    bMin := ⟨0, 0, 0⟩
    bMax := ⟨0, 0, 0⟩
    diff := ⟨0, 0, 0⟩
    center := ⟨0, 0, 0⟩ }

/-- A stand-in for the values returned by `rand11`. -/
def noRand (_k : Nat) : ℚ := 0

/-- A single vertex whose transformed `x` component exceeds `1e10`. -/
def farVertices : List (Vec3 ℚ) := [⟨100000000000, 0, 0⟩]

/-- Two vertices whose transformed components are small. -/
def nearVertices : List (Vec3 ℚ) := [⟨1, 2, 3⟩, ⟨-4, 5, 6⟩]

/-- A file with one strand of a single point whose transformed `y` component exceeds
`1e10`. -/
def farFile : CyHairFile ℚ :=
  { loadResult := 0
    hair_count := 1
    point_count := 1
    d_segments := 0
    d_thickness := 1
    pointsArray := some (fun _ => ⟨0, 0, 100000000000⟩)
    segmentsArray := none
    thicknessArray := none }

/-- A file that loads but has no points array; its header announces one strand and five
points. -/
def nullPointsFile : CyHairFile ℚ :=
  { loadResult := 0
    hair_count := 1
    point_count := 5
    d_segments := 4
    d_thickness := 1
    pointsArray := none
    segmentsArray := none
    thicknessArray := none }

/-- A file for which `LoadFromFile` reports a failure. -/
def failedFile : CyHairFile ℚ :=
  { loadResult := -1
    hair_count := 0
    point_count := 0
    d_segments := 0
    d_thickness := 0
    pointsArray := none
    segmentsArray := none
    thicknessArray := none }

/-! ## `float` as IEEE 754 binary32 -/

/-- The quotient `n / d` of two naturals rounded to the nearest integer, a tie going to the
even neighbour. -/
def roundHalfEven (n d : Nat) : Nat :=
  if 2 * (n % d) < d then n / d
  else if d < 2 * (n % d) then n / d + 1
  else if (n / d) % 2 = 0 then n / d else n / d + 1

/-- The exponent of the binary32 spacing at `n / d`, counted from the subnormal spacing
`2 ^ (-149)`: the number of `i = 1 .. 276` with `2 ^ (i - 126) ≤ n / d`. -/
def binadeF32 (n d : Nat) : Nat :=
  (List.range 276).countP (fun i => d * 2 ^ (i + 1 - 126) ≤ n * 2 ^ (126 - (i + 1)))

/-- The binary32 value nearest to the rational `q`, a tie going to the even significand
(the default rounding of every `float` operation): `q` is rounded to a multiple of the
spacing `2 ^ (c - 149)`, where `c = binadeF32 |q|`. Magnitudes of `2 ^ 128` and more, which
overflow, do not occur in this development, and neither do infinities, NaN or `-0`. -/
def roundF32 (q : ℚ) : ℚ :=
  let n := q.num.natAbs
  let d := q.den
  let c := binadeF32 n d
  let m := roundHalfEven (n * 2 ^ (149 - c)) (d * 2 ^ (c - 149))
  let mag : ℚ := mkRat (m * 2 ^ (c - 149)) (2 ^ (149 - c))
  if q < 0 then -mag else mag

/-- The binary32 value nearest to the square root of `3`. -/
def sqrt3F32 : ℚ := 14529495 / 8388608

/-- The function `std::pow` on `float` at the two calls `convert` makes (see
`Vec3.length`): `pow(3, 0.5f)` is the binary32 value nearest to the square root of `3`, and
`pow(3, 1.0f)` is `3`. At every other argument, which the program never passes, the base is
returned. -/
def powF32 (x y : ℚ) : ℚ := if x = 3 ∧ y = 1 / 2 then sqrt3F32 else x

namespace Vec3

/-- The sum `a + b` of two vectors, each component rounded by `rnd`. -/
def addR (rnd : ℚ → ℚ) (a b : Vec3 ℚ) : Vec3 ℚ := ⟨rnd (a.x + b.x), rnd (a.y + b.y), rnd (a.z + b.z)⟩

/-- The difference `a - b` of two vectors, each component rounded by `rnd`. -/
def subR (rnd : ℚ → ℚ) (a b : Vec3 ℚ) : Vec3 ℚ := ⟨rnd (a.x - b.x), rnd (a.y - b.y), rnd (a.z - b.z)⟩

/-- The product `scalar * vector`, each component rounded by `rnd`. -/
def smulR (rnd : ℚ → ℚ) (s : ℚ) (v : Vec3 ℚ) : Vec3 ℚ := ⟨rnd (s * v.x), rnd (s * v.y), rnd (s * v.z)⟩

/-- The product `vector * scalar`, each component rounded by `rnd`. -/
def mulR (rnd : ℚ → ℚ) (v : Vec3 ℚ) (s : ℚ) : Vec3 ℚ := ⟨rnd (v.x * s), rnd (v.y * s), rnd (v.z * s)⟩

/-- The quotient `vector / scalar`, each component rounded by `rnd`. -/
def divR (rnd : ℚ → ℚ) (v : Vec3 ℚ) (s : ℚ) : Vec3 ℚ := ⟨rnd (v.x / s), rnd (v.y / s), rnd (v.z / s)⟩

end Vec3

/-- The numerator of `Bi[1]` in `convert`, every operation rounded by `rnd`. -/
def convertNum1R (rnd : ℚ → ℚ) (pw : ℚ → ℚ → ℚ) (controlPoints : VPoints ℚ) : Vec3 ℚ :=
  let P0 := controlPoints.e0
  let P1 := controlPoints.e1
  let P2 := controlPoints.e2
  let d1 : ℚ := ((Vec3.subR rnd P0 P1).length : ℚ)
  let d2 : ℚ := ((Vec3.subR rnd P1 P2).length : ℚ)
  let d1_alpha := pw d1 alpha
  let d2_alpha := pw d2 alpha
  let d1_2alpha := pw d1 (rnd (2 * alpha))
  let d2_2alpha := pw d2 (rnd (2 * alpha))
  Vec3.addR rnd (Vec3.subR rnd (Vec3.smulR rnd d1_2alpha P2) (Vec3.smulR rnd d2_2alpha P0))
    (Vec3.smulR rnd
      (rnd (rnd (rnd (2 * d1_2alpha) + rnd (rnd (3 * d1_alpha) * d2_alpha)) + d2_2alpha)) P1)

/-- The denominator of `Bi[1]` in `convert`, every operation rounded by `rnd`. -/
def convertDen1R (rnd : ℚ → ℚ) (pw : ℚ → ℚ → ℚ) (controlPoints : VPoints ℚ) : ℚ :=
  let P0 := controlPoints.e0
  let P1 := controlPoints.e1
  let P2 := controlPoints.e2
  let d1 : ℚ := ((Vec3.subR rnd P0 P1).length : ℚ)
  let d2 : ℚ := ((Vec3.subR rnd P1 P2).length : ℚ)
  let d1_alpha := pw d1 alpha
  let d2_alpha := pw d2 alpha
  rnd (rnd (3 * d1_alpha) * rnd (d1_alpha + d2_alpha))

/-- The numerator of `Bi[2]` in `convert`, every operation rounded by `rnd`. -/
def convertNum2R (rnd : ℚ → ℚ) (pw : ℚ → ℚ → ℚ) (controlPoints : VPoints ℚ) : Vec3 ℚ :=
  let P1 := controlPoints.e1
  let P2 := controlPoints.e2
  let P3 := controlPoints.e3
  let d2 : ℚ := ((Vec3.subR rnd P1 P2).length : ℚ)
  let d3 : ℚ := ((Vec3.subR rnd P2 P3).length : ℚ)
  let d2_alpha := pw d2 alpha
  let d3_alpha := pw d3 alpha
  let d2_2alpha := pw d2 (rnd (2 * alpha))
  let d3_2alpha := pw d3 (rnd (2 * alpha))
  Vec3.addR rnd (Vec3.subR rnd (Vec3.smulR rnd d3_2alpha P1) (Vec3.smulR rnd d2_2alpha P3))
    (Vec3.smulR rnd
      (rnd (rnd (rnd (2 * d3_2alpha) + rnd (rnd (3 * d3_alpha) * d2_alpha)) + d2_2alpha)) P2)

/-- The denominator of `Bi[2]` in `convert`, every operation rounded by `rnd`. -/
def convertDen2R (rnd : ℚ → ℚ) (pw : ℚ → ℚ → ℚ) (controlPoints : VPoints ℚ) : ℚ :=
  let P1 := controlPoints.e1
  let P2 := controlPoints.e2
  let P3 := controlPoints.e3
  let d2 : ℚ := ((Vec3.subR rnd P1 P2).length : ℚ)
  let d3 : ℚ := ((Vec3.subR rnd P2 P3).length : ℚ)
  let d2_alpha := pw d2 alpha
  let d3_alpha := pw d3 alpha
  rnd (rnd (3 * d3_alpha) * rnd (d3_alpha + d2_alpha))

/-- The lambda `convert` of `savePBRT` with every arithmetic operation rounded by `rnd`;
`pw` is `std::pow`. With `rnd = roundF32` this is the `float` arithmetic of the program,
with `rnd = id` it is `convert` over `ℚ`. -/
def convertR (rnd : ℚ → ℚ) (pw : ℚ → ℚ → ℚ) (controlPoints : VPoints ℚ) : VPoints ℚ :=
  let P0 := controlPoints.e0
  let P1 := controlPoints.e1
  let P2 := controlPoints.e2
  let P3 := controlPoints.e3
  let d1 : ℚ := ((Vec3.subR rnd P0 P1).length : ℚ)
  let d2 : ℚ := ((Vec3.subR rnd P1 P2).length : ℚ)
  let d3 : ℚ := ((Vec3.subR rnd P2 P3).length : ℚ)
  let d1_alpha := pw d1 alpha
  let d2_alpha := pw d2 alpha
  let d3_alpha := pw d3 alpha
  let d1_2alpha := pw d1 (rnd (2 * alpha))
  let d2_2alpha := pw d2 (rnd (2 * alpha))
  let d3_2alpha := pw d3 (rnd (2 * alpha))
  { e0 := P1
    e3 := P2
    e1 := Vec3.divR rnd
      (Vec3.addR rnd (Vec3.subR rnd (Vec3.smulR rnd d1_2alpha P2) (Vec3.smulR rnd d2_2alpha P0))
        (Vec3.smulR rnd
          (rnd (rnd (rnd (2 * d1_2alpha) + rnd (rnd (3 * d1_alpha) * d2_alpha)) + d2_2alpha))
          P1))
      (rnd (rnd (3 * d1_alpha) * rnd (d1_alpha + d2_alpha)))
    e2 := Vec3.divR rnd
      (Vec3.addR rnd (Vec3.subR rnd (Vec3.smulR rnd d3_2alpha P1) (Vec3.smulR rnd d2_2alpha P3))
        (Vec3.smulR rnd
          (rnd (rnd (rnd (2 * d3_2alpha) + rnd (rnd (3 * d3_alpha) * d2_alpha)) + d2_2alpha))
          P2))
      (rnd (rnd (3 * d3_alpha) * rnd (d3_alpha + d2_alpha))) }

/-- Applies `convertR` to the window of a curve, as done before `writeFile`. -/
def convertCurveR (rnd : ℚ → ℚ) (pw : ℚ → ℚ → ℚ) (c : Curve ℚ) : Curve ℚ :=
  { c with points := convertR rnd pw c.points }

/-- The records written for one strand range (lines 189-220), with the arithmetic of
`convert` rounded by `rnd`. -/
def strandBodyR (rnd : ℚ → ℚ) (pw : ℚ → ℚ → ℚ) (m : Model ℚ) (range : Nat × Nat) :
    Except Fault (List (Curve ℚ)) :=
  (strandWindows m range).map (List.map (convertCurveR rnd pw))

/-- The function `savePBRT` with the arithmetic of `convert` rounded by `rnd`. -/
def savePBRTR (rnd : ℚ → ℚ) (pw : ℚ → ℚ → ℚ) (fileIsOpen : Bool) (m : Model ℚ) :
    Except Fault (List (Curve ℚ)) :=
  (savePBRTWindows fileIsOpen m).map (List.map (convertCurveR rnd pw))

/-- The values of the constants as `float` values: `0.17f` is the binary32 value nearest to
`17 / 100`; the other constants are binary32 values already. -/
def configF32 : Config ℚ :=
  { thicknessScale := 1
    thicknessJitter := 0
    yScale := 1
    scale := roundF32 (17 / 100)
    translation := ⟨0, 15 / 2, 0⟩ }

/-- The first three statements of the body of the first vertex loop, every operation
rounded by `rnd`. -/
def transformVertexR (rnd : ℚ → ℚ) (cfg : Config ℚ) (vertex : Vec3 ℚ) : Vec3 ℚ :=
  let swapped : Vec3 ℚ := ⟨vertex.x, vertex.z, vertex.y⟩
  let scaled : Vec3 ℚ := Vec3.mulR rnd swapped cfg.scale
  Vec3.addR rnd scaled cfg.translation

/-- The first loop over `vertices`, every operation rounded by `rnd`; the comparisons of the
axis loop are exact. -/
def pass1R (rnd : ℚ → ℚ) (cfg : Config ℚ) :
    List (Vec3 ℚ) → Vec3 ℚ × Vec3 ℚ → List (Vec3 ℚ) × (Vec3 ℚ × Vec3 ℚ)
  | [], b => ([], b)
  | vertex :: rest, b =>
    let v1 := transformVertexR rnd cfg vertex
    let r := pass1R rnd cfg rest (boxLoop v1 b)
    (v1 :: r.1, r.2)

/-- The body of the second loop over `vertices`, each of its three assignments rounded by
`rnd`. -/
def rescaleYR (rnd : ℚ → ℚ) (cfg : Config ℚ) (center : Vec3 ℚ) (vertex : Vec3 ℚ) : Vec3 ℚ :=
  let v1 := vertex.set 1 (rnd (vertex.get 1 - center.y))
  let v2 := v1.set 1 (rnd (v1.get 1 * cfg.yScale))
  v2.set 1 (rnd (v2.get 1 + center.y))

/-- The second loop over `vertices`, every operation rounded by `rnd`. -/
def pass2R (rnd : ℚ → ℚ) (cfg : Config ℚ) (center : Vec3 ℚ) (vs : List (Vec3 ℚ)) :
    List (Vec3 ℚ) :=
  vs.map (rescaleYR rnd cfg center)

/-- Lines 49-83 with every arithmetic operation rounded by `rnd`. -/
def loadVerticesR (rnd : ℚ → ℚ) (cfg : Config ℚ) (pts : Nat → Vec3 ℚ) (m : Model ℚ) :
    Model ℚ :=
  let copied := memcpy m.vertices pts m.nTotalVertices
  let r := pass1R rnd cfg copied (Vec3.splat 10000000000, Vec3.splat (-10000000000))
  let bMin := r.2.1
  let bMax := r.2.2
  let diff := Vec3.subR rnd bMax bMin
  let center := Vec3.mulR rnd (Vec3.addR rnd bMin bMax) (1 / 2 : ℚ)
  { m with
    vertices := pass2R rnd cfg center r.1
    bMin := bMin
    bMax := bMax
    diff := diff
    center := center
    strandNumSegments := resize m.strandNumSegments m.nStrands 0
    strandRanges := resize m.strandRanges m.nStrands (0, 0) }

/-- The body of the loop over `j`, every operation rounded by `rnd`. -/
def thicknessStepR (rnd : ℚ → ℚ) (cfg : Config ℚ) (rand : Nat → ℚ) (f : CyHairFile ℚ) (j : Nat)
    (s : List ℚ × Nat) : Except Fault (List ℚ × Nat) :=
  let base : ℚ :=
    match f.thicknessArray with
    | some a => a j
    | none => f.d_thickness
  let scaled : ℚ := rnd (base * rnd (cfg.scale * cfg.thicknessScale))
  if cfg.thicknessJitter > 0 then
    (writeAt s.1 j (rnd (scaled * rnd (1 + rnd (cfg.thicknessJitter * rand s.2))))).map
      (fun ts => (ts, s.2 + 1))
  else
    (writeAt s.1 j scaled).map (fun ts => (ts, s.2))

/-- The body of the loop over `idx`, every `float` operation rounded by `rnd`. -/
def strandStepR (rnd : ℚ → ℚ) (cfg : Config ℚ) (rand : Nat → ℚ) (f : CyHairFile ℚ) (idx : Nat)
    (s : LoadState ℚ) : Except Fault (LoadState ℚ) :=
  let segs : Nat := segmentsOf f idx
  let endVertex := u32add (u32add s.startVertex segs) 1
  match forLoopM endVertex (thicknessStepR rnd cfg rand f) s.startVertex
      (s.thicknesses, s.randCalls) with
  | .error e => .error e
  | .ok r =>
    .ok { startVertex := endVertex
          endVertex := endVertex
          thicknesses := r.1
          strandNumSegments := s.strandNumSegments.set idx segs
          strandRanges := s.strandRanges.set idx (s.startVertex, endVertex)
          randCalls := r.2 }

/-- The function `loadCYHairModel` with every `float` operation rounded by `rnd`. -/
def loadCYHairModelR (rnd : ℚ → ℚ) (cfg : Config ℚ) (rand : Nat → ℚ) (f : CyHairFile ℚ)
    (m : Model ℚ) : Model ℚ × Option Fault :=
  if f.loadResult < 0 then (m, some .cannotLoad)
  else
    let m1 := loadHeader f m
    match f.pointsArray with
    | none => (m1, some .noPointArray)
    | some pts =>
      let m2 := loadVerticesR rnd cfg pts m1
      match forLoopM m2.nStrands (strandStepR rnd cfg rand f) 0 (initialLoadState m2) with
      | .error e => (m2, some e)
      | .ok s =>
        ({ m2 with
           thicknesses := s.thicknesses
           strandNumSegments := s.strandNumSegments
           strandRanges := s.strandRanges }, none)

/-- A file with one strand of two points, `(0, 0, -200)` and `(0, 0, -44)`. -/
def dipFile : CyHairFile ℚ :=
  { loadResult := 0
    hair_count := 1
    point_count := 2
    d_segments := 1
    d_thickness := 1
    pointsArray := some (fun j => if j = 0 then ⟨0, 0, -200⟩ else ⟨0, 0, -44⟩)
    segmentsArray := none
    thicknessArray := none }

/-- One strand of four vertices, all at `(0, 7.5, 0)`, with thickness `1`: scenario D after
the translation of `loadCYHairModel`. -/
def liftedPointModel : Model ℚ :=
  { nStrands := 1
    nTotalVertices := 4
    vertices := [⟨0, 15 / 2, 0⟩, ⟨0, 15 / 2, 0⟩, ⟨0, 15 / 2, 0⟩, ⟨0, 15 / 2, 0⟩]
    thicknesses := [1, 1, 1, 1]
    strandRanges := [(0, 4)]
    strandNumSegments := [3]
    bMin := ⟨0, 15 / 2, 0⟩
    bMax := ⟨0, 15 / 2, 0⟩
    diff := ⟨0, 0, 0⟩
    center := ⟨0, 15 / 2, 0⟩ }

/-- A tail window `(v0, v1, v2, v2)` of three equally spaced points on the x axis. -/
def tailWindow (K : Type) [LinearOrderedField K] : VPoints K :=
  ⟨⟨0, 0, 0⟩, ⟨6, 0, 0⟩, ⟨12, 0, 0⟩, ⟨12, 0, 0⟩⟩

/-- The configured constants with the vertical factor `yScale = 1 / 2`. -/
def halfConfig : Config ℚ :=
  { thicknessScale := 1
    thicknessJitter := 0
    yScale := 1 / 2
    scale := 17 / 100
    translation := ⟨0, 15 / 2, 0⟩ }

/-- A file with one strand of three points `(0, 0, 0)`, `(0, 0, 100)`, `(0, 0, 200)`. -/
def tallFile : CyHairFile ℚ :=
  { loadResult := 0
    hair_count := 1
    point_count := 3
    d_segments := 2
    d_thickness := 1
    pointsArray := some (fun j => ⟨0, 0, 100 * j⟩)
    segmentsArray := none
    thicknessArray := none }

/-! # Theorems -/

namespace Vec3

variable {K : Type}

@[simp] theorem add_x [Add K] (a b : Vec3 K) : (a + b).x = a.x + b.x := rfl
@[simp] theorem add_y [Add K] (a b : Vec3 K) : (a + b).y = a.y + b.y := rfl
@[simp] theorem add_z [Add K] (a b : Vec3 K) : (a + b).z = a.z + b.z := rfl
@[simp] theorem sub_x [Sub K] (a b : Vec3 K) : (a - b).x = a.x - b.x := rfl
@[simp] theorem sub_y [Sub K] (a b : Vec3 K) : (a - b).y = a.y - b.y := rfl
@[simp] theorem sub_z [Sub K] (a b : Vec3 K) : (a - b).z = a.z - b.z := rfl
@[simp] theorem smul_x [Mul K] (s : K) (v : Vec3 K) : (s * v).x = s * v.x := rfl
@[simp] theorem smul_y [Mul K] (s : K) (v : Vec3 K) : (s * v).y = s * v.y := rfl
@[simp] theorem smul_z [Mul K] (s : K) (v : Vec3 K) : (s * v).z = s * v.z := rfl
@[simp] theorem mul_x [Mul K] (v : Vec3 K) (s : K) : (v * s).x = v.x * s := rfl
@[simp] theorem mul_y [Mul K] (v : Vec3 K) (s : K) : (v * s).y = v.y * s := rfl
@[simp] theorem mul_z [Mul K] (v : Vec3 K) (s : K) : (v * s).z = v.z * s := rfl
@[simp] theorem div_x [Div K] (v : Vec3 K) (s : K) : (v / s).x = v.x / s := rfl
@[simp] theorem div_y [Div K] (v : Vec3 K) (s : K) : (v / s).y = v.y / s := rfl
@[simp] theorem div_z [Div K] (v : Vec3 K) (s : K) : (v / s).z = v.z / s := rfl

end Vec3

/-! ## Lemmas on the index arithmetic of `savePBRT` -/

section SaveLemmas

variable {K : Type} [LinearOrderedField K]

theorem u32sub_lt (a b : Nat) : u32sub a b < 4294967296 := by
  unfold u32sub
  omega

theorem u32sub_of_le (a b : Nat) (hb : b ≤ a) (ha : a < 4294967296) : u32sub a b = a - b := by
  unfold u32sub
  omega

theorem u32add_of_lt (a b : Nat) (h : a + b < 4294967296) : u32add a b = a + b := by
  unfold u32add
  omega

/-- The middle loop visits `i, i + 1, ...` up to its bound. -/
theorem interiorLoop_eq (range : Nat × Nat) :
    ∀ (n i : Nat), i + n = u32sub range.2 3 →
      interiorLoop range i = (List.range' i n).map loopReads := by
  intro n
  induction n with
  | zero =>
    intro i h
    rw [interiorLoop]
    simp only [Nat.add_zero] at h
    simp [h]
  | succ n ih =>
    intro i h
    have hb := u32sub_lt range.2 3
    have hlt : i < u32sub range.2 3 := by omega
    have hstep : u32add i 1 = i + 1 := u32add_of_lt i 1 (by omega)
    rw [interiorLoop, dif_pos hlt, hstep, ih (i + 1) (by omega)]
    simp [List.range']

/-- The indices read in the middle loop when the additions do not wrap. -/
theorem loopReads_of_lt (i : Nat) (h : i + 3 < 4294967296) :
    loopReads i = ⟨i, i + 1, i + 2, i + 3, i, i + 3⟩ := by
  simp [loopReads, u32add_of_lt i 1 (by omega), u32add_of_lt i 2 (by omega),
    u32add_of_lt i 3 h]

/-- The index reads of a strand of `R ≥ 4` vertices starting at `s`. -/
theorem strandReads_closed (s R : Nat) (hR : 4 ≤ R) (h32 : s + R < 4294967296) :
    strandReads (s, s + R) =
      (⟨s, s, s + 1, s + 2, s, s + 2⟩ : Reads) ::
        ((List.range (R - 4)).map
            (fun i => (⟨s + 1 + i, s + 2 + i, s + 3 + i, s + 4 + i, s + 1 + i, s + 4 + i⟩ : Reads))
          ++ [(⟨s + R - 3, s + R - 2, s + R - 1, s + R - 1, s + R - 3, s + R - 1⟩ : Reads)]) := by
  have hsub : u32sub (s + R) s = R := by rw [u32sub_of_le _ _ (by omega) h32]; omega
  have h3 : u32sub (s + R) 3 = s + R - 3 := u32sub_of_le _ _ (by omega) h32
  have h2 : u32sub (s + R) 2 = s + R - 2 := u32sub_of_le _ _ (by omega) h32
  have h1 : u32sub (s + R) 1 = s + R - 1 := u32sub_of_le _ _ (by omega) h32
  have a1 : u32add s 1 = s + 1 := u32add_of_lt _ _ (by omega)
  have a2 : u32add s 2 = s + 2 := u32add_of_lt _ _ (by omega)
  have hloop := interiorLoop_eq (s, s + R) (R - 4) (s + 1) (by simp only [h3]; omega)
  have hmid : (List.range' (s + 1) (R - 4)).map loopReads =
      (List.range (R - 4)).map
        (fun i => (⟨s + 1 + i, s + 2 + i, s + 3 + i, s + 4 + i, s + 1 + i, s + 4 + i⟩ : Reads)) := by
    rw [List.range'_eq_map_range, List.map_map]
    apply List.map_congr_left
    intro i hi
    have hi4 : i < R - 4 := List.mem_range.mp hi
    simp only [Function.comp]
    rw [loopReads_of_lt (s + 1 + i) (by omega)]
    simp only [Reads.mk.injEq]
    refine ⟨trivial, by omega, by omega, by omega, trivial, by omega⟩
  unfold strandReads
  rw [if_neg (by rw [hsub]; omega)]
  simp only [headReads, tailReads, h1, h2, h3, a1, a2, hloop, hmid]

/-- A strand with fewer than four vertices reads nothing. -/
theorem strandReads_short (range : Nat × Nat) (h : u32sub range.2 range.1 < 4) :
    strandReads range = [] := by
  simp [strandReads, h]


theorem readAt_of_lt {α : Type} (xs : List α) (i : Nat) (d : α) (h : i < xs.length) :
    readAt xs i = .ok (xs.getD i d) := by
  simp [readAt, List.getD, List.getElem?_eq_getElem h]

theorem readAt_of_le {α : Type} (xs : List α) (i : Nat) (h : xs.length ≤ i) :
    readAt xs i = .error .outOfBounds := by
  simp [readAt, List.getElem?_eq_none h]

theorem fetch_ok (m : Model K) (r : Reads) (h : InBounds m r) : fetch m r = .ok (peek m r) := by
  obtain ⟨h0, h1, h2, h3, h4, h5⟩ := h
  simp only [fetch, readAt_of_lt _ _ (⟨0, 0, 0⟩ : Vec3 K) h0, readAt_of_lt _ _ (⟨0, 0, 0⟩ : Vec3 K) h1,
    readAt_of_lt _ _ (⟨0, 0, 0⟩ : Vec3 K) h2, readAt_of_lt _ _ (⟨0, 0, 0⟩ : Vec3 K) h3,
    readAt_of_lt _ _ (0 : K) h4, readAt_of_lt _ _ (0 : K) h5, peek]
  rfl

theorem fetchAll_ok (m : Model K) :
    ∀ rs : List Reads, (∀ r ∈ rs, InBounds m r) → fetchAll m rs = .ok (rs.map (peek m)) := by
  intro rs
  induction rs with
  | nil => intro _; rfl
  | cons r rs ih =>
    intro h
    have hr := fetch_ok m r (h r (List.mem_cons_self r rs))
    have hrs := ih (fun q hq => h q (List.mem_cons_of_mem r hq))
    simp only [fetchAll, hr, hrs, List.map_cons]
    rfl

end SaveLemmas

/-! ## The reads and windows of one strand -/

section StrandLemmas

variable {K : Type} [LinearOrderedField K]

theorem strandReads_length (s R : Nat) (hR : 4 ≤ R) (h32 : s + R < 4294967296) :
    (strandReads (s, s + R)).length = R - 2 := by
  rw [strandReads_closed s R hR h32]
  simp only [List.length_cons, List.length_append, List.length_map, List.length_range,
    List.length_nil]
  omega

theorem strandReads_head (s R : Nat) (hR : 4 ≤ R) (h32 : s + R < 4294967296) :
    (strandReads (s, s + R))[0]? = some ⟨s, s, s + 1, s + 2, s, s + 2⟩ := by
  rw [strandReads_closed s R hR h32, List.getElem?_cons_zero]

theorem strandReads_mid (s R i : Nat) (hR : 4 ≤ R) (h32 : s + R < 4294967296)
    (h1 : 1 ≤ i) (h2 : i ≤ R - 4) :
    (strandReads (s, s + R))[i]? = some ⟨s + i, s + i + 1, s + i + 2, s + i + 3, s + i, s + i + 3⟩ := by
  rw [strandReads_closed s R hR h32]
  obtain ⟨j, rfl⟩ : ∃ j, i = j + 1 := ⟨i - 1, by omega⟩
  rw [List.getElem?_cons_succ, List.getElem?_append_left (by simp; omega), List.getElem?_map,
    List.getElem?_range (by omega)]
  simp only [Option.map_some', Option.some.injEq, Reads.mk.injEq]
  refine ⟨by omega, by omega, by omega, by omega, by omega, by omega⟩

theorem strandReads_last (s R : Nat) (hR : 4 ≤ R) (h32 : s + R < 4294967296) :
    (strandReads (s, s + R))[R - 3]? =
      some ⟨s + R - 3, s + R - 2, s + R - 1, s + R - 1, s + R - 3, s + R - 1⟩ := by
  rw [strandReads_closed s R hR h32]
  obtain ⟨j, hj⟩ : ∃ j, R - 3 = j + 1 := ⟨R - 4, by omega⟩
  rw [hj, List.getElem?_cons_succ, List.getElem?_append_right (by simp; omega)]
  have : j - (List.map (fun i => (⟨s + 1 + i, s + 2 + i, s + 3 + i, s + 4 + i, s + 1 + i,
      s + 4 + i⟩ : Reads)) (List.range (R - 4))).length = 0 := by
    simp only [List.length_map, List.length_range]
    omega
  rw [this]
  rfl

/-- Every index read for a strand lies inside the strand's range. -/
theorem strandReads_within (s R : Nat) (hR : 4 ≤ R) (h32 : s + R < 4294967296) :
    ∀ r ∈ strandReads (s, s + R),
      (s ≤ r.v0 ∧ r.v0 < s + R) ∧ (s ≤ r.v1 ∧ r.v1 < s + R) ∧ (s ≤ r.v2 ∧ r.v2 < s + R) ∧
      (s ≤ r.v3 ∧ r.v3 < s + R) ∧ (s ≤ r.w0 ∧ r.w0 < s + R) ∧ (s ≤ r.w1 ∧ r.w1 < s + R) := by
  intro r hr
  rw [strandReads_closed s R hR h32] at hr
  simp only [List.mem_cons, List.mem_append, List.mem_map, List.mem_range, List.mem_singleton,
    List.not_mem_nil, or_false] at hr
  rcases hr with rfl | ⟨i, hi, rfl⟩ | rfl
  · refine ⟨⟨?_, ?_⟩, ⟨?_, ?_⟩, ⟨?_, ?_⟩, ⟨?_, ?_⟩, ⟨?_, ?_⟩, ⟨?_, ?_⟩⟩ <;> simp only <;> omega
  · refine ⟨⟨?_, ?_⟩, ⟨?_, ?_⟩, ⟨?_, ?_⟩, ⟨?_, ?_⟩, ⟨?_, ?_⟩, ⟨?_, ?_⟩⟩ <;> simp only <;> omega
  · refine ⟨⟨?_, ?_⟩, ⟨?_, ?_⟩, ⟨?_, ?_⟩, ⟨?_, ?_⟩, ⟨?_, ?_⟩, ⟨?_, ?_⟩⟩ <;> simp only <;> omega

/-- When the strand lies inside both vectors, its windows are read without fault. -/
theorem strandWindows_ok (m : Model K) (s R : Nat) (hR : 4 ≤ R) (h32 : s + R < 4294967296)
    (hv : s + R ≤ m.vertices.length) (ht : s + R ≤ m.thicknesses.length) :
    strandWindows m (s, s + R) = .ok ((strandReads (s, s + R)).map (peek m)) := by
  unfold strandWindows
  apply fetchAll_ok
  intro r hr
  have h := strandReads_within s R hR h32 r hr
  unfold InBounds
  omega

/-- A strand with fewer than four vertices yields no window. -/
theorem strandWindows_short (m : Model K) (range : Nat × Nat)
    (h : u32sub range.2 range.1 < 4) : strandWindows m range = .ok [] := by
  unfold strandWindows
  rw [strandReads_short range h]
  rfl

theorem getElem?_eq_some_getD {α : Type} (xs : List α) (i : Nat) (d : α) (h : i < xs.length) :
    xs[i]? = some (xs.getD i d) := by
  simp [List.getD, List.getElem?_eq_getElem h]

end StrandLemmas

/-! ## Curves emitted for one strand -/

section StrandClaims

variable {K : Type} [LinearOrderedField K]

theorem peek_isReadOf (m : Model K) (r : Reads) (h : InBounds m r) : IsReadOf m r (peek m r) := by
  obtain ⟨h0, h1, h2, h3, h4, h5⟩ := h
  exact ⟨getElem?_eq_some_getD _ _ _ h0, getElem?_eq_some_getD _ _ _ h1,
    getElem?_eq_some_getD _ _ _ h2, getElem?_eq_some_getD _ _ _ h3,
    getElem?_eq_some_getD _ _ _ h4, getElem?_eq_some_getD _ _ _ h5⟩

theorem strandBody_of_windows (pw : K → K → K) (m : Model K) (range : Nat × Nat)
    (ws : List (Curve K)) (h : strandWindows m range = .ok ws) :
    strandBody pw m range = .ok (ws.map (convertCurve pw)) := by
  unfold strandBody
  rw [h]
  rfl

/-- C1. For a strand range `[start, stop)` with `R = stop - start`, the body of the strand
loop reads for exactly `R - 2` curves when `R ≥ 4` and for none when `R < 4`; it emits no
record when `R < 4`, and exactly `R - 2` records when `R ≥ 4` and the range lies inside
`vertices` and `thicknesses`. -/
theorem strandBody_curve_count (pw : K → K → K) (m : Model K) (start stop : Nat)
    (hle : start ≤ stop) (h32 : stop < 4294967296) :
    (strandReads (start, stop)).length = (if stop - start < 4 then 0 else stop - start - 2) ∧
    (stop - start < 4 → strandBody pw m (start, stop) = .ok []) ∧
    (4 ≤ stop - start → stop ≤ m.vertices.length → stop ≤ m.thicknesses.length →
      ∃ cs, strandBody pw m (start, stop) = .ok cs ∧ cs.length = stop - start - 2) := by
  obtain ⟨R, rfl⟩ := Nat.exists_eq_add_of_le hle
  have hsub : u32sub (start + R) start = R := by
    rw [u32sub_of_le _ _ (by omega) h32]; omega
  have hR : start + R - start = R := by omega
  rw [hR]
  refine ⟨?_, ?_, ?_⟩
  · by_cases h : R < 4
    · rw [if_pos h, strandReads_short _ (by simpa [hsub] using h)]
      rfl
    · rw [if_neg h, strandReads_length start R (by omega) h32]
  · intro h
    exact strandBody_of_windows pw m _ [] (strandWindows_short m _ (by simpa [hsub] using h))
  · intro h hv ht
    refine ⟨_, strandBody_of_windows pw m _ _ (strandWindows_ok m start R h h32 hv ht), ?_⟩
    rw [List.length_map, List.length_map, strandReads_length start R h h32]

/-- Witness of C1: the five-vertex strand of `exampleModel` yields three records. -/
theorem strandBody_curve_count_witness :
    (0 ≤ 5 ∧ 5 < 4294967296) ∧
    ((strandReads (0, 5)).length = (if 5 - 0 < 4 then 0 else 5 - 0 - 2) ∧
     (5 - 0 < 4 → strandBody powBase exampleModel (0, 5) = .ok []) ∧
     (4 ≤ 5 - 0 → 5 ≤ exampleModel.vertices.length → 5 ≤ exampleModel.thicknesses.length →
       ∃ cs, strandBody powBase exampleModel (0, 5) = .ok cs ∧ cs.length = 5 - 0 - 2)) :=
  ⟨⟨by decide, by decide⟩, strandBody_curve_count powBase exampleModel 0 5 (by decide) (by decide)⟩

/-- In every read of a strand, the second and third window index are `s + k` and
`s + k + 1` for some `k ≤ R - 2`. -/
theorem strandReads_consecutive (s R : Nat) (hR : 4 ≤ R) (h32 : s + R < 4294967296) :
    ∀ r ∈ strandReads (s, s + R), ∃ k, k ≤ R - 2 ∧ r.v1 = s + k ∧ r.v2 = s + k + 1 := by
  intro r hr
  rw [strandReads_closed s R hR h32] at hr
  simp only [List.mem_cons, List.mem_append, List.mem_map, List.mem_range, List.mem_singleton,
    List.not_mem_nil, or_false] at hr
  rcases hr with rfl | ⟨i, hi, rfl⟩ | rfl
  · exact ⟨0, by omega, rfl, rfl⟩
  · exact ⟨i + 2, by omega, by simp only; omega, by simp only; omega⟩
  · exact ⟨R - 2, by omega, by simp only; omega, by simp only; omega⟩

theorem strandReads_head? (s R : Nat) (hR : 4 ≤ R) (h32 : s + R < 4294967296) :
    (strandReads (s, s + R)).head? = some ⟨s, s, s + 1, s + 2, s, s + 2⟩ := by
  rw [strandReads_closed s R hR h32]
  rfl

theorem strandReads_getLast? (s R : Nat) (hR : 4 ≤ R) (h32 : s + R < 4294967296) :
    (strandReads (s, s + R)).getLast? =
      some ⟨s + R - 3, s + R - 2, s + R - 1, s + R - 1, s + R - 3, s + R - 1⟩ := by
  rw [strandReads_closed s R hR h32, ← List.cons_append, List.getLast?_append]
  rfl

/-- C3. For a strand with `R ≥ 4` vertices lying inside the vectors, every emitted curve
has `B0 = v_k` and `B3 = v_{k+1}` for some `0 ≤ k ≤ R - 2`; the first emitted curve starts
at the first vertex of the strand and the last emitted curve ends at its last vertex. -/
theorem strandBody_spans_segments (pw : K → K → K) (m : Model K) (start stop : Nat)
    (hle : start ≤ stop) (h32 : stop < 4294967296) (hR : 4 ≤ stop - start)
    (hv : stop ≤ m.vertices.length) (ht : stop ≤ m.thicknesses.length) :
    ∃ cs, strandBody pw m (start, stop) = .ok cs ∧
      (∀ c ∈ cs, ∃ k, k ≤ stop - start - 2 ∧
        m.vertices[start + k]? = some c.points.e0 ∧
        m.vertices[start + k + 1]? = some c.points.e3) ∧
      cs.head?.map (fun c => c.points.e0) = m.vertices[start]? ∧
      cs.getLast?.map (fun c => c.points.e3) = m.vertices[stop - 1]? := by
  obtain ⟨R, rfl⟩ := Nat.exists_eq_add_of_le hle
  have hR4 : 4 ≤ R := by omega
  have hRR : start + R - start = R := by omega
  rw [hRR]
  refine ⟨_, strandBody_of_windows pw m _ _ (strandWindows_ok m start R hR4 h32 hv ht), ?_, ?_, ?_⟩
  · intro c hc
    simp only [List.mem_map] at hc
    obtain ⟨w, ⟨r, hr, rfl⟩, rfl⟩ := hc
    obtain ⟨k, hk, h1, h2⟩ := strandReads_consecutive start R hR4 h32 r hr
    have hw := strandReads_within start R hR4 h32 r hr
    refine ⟨k, hk, ?_, ?_⟩
    · rw [← h1]
      exact getElem?_eq_some_getD _ _ _ (by omega)
    · rw [← h2]
      exact getElem?_eq_some_getD _ _ _ (by omega)
  · rw [List.head?_map, List.head?_map, strandReads_head? start R hR4 h32]
    simp only [Option.map_some', convertCurve, convert, peek]
    exact (getElem?_eq_some_getD _ _ _ (by omega)).symm
  · rw [List.getLast?_map, List.getLast?_map, strandReads_getLast? start R hR4 h32]
    simp only [Option.map_some', convertCurve, convert, peek]
    exact (getElem?_eq_some_getD _ _ _ (by omega)).symm

/-- Witness of C3 on the five-vertex strand of `exampleModel`. -/
theorem strandBody_spans_segments_witness :
    (0 ≤ 5 ∧ 5 < 4294967296 ∧ 4 ≤ 5 - 0 ∧ 5 ≤ exampleModel.vertices.length ∧
      5 ≤ exampleModel.thicknesses.length) ∧
    ∃ cs, strandBody powBase exampleModel (0, 5) = .ok cs ∧
      (∀ c ∈ cs, ∃ k, k ≤ 5 - 0 - 2 ∧
        exampleModel.vertices[0 + k]? = some c.points.e0 ∧
        exampleModel.vertices[0 + k + 1]? = some c.points.e3) ∧
      cs.head?.map (fun c => c.points.e0) = exampleModel.vertices[0]? ∧
      cs.getLast?.map (fun c => c.points.e3) = exampleModel.vertices[5 - 1]? :=
  ⟨⟨by decide, by decide, by decide, by decide, by decide⟩,
    strandBody_spans_segments powBase exampleModel 0 5 (by decide) (by decide) (by decide)
      (by decide) (by decide)⟩

/-- The window and widths at position `i` of a strand are those read at the indices at
position `i` of `strandReads`. -/
theorem strandWindows_getElem? (m : Model K) (s R i : Nat) (r : Reads) (c : Curve K)
    (hR : 4 ≤ R) (h32 : s + R < 4294967296)
    (hv : s + R ≤ m.vertices.length) (ht : s + R ≤ m.thicknesses.length)
    (hr : (strandReads (s, s + R))[i]? = some r)
    (hc : ((strandReads (s, s + R)).map (peek m))[i]? = some c) : IsReadOf m r c := by
  rw [List.getElem?_map, hr] at hc
  simp only [Option.map_some', Option.some.injEq] at hc
  subst hc
  apply peek_isReadOf
  have h := strandReads_within s R hR h32 r (List.getElem?_mem hr)
  unfold InBounds
  omega

/-- C2, as amended. For a strand with `R ≥ 4` vertices lying inside the vectors, the two
widths written with a curve are the thicknesses at the first and the last index of the
curve's window (`P0` and `P3`): the head window `(v0, v0, v1, v2)` carries the thicknesses
of `v0` and `v2`, the interior window `(v_i, .., v_{i+3})` those of `v_i` and `v_{i+3}`,
and the tail window `(v_{R-3}, v_{R-2}, v_{R-1}, v_{R-1})` those of `v_{R-3}` and
`v_{R-1}`. -/
theorem strandBody_widths_of_window_ends (pw : K → K → K) (m : Model K) (start stop : Nat)
    (hle : start ≤ stop) (h32 : stop < 4294967296) (hR : 4 ≤ stop - start)
    (hv : stop ≤ m.vertices.length) (ht : stop ≤ m.thicknesses.length) :
    ∃ ws, strandWindows m (start, stop) = .ok ws ∧
      strandBody pw m (start, stop) = .ok (ws.map (convertCurve pw)) ∧
      ws.length = stop - start - 2 ∧
      (∀ c, ws[0]? = some c →
        IsReadOf m ⟨start, start, start + 1, start + 2, start, start + 2⟩ c ∧
        (convertCurve pw c).t0 = c.t0 ∧ (convertCurve pw c).t1 = c.t1) ∧
      (∀ i c, 1 ≤ i → i ≤ stop - start - 4 → ws[i]? = some c →
        IsReadOf m ⟨start + i, start + i + 1, start + i + 2, start + i + 3,
          start + i, start + i + 3⟩ c ∧
        (convertCurve pw c).t0 = c.t0 ∧ (convertCurve pw c).t1 = c.t1) ∧
      (∀ c, ws[stop - start - 3]? = some c →
        IsReadOf m ⟨stop - 3, stop - 2, stop - 1, stop - 1, stop - 3, stop - 1⟩ c ∧
        (convertCurve pw c).t0 = c.t0 ∧ (convertCurve pw c).t1 = c.t1) := by
  obtain ⟨R, rfl⟩ := Nat.exists_eq_add_of_le hle
  have hR4 : 4 ≤ R := by omega
  have hRR : start + R - start = R := by omega
  rw [hRR]
  have hw := strandWindows_ok m start R hR4 h32 hv ht
  refine ⟨_, hw, strandBody_of_windows pw m _ _ hw, ?_, ?_, ?_, ?_⟩
  · rw [List.length_map, strandReads_length start R hR4 h32]
  · intro c hc
    exact ⟨strandWindows_getElem? m start R 0 _ c hR4 h32 hv ht
      (strandReads_head start R hR4 h32) hc, rfl, rfl⟩
  · intro i c h1 h2 hc
    exact ⟨strandWindows_getElem? m start R i _ c hR4 h32 hv ht
      (strandReads_mid start R i hR4 h32 h1 h2) hc, rfl, rfl⟩
  · intro c hc
    exact ⟨strandWindows_getElem? m start R (R - 3) _ c hR4 h32 hv ht
      (strandReads_last start R hR4 h32) hc, rfl, rfl⟩

/-- Witness of the amended C2 on the five-vertex strand of `exampleModel`. -/
theorem strandBody_widths_of_window_ends_witness :
    (0 ≤ 5 ∧ 5 < 4294967296 ∧ 4 ≤ 5 - 0 ∧ 5 ≤ exampleModel.vertices.length ∧
      5 ≤ exampleModel.thicknesses.length) ∧
    ∃ ws, strandWindows exampleModel (0, 5) = .ok ws ∧
      strandBody powBase exampleModel (0, 5) = .ok (ws.map (convertCurve powBase)) ∧
      ws.length = 5 - 0 - 2 ∧
      (∀ c, ws[0]? = some c →
        IsReadOf exampleModel ⟨0, 0, 0 + 1, 0 + 2, 0, 0 + 2⟩ c ∧
        (convertCurve powBase c).t0 = c.t0 ∧ (convertCurve powBase c).t1 = c.t1) ∧
      (∀ i c, 1 ≤ i → i ≤ 5 - 0 - 4 → ws[i]? = some c →
        IsReadOf exampleModel ⟨0 + i, 0 + i + 1, 0 + i + 2, 0 + i + 3, 0 + i, 0 + i + 3⟩ c ∧
        (convertCurve powBase c).t0 = c.t0 ∧ (convertCurve powBase c).t1 = c.t1) ∧
      (∀ c, ws[5 - 0 - 3]? = some c →
        IsReadOf exampleModel ⟨5 - 3, 5 - 2, 5 - 1, 5 - 1, 5 - 3, 5 - 1⟩ c ∧
        (convertCurve powBase c).t0 = c.t0 ∧ (convertCurve powBase c).t1 = c.t1) :=
  ⟨⟨by decide, by decide, by decide, by decide, by decide⟩,
    strandBody_widths_of_window_ends powBase exampleModel 0 5 (by decide) (by decide)
      (by decide) (by decide) (by decide)⟩

/-- The records written for the five-vertex strand of `exampleModel` begin with a record
whose widths are `1` and `3`. -/
theorem exampleModel_head_widths :
    ∃ cs, strandBody powBase exampleModel (0, 5) = .ok cs ∧
      cs[0]?.map (fun c => (c.t0, c.t1)) = some (1, 3) := by
  have hw := strandWindows_ok exampleModel 0 5 (by decide) (by decide) (by decide) (by decide)
  refine ⟨_, strandBody_of_windows powBase exampleModel _ _ hw, ?_⟩
  rw [List.getElem?_map, List.getElem?_map, strandReads_head 0 5 (by decide) (by decide)]
  rfl

/-- Counterexample to C2 as stated: on the five-vertex strand of `exampleModel`, whose head
window is `(v0, v0, v1, v2)`, the second width written with the head curve is the
thickness `3` of `v2`, not the thickness `2` of `v1`. -/
theorem strandBody_head_width_not_of_v1 :
    ¬ (∀ cs, strandBody powBase exampleModel (0, 5) = .ok cs →
        cs[0]?.map (fun c => c.t1) = exampleModel.thicknesses[0 + 1]?) := by
  intro h
  obtain ⟨cs, hcs, h0⟩ := exampleModel_head_widths
  have h1 := h cs hcs
  cases hc : cs[0]? with
  | none => rw [hc] at h0; simp at h0
  | some c =>
    rw [hc] at h0 h1
    simp only [Option.map_some', Option.some.injEq, Prod.mk.injEq] at h0
    have h2 : c.t1 = (2 : ℚ) := by
      have : exampleModel.thicknesses[0 + 1]? = some (2 : ℚ) := rfl
      rw [this] at h1
      simpa using h1
    rw [h0.2] at h2
    norm_num at h2

end StrandClaims

/-! ## The strand loop of `savePBRT` -/

section LoopClaims

variable {K : Type} [LinearOrderedField K]

/-- The windows of one strand range in closed form: none when `R < 4`, otherwise the head
window, the interior windows at offsets `1 .. R - 4`, and the tail window. -/
theorem strandWindows_closed (m : Model K) (start stop : Nat) (hle : start ≤ stop)
    (h32 : stop < 4294967296) (hv : stop ≤ m.vertices.length)
    (ht : stop ≤ m.thicknesses.length) :
    strandWindows m (start, stop) = .ok
      (if stop - start < 4 then []
       else peek m ⟨start, start, start + 1, start + 2, start, start + 2⟩ ::
         ((List.range (stop - start - 4)).map (fun i =>
              peek m ⟨start + 1 + i, start + 2 + i, start + 3 + i, start + 4 + i,
                start + 1 + i, start + 4 + i⟩)
           ++ [peek m ⟨stop - 3, stop - 2, stop - 1, stop - 1, stop - 3, stop - 1⟩])) := by
  obtain ⟨R, rfl⟩ := Nat.exists_eq_add_of_le hle
  have hRR : start + R - start = R := by omega
  rw [hRR]
  by_cases h : R < 4
  · rw [if_pos h]
    apply strandWindows_short
    show u32sub (start + R) start < 4
    rw [u32sub_of_le _ _ (by omega) h32]
    omega
  · rw [if_neg h, strandWindows_ok m start R (by omega) h32 hv ht,
      strandReads_closed start R (by omega) h32]
    simp only [List.map_cons, List.map_append, List.map_map, List.map_nil]
    rfl

/-- When the progress test does not fault, the strand loop yields the windows of the
ranges, in the order of the ranges. -/
theorem strandLoop_ok (m : Model K) (count : Nat) (hten : m.nStrands / 10 ≠ 0)
    (f : Nat × Nat → List (Curve K)) :
    ∀ ranges : List (Nat × Nat), (∀ r ∈ ranges, strandWindows m r = .ok (f r)) →
      strandLoop m count ranges = .ok (ranges.flatMap f) := by
  intro ranges
  induction ranges with
  | nil => intro _; rfl
  | cons r rs ih =>
    intro h
    have hr := h r (List.mem_cons_self r rs)
    have hrs := ih (fun q hq => h q (List.mem_cons_of_mem r hq))
    simp only [strandLoop, progressTest, if_neg hten, hr, hrs, List.flatMap_cons]
    rfl

/-- When `nStrands / 10` is zero, the strand loop faults in its first iteration. -/
theorem strandLoop_fault (m : Model K) (count : Nat) (hten : m.nStrands / 10 = 0)
    (r : Nat × Nat) (rs : List (Nat × Nat)) :
    strandLoop m count (r :: rs) = .error .divByZero := by
  simp only [strandLoop, progressTest, if_pos hten]
  rfl

/-- The part of C4 that holds: when `nStrands ≥ 10` and every strand range is well formed
and inside the vectors, the windows converted by `savePBRT` are the concatenation, in strand
order, of nothing for a strand with `R < 4` and otherwise of the head window, the interior
windows at offsets `1 .. R - 4` in increasing order, and the tail window. -/
theorem savePBRTWindows_order (m : Model K) (hten : 10 ≤ m.nStrands)
    (hr : ∀ r ∈ m.strandRanges, r.1 ≤ r.2 ∧ r.2 < 4294967296 ∧ r.2 ≤ m.vertices.length ∧
      r.2 ≤ m.thicknesses.length) :
    savePBRTWindows true m = .ok
      (m.strandRanges.flatMap (fun r =>
        if r.2 - r.1 < 4 then []
        else peek m ⟨r.1, r.1, r.1 + 1, r.1 + 2, r.1, r.1 + 2⟩ ::
          ((List.range (r.2 - r.1 - 4)).map (fun i =>
              peek m ⟨r.1 + 1 + i, r.1 + 2 + i, r.1 + 3 + i, r.1 + 4 + i,
                r.1 + 1 + i, r.1 + 4 + i⟩)
            ++ [peek m ⟨r.2 - 3, r.2 - 2, r.2 - 1, r.2 - 1, r.2 - 3, r.2 - 1⟩]))) := by
  unfold savePBRTWindows
  rw [if_pos rfl]
  apply strandLoop_ok m 0 (by omega)
  intro r hmem
  obtain ⟨h1, h2, h3, h4⟩ := hr r hmem
  exact strandWindows_closed m r.1 r.2 h1 h2 h3 h4

/-- C4 at the failing input: for the single five-vertex strand of `exampleModel`
(`nStrands = 1`) the progress test divides by `nStrands / 10 = 0` in the first iteration
of the strand loop, so `savePBRT` converts no window and writes no record. -/
theorem savePBRT_single_strand_fault :
    savePBRTWindows true exampleModel = .error .divByZero ∧
    savePBRT powBase true exampleModel = .error .divByZero := by
  have h : savePBRTWindows true exampleModel = .error .divByZero := by
    unfold savePBRTWindows
    rw [if_pos rfl]
    exact strandLoop_fault exampleModel 0 (by decide) (0, 5) []
  refine ⟨h, ?_⟩
  unfold savePBRT
  rw [h]
  rfl

end LoopClaims

/-! ## Lemmas on `convert` -/

section ConvertLemmas

variable {K : Type} [LinearOrderedField K]


/-- The real power function satisfies `PowLaws`. -/
theorem powLaws_real : PowLaws (fun x y : ℝ => x ^ y) where
  pow_one := fun x => Real.rpow_one x
  pow_half := fun x hx => by
    show x ^ (1 / 2 : ℝ) * x ^ (1 / 2 : ℝ) = x
    rw [← Real.sqrt_eq_rpow]
    exact Real.mul_self_sqrt hx

theorem two_alpha : (2 : K) * alpha = 1 := by
  unfold alpha
  norm_num

/-- Both denominators of `convert` equal `18`. -/
theorem convertDen_eq (pw : K → K → K) (h : PowLaws pw) (w : VPoints K) :
    convertDen1 pw w = 18 ∧ convertDen2 pw w = 18 := by
  have haa : pw 3 (1 / 2) * pw 3 (1 / 2) = (3 : K) := h.pow_half 3 (by norm_num)
  simp only [convertDen1, convertDen2, Vec3.length, alpha, Nat.cast_ofNat]
  constructor <;> linear_combination 6 * haa

/-- With `length()` the component count, `convert` is the uniform Catmull-Rom to Bezier
conversion. -/
theorem convert_uniform (pw : K → K → K) (h : PowLaws pw) (w : VPoints K) :
    convert pw w =
      ⟨w.e1, w.e1 + (w.e2 - w.e0) / (6 : K), w.e2 - (w.e3 - w.e1) / (6 : K), w.e2⟩ := by
  have haa : pw 3 (1 / 2) * pw 3 (1 / 2) = (3 : K) := h.pow_half 3 (by norm_num)
  have h1 : pw 3 (2 * alpha) = (3 : K) := by rw [two_alpha]; exact h.pow_one 3
  have hden : 3 * pw 3 (1 / 2) * (pw 3 (1 / 2) + pw 3 (1 / 2)) = (18 : K) := by
    linear_combination 6 * haa
  have hnum : 2 * 3 + 3 * pw 3 (1 / 2) * pw 3 (1 / 2) + 3 = (18 : K) := by
    linear_combination 3 * haa
  simp only [convert, Vec3.length, Nat.cast_ofNat, h1]
  simp only [alpha, hden, hnum]
  ext <;> simp <;> ring

end ConvertLemmas

/-! ## Claims on `convert` -/

section ConvertClaims

variable {K : Type} [LinearOrderedField K]

/-- C5 at the failing input: for the window `(0,0,0), (1,0,0), (5,0,0), (6,0,0)`, whose
chord lengths `1`, `4`, `1` have the square roots `1`, `2`, `1`, the code returns
`B1 = (11/6, 0, 0)` and `B2 = (25/6, 0, 0)`, whereas the centripetal formula of the claim
gives `B1 = (17/9, 0, 0)` and `B2 = (37/9, 0, 0)`. -/
theorem convert_gapWindow_not_centripetal :
    IsRootOfChord 1 (gapWindow ℝ).e0 (gapWindow ℝ).e1 ∧
    IsRootOfChord 2 (gapWindow ℝ).e1 (gapWindow ℝ).e2 ∧
    IsRootOfChord 1 (gapWindow ℝ).e2 (gapWindow ℝ).e3 ∧
    convert (fun x y : ℝ => x ^ y) (gapWindow ℝ) =
      ⟨⟨1, 0, 0⟩, ⟨11 / 6, 0, 0⟩, ⟨25 / 6, 0, 0⟩, ⟨5, 0, 0⟩⟩ ∧
    centripetalSpec 1 2 1 (gapWindow ℝ) =
      ⟨⟨1, 0, 0⟩, ⟨17 / 9, 0, 0⟩, ⟨37 / 9, 0, 0⟩, ⟨5, 0, 0⟩⟩ ∧
    convert (fun x y : ℝ => x ^ y) (gapWindow ℝ) ≠ centripetalSpec 1 2 1 (gapWindow ℝ) := by
  have hc : convert (fun x y : ℝ => x ^ y) (gapWindow ℝ) =
      ⟨⟨1, 0, 0⟩, ⟨11 / 6, 0, 0⟩, ⟨25 / 6, 0, 0⟩, ⟨5, 0, 0⟩⟩ := by
    rw [convert_uniform _ powLaws_real]
    ext <;> simp [gapWindow] <;> norm_num
  have hs : centripetalSpec 1 2 1 (gapWindow ℝ) =
      ⟨⟨1, 0, 0⟩, ⟨17 / 9, 0, 0⟩, ⟨37 / 9, 0, 0⟩, ⟨5, 0, 0⟩⟩ := by
    ext <;> simp [centripetalSpec, gapWindow] <;> norm_num
  refine ⟨?_, ?_, ?_, hc, hs, ?_⟩
  · constructor <;> simp [normSq, gapWindow]
  · constructor <;> simp [normSq, gapWindow]
    norm_num
  · constructor <;> simp [normSq, gapWindow]
    norm_num
  · rw [hc, hs]
    intro h
    have h1 := congrArg (fun w : VPoints ℝ => w.e1.x) h
    norm_num at h1

theorem vec3_add_div_eq_self_iff (a d : Vec3 K) : a + d / (6 : K) = a ↔ d = ⟨0, 0, 0⟩ := by
  constructor
  · intro h
    have hx := congrArg Vec3.x h
    have hy := congrArg Vec3.y h
    have hz := congrArg Vec3.z h
    simp only [Vec3.add_x, Vec3.add_y, Vec3.add_z, Vec3.div_x, Vec3.div_y, Vec3.div_z] at hx hy hz
    ext
    · show d.x = 0
      linarith
    · show d.y = 0
      linarith
    · show d.z = 0
      linarith
  · intro h
    subst h
    ext <;> simp

theorem vec3_sub_div_eq_self_iff (a d : Vec3 K) : a - d / (6 : K) = a ↔ d = ⟨0, 0, 0⟩ := by
  constructor
  · intro h
    have hx := congrArg Vec3.x h
    have hy := congrArg Vec3.y h
    have hz := congrArg Vec3.z h
    simp only [Vec3.sub_x, Vec3.sub_y, Vec3.sub_z, Vec3.div_x, Vec3.div_y, Vec3.div_z] at hx hy hz
    ext
    · show d.x = 0
      linarith
    · show d.y = 0
      linarith
    · show d.z = 0
      linarith
  · intro h
    subst h
    ext <;> simp

theorem vec3_sub_eq_zero_iff (a b : Vec3 K) : a - b = ⟨0, 0, 0⟩ ↔ a = b := by
  constructor
  · intro h
    have hx := congrArg Vec3.x h
    have hy := congrArg Vec3.y h
    have hz := congrArg Vec3.z h
    simp only [Vec3.sub_x, Vec3.sub_y, Vec3.sub_z] at hx hy hz
    ext
    · exact sub_eq_zero.mp hx
    · exact sub_eq_zero.mp hy
    · exact sub_eq_zero.mp hz
  · intro h
    subst h
    ext <;> simp

/-- In exact arithmetic, for a `pw` with `PowLaws`: for every head
window `(v0, v0, v1, v2)`, in particular one built from three collinear, equally spaced
points, both denominators equal `18`, and
`B1 = P1 + (P2 - P0) / 6 = v0 + (v1 - v0) / 6`, which equals `P1` only when `v1 = v0`.
Symmetrically, for every tail window `(v0, v1, v2, v2)`,
`B2 = P2 - (P3 - P1) / 6 = v2 - (v2 - v1) / 6`, which equals `P2` only when `v1 = v2`. -/
theorem convert_head_tail_window (pw : K → K → K) (h : PowLaws pw) (v0 v1 v2 : Vec3 K) :
    (convertDen1 pw ⟨v0, v0, v1, v2⟩ ≠ 0 ∧ convertDen2 pw ⟨v0, v0, v1, v2⟩ ≠ 0 ∧
      (convert pw ⟨v0, v0, v1, v2⟩).e1 = v0 + (v1 - v0) / (6 : K) ∧
      ((convert pw ⟨v0, v0, v1, v2⟩).e1 = v0 ↔ v1 = v0)) ∧
    (convertDen1 pw ⟨v0, v1, v2, v2⟩ ≠ 0 ∧ convertDen2 pw ⟨v0, v1, v2, v2⟩ ≠ 0 ∧
      (convert pw ⟨v0, v1, v2, v2⟩).e2 = v2 - (v2 - v1) / (6 : K) ∧
      ((convert pw ⟨v0, v1, v2, v2⟩).e2 = v2 ↔ v1 = v2)) := by
  have hd1 := convertDen_eq pw h ⟨v0, v0, v1, v2⟩
  have hd2 := convertDen_eq pw h ⟨v0, v1, v2, v2⟩
  rw [convert_uniform pw h, convert_uniform pw h, hd1.1, hd1.2, hd2.1, hd2.2]
  refine ⟨⟨by norm_num, by norm_num, rfl, ?_⟩, ⟨by norm_num, by norm_num, rfl, ?_⟩⟩
  · show v0 + (v1 - v0) / (6 : K) = v0 ↔ v1 = v0
    rw [vec3_add_div_eq_self_iff, vec3_sub_eq_zero_iff]
  · show v2 - (v2 - v1) / (6 : K) = v2 ↔ v1 = v2
    rw [vec3_sub_div_eq_self_iff, vec3_sub_eq_zero_iff]
    exact eq_comm

/-- An instance of `convert_head_tail_window`: the real power function and the points `0`,
`6`, `12` on the x axis. -/
theorem convert_head_tail_window_witness :
    PowLaws (fun x y : ℝ => x ^ y) ∧
    ((convertDen1 (fun x y : ℝ => x ^ y) ⟨⟨0, 0, 0⟩, ⟨0, 0, 0⟩, ⟨6, 0, 0⟩, ⟨12, 0, 0⟩⟩ ≠ 0 ∧
      convertDen2 (fun x y : ℝ => x ^ y) ⟨⟨0, 0, 0⟩, ⟨0, 0, 0⟩, ⟨6, 0, 0⟩, ⟨12, 0, 0⟩⟩ ≠ 0 ∧
      (convert (fun x y : ℝ => x ^ y) ⟨⟨0, 0, 0⟩, ⟨0, 0, 0⟩, ⟨6, 0, 0⟩, ⟨12, 0, 0⟩⟩).e1 =
        (⟨0, 0, 0⟩ : Vec3 ℝ) + ((⟨6, 0, 0⟩ : Vec3 ℝ) - ⟨0, 0, 0⟩) / (6 : ℝ) ∧
      ((convert (fun x y : ℝ => x ^ y) ⟨⟨0, 0, 0⟩, ⟨0, 0, 0⟩, ⟨6, 0, 0⟩, ⟨12, 0, 0⟩⟩).e1 =
        ⟨0, 0, 0⟩ ↔ (⟨6, 0, 0⟩ : Vec3 ℝ) = ⟨0, 0, 0⟩)) ∧
    (convertDen1 (fun x y : ℝ => x ^ y) ⟨⟨0, 0, 0⟩, ⟨6, 0, 0⟩, ⟨12, 0, 0⟩, ⟨12, 0, 0⟩⟩ ≠ 0 ∧
      convertDen2 (fun x y : ℝ => x ^ y) ⟨⟨0, 0, 0⟩, ⟨6, 0, 0⟩, ⟨12, 0, 0⟩, ⟨12, 0, 0⟩⟩ ≠ 0 ∧
      (convert (fun x y : ℝ => x ^ y) ⟨⟨0, 0, 0⟩, ⟨6, 0, 0⟩, ⟨12, 0, 0⟩, ⟨12, 0, 0⟩⟩).e2 =
        (⟨12, 0, 0⟩ : Vec3 ℝ) - ((⟨12, 0, 0⟩ : Vec3 ℝ) - ⟨6, 0, 0⟩) / (6 : ℝ) ∧
      ((convert (fun x y : ℝ => x ^ y) ⟨⟨0, 0, 0⟩, ⟨6, 0, 0⟩, ⟨12, 0, 0⟩, ⟨12, 0, 0⟩⟩).e2 =
        ⟨12, 0, 0⟩ ↔ (⟨6, 0, 0⟩ : Vec3 ℝ) = ⟨12, 0, 0⟩))) :=
  ⟨powLaws_real,
    convert_head_tail_window (fun x y : ℝ => x ^ y) powLaws_real ⟨0, 0, 0⟩ ⟨6, 0, 0⟩ ⟨12, 0, 0⟩⟩

/-- In exact arithmetic over the reals: for the head window `(v0, v0, v1, v2)` of the
collinear, equally spaced points `v0 = (0,0,0)`, `v1 = (6,0,0)`, `v2 = (12,0,0)`, `convert`
yields `B1 = (1,0,0)`, which is not `P1 = (0,0,0)`. -/
theorem convert_headWindow_b1_ne_p1 :
    (headWindow ℝ).e0 = (headWindow ℝ).e1 ∧
    (headWindow ℝ).e2 - (headWindow ℝ).e1 = (headWindow ℝ).e3 - (headWindow ℝ).e2 ∧
    (convert (fun x y : ℝ => x ^ y) (headWindow ℝ)).e1 = ⟨1, 0, 0⟩ ∧
    (convert (fun x y : ℝ => x ^ y) (headWindow ℝ)).e1 ≠ (headWindow ℝ).e1 := by
  have hc : (convert (fun x y : ℝ => x ^ y) (headWindow ℝ)).e1 = ⟨1, 0, 0⟩ := by
    rw [convert_uniform _ powLaws_real]
    ext <;> simp [headWindow]
  refine ⟨rfl, ?_, hc, ?_⟩
  · ext <;> simp [headWindow]
    norm_num
  · rw [hc]
    intro h
    have h1 := congrArg Vec3.x h
    simp [headWindow] at h1

theorem getD_of_getElem? {α : Type} (xs : List α) (i : Nat) (d a : α) (h : xs[i]? = some a) :
    xs.getD i d = a := by
  simp [List.getD, h]

theorem lt_length_of_getElem? {α : Type} (xs : List α) (i : Nat) (a : α) (h : xs[i]? = some a) :
    i < xs.length := by
  by_contra hn
  rw [List.getElem?_eq_none (by omega)] at h
  exact Option.noConfusion h

/-- In exact arithmetic, for a `pw` with `PowLaws`: for a strand with `R ≥ 4` vertices that
are all the same point `p` with all the same thickness `t`, every window is converted with
non-zero denominators, and every emitted record has the four control points `p, p, p, p` and
both widths equal to `t`. -/
theorem strandBody_constant_strand (pw : K → K → K) (h : PowLaws pw) (m : Model K)
    (start stop : Nat) (p : Vec3 K) (t : K)
    (hle : start ≤ stop) (h32 : stop < 4294967296) (hR : 4 ≤ stop - start)
    (hp : ∀ j, start ≤ j → j < stop → m.vertices[j]? = some p)
    (hthick : ∀ j, start ≤ j → j < stop → m.thicknesses[j]? = some t) :
    ∃ ws, strandWindows m (start, stop) = .ok ws ∧
      strandBody pw m (start, stop) = .ok (ws.map (convertCurve pw)) ∧
      ws.length = stop - start - 2 ∧
      (∀ w ∈ ws, convertDen1 pw w.points ≠ 0 ∧ convertDen2 pw w.points ≠ 0) ∧
      (∀ c ∈ ws.map (convertCurve pw), c.points = ⟨p, p, p, p⟩ ∧ c.t0 = t ∧ c.t1 = t) := by
  have hv : stop ≤ m.vertices.length := by
    have := lt_length_of_getElem? _ _ _ (hp (stop - 1) (by omega) (by omega))
    omega
  have ht : stop ≤ m.thicknesses.length := by
    have := lt_length_of_getElem? _ _ _ (hthick (stop - 1) (by omega) (by omega))
    omega
  obtain ⟨R, rfl⟩ := Nat.exists_eq_add_of_le hle
  have hR4 : 4 ≤ R := by omega
  have hRR : start + R - start = R := by omega
  rw [hRR]
  have hw := strandWindows_ok m start R hR4 h32 hv ht
  have hpeek : ∀ r ∈ strandReads (start, start + R), peek m r = ⟨⟨p, p, p, p⟩, t, t⟩ := by
    intro r hr
    have hin := strandReads_within start R hR4 h32 r hr
    simp only [peek, getD_of_getElem? _ _ _ _ (hp r.v0 hin.1.1 hin.1.2),
      getD_of_getElem? _ _ _ _ (hp r.v1 hin.2.1.1 hin.2.1.2),
      getD_of_getElem? _ _ _ _ (hp r.v2 hin.2.2.1.1 hin.2.2.1.2),
      getD_of_getElem? _ _ _ _ (hp r.v3 hin.2.2.2.1.1 hin.2.2.2.1.2),
      getD_of_getElem? _ _ _ _ (hthick r.w0 hin.2.2.2.2.1.1 hin.2.2.2.2.1.2),
      getD_of_getElem? _ _ _ _ (hthick r.w1 hin.2.2.2.2.2.1 hin.2.2.2.2.2.2)]
  refine ⟨_, hw, strandBody_of_windows pw m _ _ hw, ?_, ?_, ?_⟩
  · rw [List.length_map, strandReads_length start R hR4 h32]
  · intro w _
    have hd := convertDen_eq pw h w.points
    rw [hd.1, hd.2]
    exact ⟨by norm_num, by norm_num⟩
  · intro c hc
    simp only [List.mem_map] at hc
    obtain ⟨w, ⟨r, hr, rfl⟩, rfl⟩ := hc
    rw [hpeek r hr]
    refine ⟨?_, rfl, rfl⟩
    show convert pw ⟨p, p, p, p⟩ = ⟨p, p, p, p⟩
    rw [convert_uniform pw h]
    ext <;> simp

/-- An instance of `strandBody_constant_strand`: four vertices at the origin with thickness
`1` (scenario D), with the real power function as `std::pow`. -/
theorem strandBody_constant_strand_witness :
    (PowLaws (fun x y : ℝ => x ^ y) ∧ 0 ≤ 4 ∧ 4 < 4294967296 ∧ 4 ≤ 4 - 0 ∧
      (∀ j, 0 ≤ j → j < 4 → (pointModel ℝ).vertices[j]? = some ⟨0, 0, 0⟩) ∧
      (∀ j, 0 ≤ j → j < 4 → (pointModel ℝ).thicknesses[j]? = some 1)) ∧
    ∃ ws, strandWindows (pointModel ℝ) (0, 4) = .ok ws ∧
      strandBody (fun x y : ℝ => x ^ y) (pointModel ℝ) (0, 4) =
        .ok (ws.map (convertCurve (fun x y : ℝ => x ^ y))) ∧
      ws.length = 4 - 0 - 2 ∧
      (∀ w ∈ ws, convertDen1 (fun x y : ℝ => x ^ y) w.points ≠ 0 ∧
        convertDen2 (fun x y : ℝ => x ^ y) w.points ≠ 0) ∧
      (∀ c ∈ ws.map (convertCurve (fun x y : ℝ => x ^ y)),
        c.points = ⟨⟨0, 0, 0⟩, ⟨0, 0, 0⟩, ⟨0, 0, 0⟩, ⟨0, 0, 0⟩⟩ ∧ c.t0 = 1 ∧ c.t1 = 1) :=
  have hp : ∀ j, 0 ≤ j → j < 4 → (pointModel ℝ).vertices[j]? = some ⟨0, 0, 0⟩ := by
    intro j _ hj
    interval_cases j <;> rfl
  have hthick : ∀ j, 0 ≤ j → j < 4 → (pointModel ℝ).thicknesses[j]? = some 1 := by
    intro j _ hj
    interval_cases j <;> rfl
  ⟨⟨powLaws_real, by decide, by decide, by decide, hp, hthick⟩,
    strandBody_constant_strand (fun x y : ℝ => x ^ y) powLaws_real (pointModel ℝ) 0 4
      ⟨0, 0, 0⟩ 1 (by decide) (by decide) (by decide) hp hthick⟩

end ConvertClaims

/-! ## Lemmas on `loadCYHairModel` -/

section LoadLemmas

variable {K : Type} [LinearOrderedField K]

theorem strandOffset_eq_sum (f : CyHairFile K) (k : Nat) :
    strandOffset f k = ∑ j in Finset.range k, (segmentsOf f j + 1) := by
  induction k with
  | zero => rfl
  | succ k ih => rw [Finset.sum_range_succ, ← ih]; rfl

theorem strandOffset_mono (f : CyHairFile K) (k n : Nat) (h : k ≤ n) :
    strandOffset f k ≤ strandOffset f n := by
  induction n with
  | zero =>
    have : k = 0 := by omega
    subst this
    exact Nat.le_refl _
  | succ n ih =>
    by_cases hk : k = n + 1
    · subst hk
      exact Nat.le_refl _
    · have := ih (by omega)
      show strandOffset f k ≤ strandOffset f n + (segmentsOf f n + 1)
      omega

theorem resize_length {α : Type} (xs : List α) (n : Nat) (d : α) :
    (resize xs n d).length = n := by
  simp only [resize, List.length_append, List.length_take, List.length_replicate]
  omega

/-- A loop whose body keeps an invariant and does not fault runs to its bound. -/
theorem forLoopM_invariant {σ : Type} (hi : Nat) (body : Nat → σ → Except Fault σ)
    (P : Nat → σ → Prop)
    (hstep : ∀ i s, i < hi → P i s → ∃ s1, body i s = .ok s1 ∧ P (i + 1) s1) :
    ∀ (n i : Nat) (s : σ), i + n = hi → P i s →
      ∃ s1, forLoopM hi body i s = .ok s1 ∧ P hi s1 := by
  intro n
  induction n with
  | zero =>
    intro i s h hP
    have hi0 : i = hi := by omega
    subst hi0
    rw [forLoopM, if_neg (by omega)]
    exact ⟨s, rfl, hP⟩
  | succ n ih =>
    intro i s h hP
    obtain ⟨s1, hb, hP1⟩ := hstep i s (by omega) hP
    rw [forLoopM, if_pos (by omega), hb]
    exact ih (i + 1) s1 (by omega) hP1

/-- The loop over `j` does not fault when its range lies inside `thicknesses`, and keeps
the length of the vector. -/
theorem thicknessLoop_ok (cfg : Config K) (rnd : Nat → K) (f : CyHairFile K) (lo hi : Nat)
    (ts : List K) (rc : Nat) (hle : lo ≤ hi) (hlen : hi ≤ ts.length) :
    ∃ r, forLoopM hi (thicknessStep cfg rnd f) lo (ts, rc) = .ok r ∧
      r.1.length = ts.length := by
  obtain ⟨n, rfl⟩ := Nat.exists_eq_add_of_le hle
  refine forLoopM_invariant (lo + n) (thicknessStep cfg rnd f)
    (fun _ s => s.1.length = ts.length) ?_ n lo (ts, rc) rfl rfl
  intro i s hi hs
  have hlt : i < s.1.length := by rw [hs]; omega
  unfold thicknessStep
  simp only [writeAt, if_pos hlt]
  split_ifs
  · exact ⟨_, rfl, by simp [hs]⟩
  · exact ⟨_, rfl, by simp [hs]⟩

/-- One iteration of the strand loop, when the strand lies inside `thicknesses` and the
additions do not wrap around. -/
theorem strandStep_ok (cfg : Config K) (rnd : Nat → K) (f : CyHairFile K) (idx : Nat)
    (s : LoadState K)
    (hlen : s.startVertex + segmentsOf f idx + 1 ≤ s.thicknesses.length)
    (h32 : s.thicknesses.length < 4294967296) :
    ∃ s1, strandStep cfg rnd f idx s = .ok s1 ∧
      s1.startVertex = s.startVertex + segmentsOf f idx + 1 ∧
      s1.thicknesses.length = s.thicknesses.length ∧
      s1.strandNumSegments = s.strandNumSegments.set idx (segmentsOf f idx) ∧
      s1.strandRanges =
        s.strandRanges.set idx (s.startVertex, s.startVertex + segmentsOf f idx + 1) := by
  have hend : u32add (u32add s.startVertex (segmentsOf f idx)) 1 =
      s.startVertex + segmentsOf f idx + 1 := by
    rw [u32add_of_lt s.startVertex (segmentsOf f idx) (by omega), u32add_of_lt _ _ (by omega)]
  obtain ⟨r, hr, hrlen⟩ := thicknessLoop_ok cfg rnd f s.startVertex
    (s.startVertex + segmentsOf f idx + 1) s.thicknesses s.randCalls (by omega) hlen
  unfold strandStep
  simp only [hend, hr]
  exact ⟨_, rfl, rfl, hrlen, rfl, rfl⟩

/-- The strand loop runs to completion and establishes `StrandInv` when the strands fit into
the `L` vertices of the file. -/
theorem strandLoop_load_ok (cfg : Config K) (rnd : Nat → K) (f : CyHairFile K) (n L : Nat)
    (s0 : LoadState K) (hfit : strandOffset f n ≤ L) (h32 : L < 4294967296)
    (h0 : StrandInv f n L 0 s0) :
    ∃ s, forLoopM n (strandStep cfg rnd f) 0 s0 = .ok s ∧ StrandInv f n L n s := by
  refine forLoopM_invariant n (strandStep cfg rnd f) (StrandInv f n L) ?_ n 0 s0 (by omega) h0
  intro k s hk hinv
  obtain ⟨hstart, hlen, hrl, hsl, hr, hs⟩ := hinv
  have hmono := strandOffset_mono f (k + 1) n (by omega)
  have hsucc : strandOffset f (k + 1) = strandOffset f k + (segmentsOf f k + 1) := rfl
  obtain ⟨s1, hs1, e1, e2, e3, e4⟩ := strandStep_ok cfg rnd f k s
    (by rw [hstart, hlen]; omega) (by rw [hlen]; exact h32)
  refine ⟨s1, hs1, ?_, ?_, ?_, ?_, ?_, ?_⟩
  · rw [e1, hstart, hsucc]; omega
  · rw [e2, hlen]
  · rw [e4, List.length_set, hrl]
  · rw [e3, List.length_set, hsl]
  · intro i hi
    rw [e4]
    by_cases hik : i = k
    · subst hik
      rw [List.getElem?_set_self (by omega), hstart, hsucc]
      simp only [Option.some.injEq, Prod.mk.injEq, true_and]
      omega
    · rw [List.getElem?_set_ne (by omega)]
      exact hr i (by omega)
  · intro i hi
    rw [e3]
    by_cases hik : i = k
    · subst hik
      rw [List.getElem?_set_self (by omega)]
    · rw [List.getElem?_set_ne (by omega)]
      exact hs i (by omega)

/-- When the file loads, has a points array, and its strands fit into its `point_count`
vertices, `loadCYHairModel` completes without exception or fault; the strand loop leaves a
state satisfying `StrandInv`. -/
theorem loadCYHairModel_ok (cfg : Config K) (rnd : Nat → K) (f : CyHairFile K) (m : Model K)
    (pts : Nat → Vec3 K) (hload : 0 ≤ f.loadResult) (hpts : f.pointsArray = some pts)
    (hfit : strandOffset f f.hair_count ≤ f.point_count) (h32 : f.point_count < 4294967296) :
    ∃ s, StrandInv f f.hair_count f.point_count f.hair_count s ∧
      loadCYHairModel cfg rnd f m =
        ({ loadVertices cfg pts (loadHeader f m) with
           thicknesses := s.thicknesses
           strandNumSegments := s.strandNumSegments
           strandRanges := s.strandRanges }, none) := by
  have h0 : StrandInv f f.hair_count f.point_count 0
      (initialLoadState (loadVertices cfg pts (loadHeader f m))) := by
    refine ⟨rfl, ?_, ?_, ?_, ?_, ?_⟩
    · exact resize_length _ _ _
    · exact resize_length _ _ _
    · exact resize_length _ _ _
    · intro i hi; omega
    · intro i hi; omega
  obtain ⟨s, hs, hinv⟩ := strandLoop_load_ok cfg rnd f f.hair_count f.point_count _ hfit h32 h0
  refine ⟨s, hinv, ?_⟩
  unfold loadCYHairModel
  rw [if_neg (by omega)]
  simp only [hpts]
  have hn : (loadVertices cfg pts (loadHeader f m)).nStrands = f.hair_count := rfl
  rw [hn, hs]

/-- The vertices and the bounding box do not depend on the strand loop. -/
theorem loadCYHairModel_vertices (cfg : Config K) (rnd : Nat → K) (f : CyHairFile K)
    (m : Model K) (pts : Nat → Vec3 K) (hload : 0 ≤ f.loadResult)
    (hpts : f.pointsArray = some pts) :
    (loadCYHairModel cfg rnd f m).1.vertices =
        (loadVertices cfg pts (loadHeader f m)).vertices ∧
      (loadCYHairModel cfg rnd f m).1.bMin = (loadVertices cfg pts (loadHeader f m)).bMin ∧
      (loadCYHairModel cfg rnd f m).1.bMax = (loadVertices cfg pts (loadHeader f m)).bMax ∧
      (loadCYHairModel cfg rnd f m).1.nTotalVertices = f.point_count := by
  unfold loadCYHairModel
  rw [if_neg (by omega)]
  simp only [hpts]
  split <;> exact ⟨rfl, rfl, rfl, rfl⟩

end LoadLemmas

/-! ## Claims on the strand ranges -/

section RangeClaims

variable {K : Type} [LinearOrderedField K]

theorem strandOffset_lt_succ (f : CyHairFile K) (i : Nat) :
    strandOffset f i < strandOffset f (i + 1) := by
  show strandOffset f i < strandOffset f i + (segmentsOf f i + 1)
  omega

/-- Every vertex index below the total lies in the range of exactly some strand. -/
theorem exists_strand_of_lt (f : CyHairFile K) :
    ∀ (n v : Nat), v < strandOffset f n →
      ∃ i, i < n ∧ strandOffset f i ≤ v ∧ v < strandOffset f (i + 1) := by
  intro n
  induction n with
  | zero =>
    intro v h
    exact absurd h (Nat.not_lt_zero v)
  | succ n ih =>
    intro v h
    by_cases hv : v < strandOffset f n
    · obtain ⟨i, hi, h1, h2⟩ := ih v hv
      exact ⟨i, by omega, h1, h2⟩
    · exact ⟨n, by omega, by omega, h⟩

/-- The strand ranges left by the strand loop, as a list. -/
theorem strandRanges_of_inv (f : CyHairFile K) (n L : Nat) (s : LoadState K)
    (h : StrandInv f n L n s) :
    s.strandRanges = (List.range n).map (fun i => (strandOffset f i, strandOffset f (i + 1))) := by
  obtain ⟨_, _, hrl, _, hr, _⟩ := h
  apply List.ext_getElem?
  intro i
  by_cases hi : i < n
  · rw [hr i hi, List.getElem?_map, List.getElem?_range hi]
    rfl
  · rw [List.getElem?_eq_none (by omega), List.getElem?_eq_none (by simp; omega)]

/-- C9, as amended. When the file loads, has a points array, and its strands fit into its
`point_count < 2 ^ 32` vertices, `loadCYHairModel` completes, and the strand ranges are
non-empty, listed in increasing order and pairwise disjoint; the first starts at `0` and each
later one starts where the previous one ends; their union is exactly
`[0, sum_j (s_j + 1))`, which lies inside `[0, nTotalVertices)`; and the last range ends at
`sum_j (s_j + 1)`. The loader does not compare this sum with the header's `point_count`, so
the union is `[0, nTotalVertices)` exactly when the two are equal. -/
theorem loadCYHairModel_ranges_cover (cfg : Config K) (rnd : Nat → K) (f : CyHairFile K)
    (m : Model K) (pts : Nat → Vec3 K) (hload : 0 ≤ f.loadResult)
    (hpts : f.pointsArray = some pts)
    (hfit : ∑ j in Finset.range f.hair_count, (segmentsOf f j + 1) ≤ f.point_count)
    (h32 : f.point_count < 4294967296) :
    (loadCYHairModel cfg rnd f m).2 = none ∧
    (∀ r ∈ (loadCYHairModel cfg rnd f m).1.strandRanges, r.1 < r.2) ∧
    (∀ (i j : Nat) (r q : Nat × Nat), i < j →
      (loadCYHairModel cfg rnd f m).1.strandRanges[i]? = some r →
      (loadCYHairModel cfg rnd f m).1.strandRanges[j]? = some q → r.2 ≤ q.1) ∧
    (loadCYHairModel cfg rnd f m).1.strandRanges.head?.map Prod.fst =
      (if f.hair_count = 0 then none else some 0) ∧
    (∀ (i : Nat) (r q : Nat × Nat),
      (loadCYHairModel cfg rnd f m).1.strandRanges[i]? = some r →
      (loadCYHairModel cfg rnd f m).1.strandRanges[i + 1]? = some q → q.1 = r.2) ∧
    (∀ v, (∃ r ∈ (loadCYHairModel cfg rnd f m).1.strandRanges, r.1 ≤ v ∧ v < r.2) ↔
      v < ∑ j in Finset.range f.hair_count, (segmentsOf f j + 1)) ∧
    (loadCYHairModel cfg rnd f m).1.strandRanges.getLast?.map Prod.snd =
      (if f.hair_count = 0 then none
       else some (∑ j in Finset.range f.hair_count, (segmentsOf f j + 1))) ∧
    ∑ j in Finset.range f.hair_count, (segmentsOf f j + 1) ≤
      (loadCYHairModel cfg rnd f m).1.nTotalVertices ∧
    (loadCYHairModel cfg rnd f m).1.nTotalVertices = f.point_count := by
  rw [← strandOffset_eq_sum] at hfit ⊢
  obtain ⟨s, hinv, heq⟩ := loadCYHairModel_ok cfg rnd f m pts hload hpts hfit h32
  have hrs : (loadCYHairModel cfg rnd f m).1.strandRanges =
      (List.range f.hair_count).map (fun i => (strandOffset f i, strandOffset f (i + 1))) := by
    rw [heq]
    exact strandRanges_of_inv f _ _ s hinv
  have hnone : (loadCYHairModel cfg rnd f m).2 = none := by rw [heq]
  have hnt : (loadCYHairModel cfg rnd f m).1.nTotalVertices = f.point_count := by rw [heq]; rfl
  rw [hrs, hnt]
  have hget : ∀ i (r : Nat × Nat),
      ((List.range f.hair_count).map
        (fun i => (strandOffset f i, strandOffset f (i + 1))))[i]? = some r →
      i < f.hair_count ∧ r = (strandOffset f i, strandOffset f (i + 1)) := by
    intro i r h
    have hi : i < f.hair_count := by
      have := lt_length_of_getElem? _ _ _ h
      simpa using this
    rw [List.getElem?_map, List.getElem?_range hi] at h
    exact ⟨hi, (Option.some.inj h).symm⟩
  refine ⟨hnone, ?_, ?_, ?_, ?_, ?_, ?_, hfit, rfl⟩
  · intro r hr
    simp only [List.mem_map, List.mem_range] at hr
    obtain ⟨i, _, rfl⟩ := hr
    exact strandOffset_lt_succ f i
  · intro i j r q hij hr hq
    obtain ⟨_, rfl⟩ := hget i r hr
    obtain ⟨_, rfl⟩ := hget j q hq
    exact strandOffset_mono f (i + 1) j (by omega)
  · cases hn : f.hair_count with
    | zero => rfl
    | succ n => simp [List.range_succ_eq_map]; rfl
  · intro i r q hr hq
    obtain ⟨_, rfl⟩ := hget i r hr
    obtain ⟨_, rfl⟩ := hget (i + 1) q hq
    rfl
  · intro v
    constructor
    · rintro ⟨r, hr, h1, h2⟩
      simp only [List.mem_map, List.mem_range] at hr
      obtain ⟨i, hi, rfl⟩ := hr
      have := strandOffset_mono f (i + 1) f.hair_count (by omega)
      simp only at h2
      omega
    · intro hv
      obtain ⟨i, hi, h1, h2⟩ := exists_strand_of_lt f f.hair_count v hv
      exact ⟨_, List.mem_map.mpr ⟨i, List.mem_range.mpr hi, rfl⟩, h1, h2⟩
  · cases hn : f.hair_count with
    | zero => rfl
    | succ n => simp [List.range_succ]

/-- Witness of the amended C9: a file with three strands of `2`, `1`, `3` segments and nine
points. -/
theorem loadCYHairModel_ranges_cover_witness :
    (0 ≤ threeStrandFile.loadResult ∧
      threeStrandFile.pointsArray = some (fun j => ⟨j, 2 * j, 0⟩) ∧
      ∑ j in Finset.range threeStrandFile.hair_count, (segmentsOf threeStrandFile j + 1) ≤
        threeStrandFile.point_count ∧
      threeStrandFile.point_count < 4294967296) ∧
    (loadCYHairModel config noRand threeStrandFile (emptyModel ℚ)).2 = none ∧
    (∀ v, (∃ r ∈ (loadCYHairModel config noRand threeStrandFile (emptyModel ℚ)).1.strandRanges,
        r.1 ≤ v ∧ v < r.2) ↔
      v < ∑ j in Finset.range threeStrandFile.hair_count, (segmentsOf threeStrandFile j + 1)) :=
  have h := loadCYHairModel_ranges_cover config noRand threeStrandFile (emptyModel ℚ)
    (fun j => ⟨j, 2 * j, 0⟩) (by decide) rfl (by decide) (by decide)
  ⟨⟨by decide, rfl, by decide, by decide⟩, h.1, h.2.2.2.2.2.1⟩

/-- Counterexample to C9 as stated: for a file with one strand of two segments whose
header announces five points, `loadCYHairModel` completes with `nTotalVertices = 5` and the
single strand range `[0, 3)`; vertex `4` lies in no strand range, and the last range does
not end at `nTotalVertices`. -/
theorem loadCYHairModel_looseFile_not_covering :
    (loadCYHairModel config noRand looseFile (emptyModel ℚ)).2 = none ∧
    (loadCYHairModel config noRand looseFile (emptyModel ℚ)).1.nTotalVertices = 5 ∧
    (loadCYHairModel config noRand looseFile (emptyModel ℚ)).1.strandRanges = [(0, 3)] ∧
    ¬ (∃ r ∈ (loadCYHairModel config noRand looseFile (emptyModel ℚ)).1.strandRanges,
        r.1 ≤ 4 ∧ 4 < r.2) ∧
    (loadCYHairModel config noRand looseFile (emptyModel ℚ)).1.strandRanges.getLast?.map
        Prod.snd ≠
      some (loadCYHairModel config noRand looseFile (emptyModel ℚ)).1.nTotalVertices := by
  obtain ⟨s, hinv, heq⟩ := loadCYHairModel_ok config noRand looseFile (emptyModel ℚ)
    (fun _ => ⟨0, 0, 0⟩) (by decide) rfl (by decide) (by decide)
  have hrs : (loadCYHairModel config noRand looseFile (emptyModel ℚ)).1.strandRanges =
      [(0, 3)] := by
    rw [heq]
    exact strandRanges_of_inv looseFile _ _ s hinv
  have hnt : (loadCYHairModel config noRand looseFile (emptyModel ℚ)).1.nTotalVertices = 5 := by
    rw [heq]
    rfl
  have hnone : (loadCYHairModel config noRand looseFile (emptyModel ℚ)).2 = none := by rw [heq]
  rw [hrs, hnt]
  refine ⟨hnone, rfl, rfl, ?_, ?_⟩
  · rintro ⟨r, hr, _, h2⟩
    rw [List.mem_singleton] at hr
    subst hr
    exact absurd h2 (by decide)
  · decide

end RangeClaims

/-! ## Claims on the bounding box -/

section BoxLemmas

variable {K : Type} [LinearOrderedField K]

theorem Vec3.set_get_self (v : Vec3 K) (i : Fin 3) : v.set i (v.get i) = v := by
  fin_cases i <;> rfl

theorem Vec3.le_iff_get (a b : Vec3 K) : Vec3.le a b ↔ ∀ i : Fin 3, a.get i ≤ b.get i := by
  constructor
  · rintro ⟨hx, hy, hz⟩ i
    fin_cases i
    · exact hx
    · exact hy
    · exact hz
  · intro h
    exact ⟨h 0, h 1, h 2⟩

theorem vec3_le_trans {a b c : Vec3 K} (h1 : Vec3.le a b) (h2 : Vec3.le b c) : Vec3.le a c :=
  ⟨le_trans h1.1 h2.1, le_trans h1.2.1 h2.2.1, le_trans h1.2.2 h2.2.2⟩

/-- One step of the axis loop replaces component `i` of `bMin` by the minimum, and of `bMax`
by the maximum, with the vertex component. -/
theorem boxStep_eq (v : Vec3 K) (b : Vec3 K × Vec3 K) (i : Fin 3) :
    boxStep v b i =
      (b.1.set i (min (b.1.get i) (v.get i)), b.2.set i (max (b.2.get i) (v.get i))) := by
  have h1 : (if b.1.get i > v.get i then b.1.set i (v.get i) else b.1) =
      b.1.set i (min (b.1.get i) (v.get i)) := by
    split_ifs with h
    · rw [min_eq_right (le_of_lt h)]
    · rw [min_eq_left (not_lt.mp h), Vec3.set_get_self]
  have h2 : (if b.2.get i < v.get i then b.2.set i (v.get i) else b.2) =
      b.2.set i (max (b.2.get i) (v.get i)) := by
    split_ifs with h
    · rw [max_eq_right (le_of_lt h)]
    · rw [max_eq_left (not_lt.mp h), Vec3.set_get_self]
  unfold boxStep
  simp only [h1, h2]

/-- The axis loop takes the componentwise minimum and maximum with the vertex. -/
theorem boxLoop_eq (v : Vec3 K) (b : Vec3 K × Vec3 K) :
    boxLoop v b =
      (⟨min b.1.x v.x, min b.1.y v.y, min b.1.z v.z⟩,
       ⟨max b.2.x v.x, max b.2.y v.y, max b.2.z v.z⟩) := by
  simp only [boxLoop, List.foldl, boxStep_eq]
  rfl

/-- After the first vertex loop every transformed vertex lies inside the accumulated box,
and the box contains the box it was started with. -/
theorem pass1_bounds (cfg : Config K) :
    ∀ (vs : List (Vec3 K)) (b : Vec3 K × Vec3 K),
      (∀ v ∈ (pass1 cfg vs b).1, Vec3.le (pass1 cfg vs b).2.1 v ∧ Vec3.le v (pass1 cfg vs b).2.2) ∧
      Vec3.le (pass1 cfg vs b).2.1 b.1 ∧ Vec3.le b.2 (pass1 cfg vs b).2.2 := by
  intro vs
  induction vs with
  | nil =>
    intro b
    refine ⟨?_, ⟨le_refl _, le_refl _, le_refl _⟩, ⟨le_refl _, le_refl _, le_refl _⟩⟩
    intro v hv
    simp [pass1] at hv
  | cons w ws ih =>
    intro b
    obtain ⟨hin, hlo, hhi⟩ := ih (boxLoop (transformVertex cfg w) b)
    have hb := boxLoop_eq (transformVertex cfg w) b
    have hlo1 : Vec3.le (boxLoop (transformVertex cfg w) b).1 (transformVertex cfg w) := by
      rw [hb]; exact ⟨min_le_right _ _, min_le_right _ _, min_le_right _ _⟩
    have hlo2 : Vec3.le (boxLoop (transformVertex cfg w) b).1 b.1 := by
      rw [hb]; exact ⟨min_le_left _ _, min_le_left _ _, min_le_left _ _⟩
    have hhi1 : Vec3.le (transformVertex cfg w) (boxLoop (transformVertex cfg w) b).2 := by
      rw [hb]; exact ⟨le_max_right _ _, le_max_right _ _, le_max_right _ _⟩
    have hhi2 : Vec3.le b.2 (boxLoop (transformVertex cfg w) b).2 := by
      rw [hb]; exact ⟨le_max_left _ _, le_max_left _ _, le_max_left _ _⟩
    simp only [pass1]
    refine ⟨?_, vec3_le_trans hlo hlo2, vec3_le_trans hhi2 hhi⟩
    intro v hv
    rcases List.mem_cons.mp hv with rfl | hv
    · exact ⟨vec3_le_trans hlo hlo1, vec3_le_trans hhi1 hhi⟩
    · exact hin v hv

/-- With `yScale = 1` the second vertex loop changes no vertex. -/
theorem pass2_of_yScale_one (cfg : Config K) (h : cfg.yScale = 1) (center : Vec3 K)
    (vs : List (Vec3 K)) : pass2 cfg center vs = vs := by
  unfold pass2
  have : rescaleY cfg center = id := by
    funext v
    unfold rescaleY
    rw [h]
    ext
    · rfl
    · show (v.y - center.y) * 1 + center.y = v.y
      ring
    · rfl
  rw [this, List.map_id]

end BoxLemmas

section BoxClaims

variable {K : Type} [LinearOrderedField K]

/-- In exact arithmetic: with `yScale = 1` (the configured value), when the file loads and
has a points array, then after `loadCYHairModel` every vertex `v` in `vertices` satisfies
`bMin[i] ≤ v[i] ≤ bMax[i]` on every axis `i`; and the call completes without exception or
fault when the strands fit into the `point_count < 2 ^ 32` vertices of the file. -/
theorem loadCYHairModel_vertices_in_box (cfg : Config K) (rnd : Nat → K) (f : CyHairFile K)
    (m : Model K) (pts : Nat → Vec3 K) (hy : cfg.yScale = 1) (hload : 0 ≤ f.loadResult)
    (hpts : f.pointsArray = some pts) :
    (∀ v ∈ (loadCYHairModel cfg rnd f m).1.vertices, ∀ i : Fin 3,
      (loadCYHairModel cfg rnd f m).1.bMin.get i ≤ v.get i ∧
      v.get i ≤ (loadCYHairModel cfg rnd f m).1.bMax.get i) ∧
    (∑ j in Finset.range f.hair_count, (segmentsOf f j + 1) ≤ f.point_count →
      f.point_count < 4294967296 → (loadCYHairModel cfg rnd f m).2 = none) := by
  obtain ⟨hv, hmin, hmax, _⟩ := loadCYHairModel_vertices cfg rnd f m pts hload hpts
  constructor
  · rw [hv, hmin, hmax]
    intro v hmem i
    simp only [loadVertices, pass2_of_yScale_one cfg hy] at hmem ⊢
    have h := (pass1_bounds cfg _ _).1 v hmem
    exact ⟨(Vec3.le_iff_get _ _).mp h.1 i, (Vec3.le_iff_get _ _).mp h.2 i⟩
  · intro hfit h32
    rw [← strandOffset_eq_sum] at hfit
    obtain ⟨s, _, heq⟩ := loadCYHairModel_ok cfg rnd f m pts hload hpts hfit h32
    rw [heq]

/-- An instance of `loadCYHairModel_vertices_in_box`: the configured constants and a file
with three strands and nine points. -/
theorem loadCYHairModel_vertices_in_box_witness :
    ((config : Config ℚ).yScale = 1 ∧ 0 ≤ threeStrandFile.loadResult ∧
      threeStrandFile.pointsArray = some (fun j => ⟨j, 2 * j, 0⟩)) ∧
    ((∀ v ∈ (loadCYHairModel config noRand threeStrandFile (emptyModel ℚ)).1.vertices,
      ∀ i : Fin 3,
        (loadCYHairModel config noRand threeStrandFile (emptyModel ℚ)).1.bMin.get i ≤ v.get i ∧
        v.get i ≤ (loadCYHairModel config noRand threeStrandFile (emptyModel ℚ)).1.bMax.get i) ∧
    (∑ j in Finset.range threeStrandFile.hair_count, (segmentsOf threeStrandFile j + 1) ≤
        threeStrandFile.point_count →
      threeStrandFile.point_count < 4294967296 →
      (loadCYHairModel config noRand threeStrandFile (emptyModel ℚ)).2 = none)) :=
  ⟨⟨rfl, by decide, rfl⟩,
    loadCYHairModel_vertices_in_box config noRand threeStrandFile (emptyModel ℚ)
      (fun j => ⟨j, 2 * j, 0⟩) rfl (by decide) rfl⟩

end BoxClaims

/-! ## Claims on the extrema of the bounding box -/

section ExtremaLemmas

variable {K : Type} [LinearOrderedField K]

theorem pass1_fst (cfg : Config K) :
    ∀ (vs : List (Vec3 K)) (b : Vec3 K × Vec3 K),
      (pass1 cfg vs b).1 = vs.map (transformVertex cfg) := by
  intro vs
  induction vs with
  | nil => intro b; rfl
  | cons w ws ih =>
    intro b
    simp only [pass1, List.map_cons, ih]

theorem boxLoop_get (v : Vec3 K) (b : Vec3 K × Vec3 K) (i : Fin 3) :
    (boxLoop v b).1.get i = min (b.1.get i) (v.get i) ∧
    (boxLoop v b).2.get i = max (b.2.get i) (v.get i) := by
  rw [boxLoop_eq]
  fin_cases i <;> exact ⟨rfl, rfl⟩

/-- The accumulated minimum is the seed or is attained by a transformed vertex, and
likewise the accumulated maximum. -/
theorem pass1_attained (cfg : Config K) (i : Fin 3) :
    ∀ (vs : List (Vec3 K)) (b : Vec3 K × Vec3 K),
      ((pass1 cfg vs b).2.1.get i = b.1.get i ∨
        ∃ v ∈ (pass1 cfg vs b).1, v.get i = (pass1 cfg vs b).2.1.get i) ∧
      ((pass1 cfg vs b).2.2.get i = b.2.get i ∨
        ∃ v ∈ (pass1 cfg vs b).1, v.get i = (pass1 cfg vs b).2.2.get i) := by
  intro vs
  induction vs with
  | nil => intro b; exact ⟨Or.inl rfl, Or.inl rfl⟩
  | cons w ws ih =>
    intro b
    obtain ⟨hmin, hmax⟩ := ih (boxLoop (transformVertex cfg w) b)
    obtain ⟨gmin, gmax⟩ := boxLoop_get (transformVertex cfg w) b i
    simp only [pass1]
    constructor
    · rcases hmin with h | ⟨v, hv, h⟩
      · rw [h, gmin]
        rcases min_choice (b.1.get i) ((transformVertex cfg w).get i) with h1 | h1
        · exact Or.inl h1
        · exact Or.inr ⟨_, List.mem_cons_self _ _, h1.symm⟩
      · exact Or.inr ⟨v, List.mem_cons_of_mem _ hv, h⟩
    · rcases hmax with h | ⟨v, hv, h⟩
      · rw [h, gmax]
        rcases max_choice (b.2.get i) ((transformVertex cfg w).get i) with h1 | h1
        · exact Or.inl h1
        · exact Or.inr ⟨_, List.mem_cons_self _ _, h1.symm⟩
      · exact Or.inr ⟨v, List.mem_cons_of_mem _ hv, h⟩

theorem splat_get (a : K) (i : Fin 3) : (Vec3.splat a).get i = a := by
  fin_cases i <;> rfl

end ExtremaLemmas

section ExtremaClaims

variable {K : Type} [LinearOrderedField K]

/-- Every transformed vertex lies between the accumulators of pass 1 on every axis. -/
theorem pass1_get_bounds (cfg : Config K) (vs : List (Vec3 K)) (b : Vec3 K × Vec3 K)
    (i : Fin 3) :
    (∀ v ∈ (pass1 cfg vs b).1,
      (pass1 cfg vs b).2.1.get i ≤ v.get i ∧ v.get i ≤ (pass1 cfg vs b).2.2.get i) ∧
    (pass1 cfg vs b).2.1.get i ≤ b.1.get i ∧ b.2.get i ≤ (pass1 cfg vs b).2.2.get i := by
  have hb := pass1_bounds cfg vs b
  refine ⟨?_, (Vec3.le_iff_get _ _).mp hb.2.1 i, (Vec3.le_iff_get _ _).mp hb.2.2 i⟩
  intro v hv
  have h := hb.1 v hv
  exact ⟨(Vec3.le_iff_get _ _).mp h.1 i, (Vec3.le_iff_get _ _).mp h.2 i⟩

/-- With the seed `1e10`, the lower bound left by pass 1 on axis `i` is attained when some
transformed component is at most the seed. -/
theorem pass1_seeded_min_attained (cfg : Config K) (vs : List (Vec3 K)) (i : Fin 3)
    (hlo : ∃ v ∈ vs, (transformVertex cfg v).get i ≤ 10000000000) :
    ∃ v ∈ (pass1 cfg vs (Vec3.splat 10000000000, Vec3.splat (-10000000000))).1, v.get i = (pass1 cfg vs (Vec3.splat 10000000000, Vec3.splat (-10000000000))).2.1.get i := by
  have hfst := pass1_fst cfg vs (Vec3.splat 10000000000, Vec3.splat (-10000000000))
  have hat := pass1_attained cfg i vs (Vec3.splat 10000000000, Vec3.splat (-10000000000))
  have hbound :=
    (pass1_get_bounds cfg vs (Vec3.splat 10000000000, Vec3.splat (-10000000000)) i).1
  rcases hat.1 with h | h
  · obtain ⟨v, hv, hle⟩ := hlo
    have hmem : transformVertex cfg v ∈ (pass1 cfg vs (Vec3.splat 10000000000, Vec3.splat (-10000000000))).1 := by
      rw [hfst]; exact List.mem_map_of_mem _ hv
    refine ⟨_, hmem, ?_⟩
    have h1 := (hbound _ hmem).1
    simp only [splat_get] at h
    rw [h] at h1 ⊢
    exact le_antisymm hle h1
  · exact h

/-- With the seed `-1e10`, the upper bound left by pass 1 on axis `i` is attained when some
transformed component is at least the seed. -/
theorem pass1_seeded_max_attained (cfg : Config K) (vs : List (Vec3 K)) (i : Fin 3)
    (hhi : ∃ v ∈ vs, -10000000000 ≤ (transformVertex cfg v).get i) :
    ∃ v ∈ (pass1 cfg vs (Vec3.splat 10000000000, Vec3.splat (-10000000000))).1, v.get i = (pass1 cfg vs (Vec3.splat 10000000000, Vec3.splat (-10000000000))).2.2.get i := by
  have hfst := pass1_fst cfg vs (Vec3.splat 10000000000, Vec3.splat (-10000000000))
  have hat := pass1_attained cfg i vs (Vec3.splat 10000000000, Vec3.splat (-10000000000))
  have hbound :=
    (pass1_get_bounds cfg vs (Vec3.splat 10000000000, Vec3.splat (-10000000000)) i).1
  rcases hat.2 with h | h
  · obtain ⟨v, hv, hle⟩ := hhi
    have hmem : transformVertex cfg v ∈ (pass1 cfg vs (Vec3.splat 10000000000, Vec3.splat (-10000000000))).1 := by
      rw [hfst]; exact List.mem_map_of_mem _ hv
    refine ⟨_, hmem, ?_⟩
    have h1 := (hbound _ hmem).2
    simp only [splat_get] at h
    rw [h] at h1 ⊢
    exact le_antisymm h1 hle
  · exact h

/-- With the seeds `1e10` and `-1e10`, the bounds left by pass 1 on axis `i` are attained
when some transformed component lies on the inner side of each seed. -/
theorem pass1_seeded_attained (cfg : Config K) (vs : List (Vec3 K)) (i : Fin 3)
    (hlo : ∃ v ∈ vs, (transformVertex cfg v).get i ≤ 10000000000)
    (hhi : ∃ v ∈ vs, -10000000000 ≤ (transformVertex cfg v).get i) :
    (∃ v ∈ (pass1 cfg vs (Vec3.splat 10000000000, Vec3.splat (-10000000000))).1, v.get i = (pass1 cfg vs (Vec3.splat 10000000000, Vec3.splat (-10000000000))).2.1.get i) ∧
    (∃ v ∈ (pass1 cfg vs (Vec3.splat 10000000000, Vec3.splat (-10000000000))).1, v.get i = (pass1 cfg vs (Vec3.splat 10000000000, Vec3.splat (-10000000000))).2.2.get i) :=
  ⟨pass1_seeded_min_attained cfg vs i hlo, pass1_seeded_max_attained cfg vs i hhi⟩

/-- C11, as amended. The accumulators are seeded with the finite values `1e10` and `-1e10`.
For every vertex list and every axis `i`, after pass 1 the vertices are the transformed
vertices; `bMin[i]` is a lower bound and `bMax[i]` an upper bound of their components;
`bMin[i] ≤ 1e10` and `-1e10 ≤ bMax[i]`; `bMin[i]` is the seed `1e10` or is attained by a
vertex, and `bMax[i]` is the seed `-1e10` or is attained by a vertex. When some transformed
component on axis `i` is at most `1e10`, `bMin[i]` is the minimum (attained by a vertex);
independently, when some transformed component is at least `-1e10`, `bMax[i]` is the maximum
(attained by a vertex). -/
theorem pass1_box_extrema (cfg : Config K) (vs : List (Vec3 K)) (i : Fin 3) :
    (pass1 cfg vs (Vec3.splat 10000000000, Vec3.splat (-10000000000))).1 = vs.map (transformVertex cfg) ∧
    (∀ v ∈ (pass1 cfg vs (Vec3.splat 10000000000, Vec3.splat (-10000000000))).1, (pass1 cfg vs (Vec3.splat 10000000000, Vec3.splat (-10000000000))).2.1.get i ≤ v.get i ∧ v.get i ≤ (pass1 cfg vs (Vec3.splat 10000000000, Vec3.splat (-10000000000))).2.2.get i) ∧
    (pass1 cfg vs (Vec3.splat 10000000000, Vec3.splat (-10000000000))).2.1.get i ≤ 10000000000 ∧
    -10000000000 ≤ (pass1 cfg vs (Vec3.splat 10000000000, Vec3.splat (-10000000000))).2.2.get i ∧
    ((pass1 cfg vs (Vec3.splat 10000000000, Vec3.splat (-10000000000))).2.1.get i = 10000000000 ∨
      ∃ v ∈ (pass1 cfg vs (Vec3.splat 10000000000, Vec3.splat (-10000000000))).1, v.get i = (pass1 cfg vs (Vec3.splat 10000000000, Vec3.splat (-10000000000))).2.1.get i) ∧
    ((pass1 cfg vs (Vec3.splat 10000000000, Vec3.splat (-10000000000))).2.2.get i = -10000000000 ∨
      ∃ v ∈ (pass1 cfg vs (Vec3.splat 10000000000, Vec3.splat (-10000000000))).1, v.get i = (pass1 cfg vs (Vec3.splat 10000000000, Vec3.splat (-10000000000))).2.2.get i) ∧
    ((∃ v ∈ vs, (transformVertex cfg v).get i ≤ 10000000000) →
      ∃ v ∈ (pass1 cfg vs (Vec3.splat 10000000000, Vec3.splat (-10000000000))).1, v.get i = (pass1 cfg vs (Vec3.splat 10000000000, Vec3.splat (-10000000000))).2.1.get i) ∧
    ((∃ v ∈ vs, -10000000000 ≤ (transformVertex cfg v).get i) →
      ∃ v ∈ (pass1 cfg vs (Vec3.splat 10000000000, Vec3.splat (-10000000000))).1, v.get i = (pass1 cfg vs (Vec3.splat 10000000000, Vec3.splat (-10000000000))).2.2.get i) := by
  have hb := pass1_get_bounds cfg vs (Vec3.splat 10000000000, Vec3.splat (-10000000000)) i
  have hat := pass1_attained cfg i vs (Vec3.splat 10000000000, Vec3.splat (-10000000000))
  have hcap1 := hb.2.1
  have hcap2 := hb.2.2
  have hs1 := hat.1
  have hs2 := hat.2
  rw [splat_get] at hcap1 hcap2 hs1 hs2
  exact ⟨pass1_fst cfg vs _, hb.1, hcap1, hcap2, hs1, hs2,
    pass1_seeded_min_attained cfg vs i, pass1_seeded_max_attained cfg vs i⟩

/-- Witness of the amended C11 on the `x` axis. For `nearVertices` both bounds are attained.
For `farVertices`, whose only transformed `x` component `1.7e10` exceeds the seed `1e10`,
the bounds still enclose the vertex, `bMin.x` is the seed, and `bMax.x` is attained. -/
theorem pass1_box_extrema_witness :
    ((∃ v ∈ (pass1 config nearVertices (Vec3.splat 10000000000, Vec3.splat (-10000000000))).1,
      v.get 0 =
        (pass1 config nearVertices (Vec3.splat 10000000000, Vec3.splat (-10000000000))).2.1.get 0) ∧
    (∃ v ∈ (pass1 config nearVertices (Vec3.splat 10000000000, Vec3.splat (-10000000000))).1,
      v.get 0 =
        (pass1 config nearVertices (Vec3.splat 10000000000, Vec3.splat (-10000000000))).2.2.get 0)) ∧
    ((¬ ∃ v ∈ farVertices, (transformVertex config v).get 0 ≤ 10000000000) ∧
    (∀ v ∈ (pass1 config farVertices (Vec3.splat 10000000000, Vec3.splat (-10000000000))).1,
      (pass1 config farVertices (Vec3.splat 10000000000, Vec3.splat (-10000000000))).2.1.get 0 ≤
        v.get 0 ∧
      v.get 0 ≤
        (pass1 config farVertices (Vec3.splat 10000000000, Vec3.splat (-10000000000))).2.2.get 0) ∧
    (pass1 config farVertices (Vec3.splat 10000000000, Vec3.splat (-10000000000))).2.1.get 0 ≤
      10000000000 ∧
    (∃ v ∈ (pass1 config farVertices (Vec3.splat 10000000000, Vec3.splat (-10000000000))).1,
      v.get 0 =
        (pass1 config farVertices (Vec3.splat 10000000000, Vec3.splat (-10000000000))).2.2.get 0)) :=
  have hlo : ∃ v ∈ nearVertices, (transformVertex config v).get 0 ≤ 10000000000 :=
    ⟨⟨1, 2, 3⟩, by simp [nearVertices], by
      show (1 : ℚ) * (17 / 100) + 0 ≤ 10000000000
      norm_num⟩
  have hhi : ∃ v ∈ nearVertices, -10000000000 ≤ (transformVertex config v).get 0 :=
    ⟨⟨1, 2, 3⟩, by simp [nearVertices], by
      show -10000000000 ≤ (1 : ℚ) * (17 / 100) + 0
      norm_num⟩
  have hfar : ¬ ∃ v ∈ farVertices, (transformVertex config v).get 0 ≤ 10000000000 := by
    rintro ⟨v, hv, h⟩
    rw [farVertices, List.mem_singleton] at hv
    subst hv
    have h1 : (100000000000 : ℚ) * (17 / 100) + 0 ≤ 10000000000 := h
    norm_num at h1
  have hfarhi : ∃ v ∈ farVertices, -10000000000 ≤ (transformVertex config v).get 0 :=
    ⟨⟨100000000000, 0, 0⟩, by simp [farVertices], by
      show -10000000000 ≤ (100000000000 : ℚ) * (17 / 100) + 0
      norm_num⟩
  have h := pass1_box_extrema config nearVertices 0
  have g := pass1_box_extrema config farVertices 0
  ⟨⟨h.2.2.2.2.2.2.1 hlo, h.2.2.2.2.2.2.2 hhi⟩,
    hfar, g.2.1, g.2.2.1, g.2.2.2.2.2.2.2 hfarhi⟩

/-- The box accumulated by pass 1 over `farVertices`. -/
theorem pass1_farVertices :
    pass1 config farVertices (Vec3.splat 10000000000, Vec3.splat (-10000000000)) =
      ([⟨17000000000, 15 / 2, 0⟩],
        (⟨10000000000, 15 / 2, 0⟩, ⟨17000000000, 15 / 2, 0⟩)) := by
  have ht : transformVertex config (⟨100000000000, 0, 0⟩ : Vec3 ℚ) =
      ⟨17000000000, 15 / 2, 0⟩ := by
    ext <;> simp [transformVertex, config]
    norm_num
  simp only [farVertices, pass1, ht, boxLoop_eq, Vec3.splat]
  norm_num

/-- Counterexample to C11 as stated: for the single vertex `(1e11, 0, 0)`, whose transformed
`x` component is `1.7e10`, pass 1 leaves `bMin.x = 1e10`, which is not the minimum `1.7e10`
of the transformed `x` components and is attained by no vertex. -/
theorem pass1_farVertices_min_not_attained :
    farVertices ≠ [] ∧
    (pass1 config farVertices (Vec3.splat 10000000000, Vec3.splat (-10000000000))).1 =
      [⟨17000000000, 15 / 2, 0⟩] ∧
    (pass1 config farVertices (Vec3.splat 10000000000, Vec3.splat (-10000000000))).2.1.get 0 =
      10000000000 ∧
    ¬ ∃ v ∈ (pass1 config farVertices (Vec3.splat 10000000000, Vec3.splat (-10000000000))).1,
      v.get 0 =
        (pass1 config farVertices (Vec3.splat 10000000000, Vec3.splat (-10000000000))).2.1.get 0 := by
  rw [pass1_farVertices]
  refine ⟨by simp [farVertices], rfl, rfl, ?_⟩
  rintro ⟨v, hv, h⟩
  rw [List.mem_singleton] at hv
  subst hv
  have h1 : (17000000000 : ℚ) = 10000000000 := h
  norm_num at h1

end ExtremaClaims

/-! ## Claims on `diff` and `center` -/

section CenterClaims

variable {K : Type} [LinearOrderedField K]

/-- The fields `diff` and `center` do not depend on the strand loop. -/
theorem loadCYHairModel_diff_center (cfg : Config K) (rnd : Nat → K) (f : CyHairFile K)
    (m : Model K) (pts : Nat → Vec3 K) (hload : 0 ≤ f.loadResult)
    (hpts : f.pointsArray = some pts) :
    (loadCYHairModel cfg rnd f m).1.diff = (loadVertices cfg pts (loadHeader f m)).diff ∧
    (loadCYHairModel cfg rnd f m).1.center = (loadVertices cfg pts (loadHeader f m)).center := by
  unfold loadCYHairModel
  rw [if_neg (by omega)]
  simp only [hpts]
  split <;> exact ⟨rfl, rfl⟩

theorem vec3_mul_half (a : Vec3 K) : a * (1 / 2 : K) = a / (2 : K) := by
  ext <;> simp <;> ring

/-- C15. When the file loads and has a points array, then after `loadCYHairModel` (whose
`bMin`, `bMax`, `diff` and `center` are those computed after pass 1) `diff = bMax - bMin`
and `center = (bMin + bMax) / 2` componentwise, in exact arithmetic; `bMin` and `bMax` are
the accumulators left by pass 1 over the copied points. -/
theorem loadCYHairModel_diff_center_exact (cfg : Config K) (rnd : Nat → K) (f : CyHairFile K)
    (m : Model K) (pts : Nat → Vec3 K) (hload : 0 ≤ f.loadResult)
    (hpts : f.pointsArray = some pts) :
    (loadCYHairModel cfg rnd f m).1.diff =
      (loadCYHairModel cfg rnd f m).1.bMax - (loadCYHairModel cfg rnd f m).1.bMin ∧
    (loadCYHairModel cfg rnd f m).1.center =
      ((loadCYHairModel cfg rnd f m).1.bMin + (loadCYHairModel cfg rnd f m).1.bMax) / (2 : K) ∧
    ((loadCYHairModel cfg rnd f m).1.bMin, (loadCYHairModel cfg rnd f m).1.bMax) =
      (pass1 cfg (memcpy (loadHeader f m).vertices pts f.point_count)
        (Vec3.splat 10000000000, Vec3.splat (-10000000000))).2 := by
  obtain ⟨_, hmin, hmax, _⟩ := loadCYHairModel_vertices cfg rnd f m pts hload hpts
  obtain ⟨hd, hc⟩ := loadCYHairModel_diff_center cfg rnd f m pts hload hpts
  rw [hd, hc, hmin, hmax]
  refine ⟨rfl, ?_, rfl⟩
  show ((loadVertices cfg pts (loadHeader f m)).bMin
      + (loadVertices cfg pts (loadHeader f m)).bMax) * (1 / 2 : K) = _
  exact vec3_mul_half _

/-- Witness of C15: the configured constants and a file with three strands and nine
points. -/
theorem loadCYHairModel_diff_center_exact_witness :
    (0 ≤ threeStrandFile.loadResult ∧
      threeStrandFile.pointsArray = some (fun j => ⟨j, 2 * j, 0⟩)) ∧
    (loadCYHairModel config noRand threeStrandFile (emptyModel ℚ)).1.diff =
      (loadCYHairModel config noRand threeStrandFile (emptyModel ℚ)).1.bMax -
        (loadCYHairModel config noRand threeStrandFile (emptyModel ℚ)).1.bMin ∧
    (loadCYHairModel config noRand threeStrandFile (emptyModel ℚ)).1.center =
      ((loadCYHairModel config noRand threeStrandFile (emptyModel ℚ)).1.bMin +
        (loadCYHairModel config noRand threeStrandFile (emptyModel ℚ)).1.bMax) / (2 : ℚ) :=
  have h := loadCYHairModel_diff_center_exact config noRand threeStrandFile (emptyModel ℚ)
    (fun j => ⟨j, 2 * j, 0⟩) (by decide) rfl
  ⟨⟨by decide, rfl⟩, h.1, h.2.1⟩

end CenterClaims

/-! ## Claims on the vertical rescale -/

section RescaleLemmas

variable {K : Type} [LinearOrderedField K]

/-- Mapping every `y` to `(y - c) * s + c`, where `c` is the midpoint of the attained bounds
`a` and `b` of the `y` components, gives `y` components whose extrema have the midpoint `c`
and the distance `|s| * (b - a)`. -/
theorem rescale_extrema (ws : List (Vec3 K)) (g : Vec3 K → Vec3 K) (a b c s : K)
    (hg : ∀ v, (g v).y = (v.y - c) * s + c) (hc : a + b = 2 * c)
    (hmin : ∀ v ∈ ws, a ≤ v.y) (hmax : ∀ v ∈ ws, v.y ≤ b)
    (ha : ∃ v ∈ ws, v.y = a) (hb : ∃ v ∈ ws, v.y = b) :
    ∃ lo hi, (∃ v ∈ ws.map g, v.y = lo) ∧ (∀ v ∈ ws.map g, lo ≤ v.y) ∧
      (∃ v ∈ ws.map g, v.y = hi) ∧ (∀ v ∈ ws.map g, v.y ≤ hi) ∧
      (lo + hi) / 2 = c ∧ hi - lo = |s| * (b - a) := by
  obtain ⟨va, hva, hya⟩ := ha
  obtain ⟨vb, hvb, hyb⟩ := hb
  have hmem : ∀ v ∈ ws, g v ∈ ws.map g := fun v hv => List.mem_map_of_mem g hv
  by_cases hs : 0 ≤ s
  · refine ⟨(a - c) * s + c, (b - c) * s + c, ⟨g va, hmem va hva, by rw [hg, hya]⟩, ?_,
      ⟨g vb, hmem vb hvb, by rw [hg, hyb]⟩, ?_, ?_, ?_⟩
    · intro w hw
      obtain ⟨v, hv, rfl⟩ := List.mem_map.mp hw
      rw [hg]
      have := mul_le_mul_of_nonneg_right (sub_le_sub_right (hmin v hv) c) hs
      linarith
    · intro w hw
      obtain ⟨v, hv, rfl⟩ := List.mem_map.mp hw
      rw [hg]
      have := mul_le_mul_of_nonneg_right (sub_le_sub_right (hmax v hv) c) hs
      linarith
    · have : (a - c) * s + c + ((b - c) * s + c) = (a + b - 2 * c) * s + 2 * c := by ring
      rw [this, hc]
      ring
    · rw [abs_of_nonneg hs]
      ring
  · have hs1 : s ≤ 0 := le_of_lt (not_le.mp hs)
    refine ⟨(b - c) * s + c, (a - c) * s + c, ⟨g vb, hmem vb hvb, by rw [hg, hyb]⟩, ?_,
      ⟨g va, hmem va hva, by rw [hg, hya]⟩, ?_, ?_, ?_⟩
    · intro w hw
      obtain ⟨v, hv, rfl⟩ := List.mem_map.mp hw
      rw [hg]
      have := mul_le_mul_of_nonpos_right (sub_le_sub_right (hmax v hv) c) hs1
      linarith
    · intro w hw
      obtain ⟨v, hv, rfl⟩ := List.mem_map.mp hw
      rw [hg]
      have := mul_le_mul_of_nonpos_right (sub_le_sub_right (hmin v hv) c) hs1
      linarith
    · have : (b - c) * s + c + ((a - c) * s + c) = (a + b - 2 * c) * s + 2 * c := by ring
      rw [this, hc]
      ring
    · rw [abs_of_nonpos hs1]
      ring

theorem rescaleY_y (cfg : Config K) (center v : Vec3 K) :
    (rescaleY cfg center v).y = (v.y - center.y) * cfg.yScale + center.y := rfl

end RescaleLemmas

section RescaleClaims

variable {K : Type} [LinearOrderedField K]

theorem mem_memcpy {α : Type} (xs : List α) (src : Nat → α) (n j : Nat) (h : j < n) :
    src j ∈ memcpy xs src n := by
  unfold memcpy
  exact List.mem_append_left _ (List.mem_map.mpr ⟨j, List.mem_range.mpr h, rfl⟩)

/-- The vertices, box and centre computed for `farFile` with the configured constants. -/
theorem loadVertices_farFile :
    (loadVertices config (fun _ => (⟨0, 0, 100000000000⟩ : Vec3 ℚ))
        (loadHeader farFile (emptyModel ℚ))).vertices = [⟨0, 34000000015 / 2, 0⟩] ∧
    (loadVertices config (fun _ => (⟨0, 0, 100000000000⟩ : Vec3 ℚ))
        (loadHeader farFile (emptyModel ℚ))).bMin = ⟨0, 10000000000, 0⟩ ∧
    (loadVertices config (fun _ => (⟨0, 0, 100000000000⟩ : Vec3 ℚ))
        (loadHeader farFile (emptyModel ℚ))).bMax = ⟨0, 34000000015 / 2, 0⟩ ∧
    (loadVertices config (fun _ => (⟨0, 0, 100000000000⟩ : Vec3 ℚ))
        (loadHeader farFile (emptyModel ℚ))).center = ⟨0, 54000000015 / 4, 0⟩ := by
  have hcopy : memcpy (loadHeader farFile (emptyModel ℚ)).vertices
      (fun _ => (⟨0, 0, 100000000000⟩ : Vec3 ℚ))
      (loadHeader farFile (emptyModel ℚ)).nTotalVertices = [⟨0, 0, 100000000000⟩] := rfl
  have ht : transformVertex config (⟨0, 0, 100000000000⟩ : Vec3 ℚ) =
      ⟨0, 34000000015 / 2, 0⟩ := by
    ext <;> simp [transformVertex, config]
    norm_num
  have hp : pass1 config [(⟨0, 0, 100000000000⟩ : Vec3 ℚ)]
      (Vec3.splat 10000000000, Vec3.splat (-10000000000)) =
      ([⟨0, 34000000015 / 2, 0⟩], (⟨0, 10000000000, 0⟩, ⟨0, 34000000015 / 2, 0⟩)) := by
    simp only [pass1, ht, boxLoop_eq, Vec3.splat]
    norm_num
  unfold loadVertices
  simp only [hcopy, hp, pass2_of_yScale_one config rfl]
  refine ⟨trivial, trivial, trivial, ?_⟩
  ext <;> simp
  norm_num

/-- In exact arithmetic: for the single point `(0, 0, 1e11)` and the configured
`yScale = 1`, the transformed `y` component is `17000000007.5`, but `bMin.y = 1e10` is the
seed, so `center.y = 13500000003.75`; the only new `y` component is `17000000007.5`, whose
midpoint is not `center.y` and whose extent `0` is not `|yScale| * (bMax.y - bMin.y)`. -/
theorem loadVertices_farFile_midpoint_moves :
    memcpy (loadHeader farFile (emptyModel ℚ)).vertices
      (fun _ => (⟨0, 0, 100000000000⟩ : Vec3 ℚ))
      (loadHeader farFile (emptyModel ℚ)).nTotalVertices ≠ [] ∧
    ¬ ∃ lo hi,
      (∃ v ∈ (loadVertices config (fun _ => (⟨0, 0, 100000000000⟩ : Vec3 ℚ))
          (loadHeader farFile (emptyModel ℚ))).vertices, v.y = lo) ∧
      (∃ v ∈ (loadVertices config (fun _ => (⟨0, 0, 100000000000⟩ : Vec3 ℚ))
          (loadHeader farFile (emptyModel ℚ))).vertices, v.y = hi) ∧
      (lo + hi) / 2 = (loadVertices config (fun _ => (⟨0, 0, 100000000000⟩ : Vec3 ℚ))
          (loadHeader farFile (emptyModel ℚ))).center.y := by
  obtain ⟨hv, _, _, hc⟩ := loadVertices_farFile
  rw [hv, hc]
  refine ⟨by decide, ?_⟩
  rintro ⟨lo, hi, ⟨v, hv1, rfl⟩, ⟨w, hw1, rfl⟩, h⟩
  rw [List.mem_singleton] at hv1 hw1
  subst hv1 hw1
  norm_num at h

end RescaleClaims

/-! ## Claims on the thicknesses -/

section ThicknessLemmas

variable {K : Type} [LinearOrderedField K]

end ThicknessLemmas

section ThicknessClaims

variable {K : Type} [LinearOrderedField K]

end ThicknessClaims

/-! ## Claims on the failure of `loadCYHairModel` -/

section FailureLemmas

variable {K : Type} [LinearOrderedField K]

/-- A loop can only end with an error that its body can produce. -/
theorem forLoopM_error {σ : Type} (hi : Nat) (body : Nat → σ → Except Fault σ)
    (P : Fault → Prop) (hbody : ∀ i s e, body i s = .error e → P e) :
    ∀ (n i : Nat) (s : σ) (e : Fault), hi - i = n → forLoopM hi body i s = .error e → P e := by
  intro n
  induction n with
  | zero =>
    intro i s e h he
    rw [forLoopM, if_neg (by omega)] at he
    exact Except.noConfusion he
  | succ n ih =>
    intro i s e h he
    rw [forLoopM, if_pos (by omega)] at he
    cases hb : body i s with
    | error e1 =>
      rw [hb] at he
      have : e1 = e := Except.error.inj he
      subst this
      exact hbody i s e1 hb
    | ok s1 =>
      rw [hb] at he
      exact ih (i + 1) s1 e (by omega) he

theorem thicknessStep_error (cfg : Config K) (rnd : Nat → K) (f : CyHairFile K) (j : Nat)
    (s : List K × Nat) (e : Fault) (h : thicknessStep cfg rnd f j s = .error e) :
    e = .outOfBounds := by
  unfold thicknessStep writeAt at h
  split_ifs at h
  all_goals first
    | exact Except.noConfusion h
    | exact (Except.error.inj h).symm

theorem strandStep_error (cfg : Config K) (rnd : Nat → K) (f : CyHairFile K) (idx : Nat)
    (s : LoadState K) (e : Fault) (h : strandStep cfg rnd f idx s = .error e) :
    e = .outOfBounds := by
  unfold strandStep at h
  simp only at h
  cases hl : forLoopM (u32add (u32add s.startVertex (segmentsOf f idx)) 1)
      (thicknessStep cfg rnd f) s.startVertex (s.thicknesses, s.randCalls) with
  | error e1 =>
    rw [hl] at h
    have := forLoopM_error _ _ (fun e => e = Fault.outOfBounds)
      (thicknessStep_error cfg rnd f) _ _ _ e1 rfl hl
    rw [← Except.error.inj h]
    exact this
  | ok r =>
    rw [hl] at h
    exact Except.noConfusion h

/-- The outcome of `loadCYHairModel` in each of its three cases. -/
theorem loadCYHairModel_cases (cfg : Config K) (rnd : Nat → K) (f : CyHairFile K)
    (m : Model K) :
    (f.loadResult < 0 → loadCYHairModel cfg rnd f m = (m, some .cannotLoad)) ∧
    (0 ≤ f.loadResult → f.pointsArray = none →
      loadCYHairModel cfg rnd f m = (loadHeader f m, some .noPointArray)) ∧
    (0 ≤ f.loadResult → f.pointsArray ≠ none →
      (loadCYHairModel cfg rnd f m).2 = none ∨
      (loadCYHairModel cfg rnd f m).2 = some .outOfBounds) := by
  refine ⟨?_, ?_, ?_⟩
  · intro h
    unfold loadCYHairModel
    rw [if_pos h]
  · intro h hp
    unfold loadCYHairModel
    rw [if_neg (by omega)]
    simp only [hp]
  · intro h hp
    cases hpts : f.pointsArray with
    | none => exact absurd hpts hp
    | some pts =>
      unfold loadCYHairModel
      rw [if_neg (by omega)]
      simp only [hpts]
      split
      · rename_i e he
        right
        have := forLoopM_error _ _ (fun e => e = Fault.outOfBounds)
          (strandStep_error cfg rnd f) _ _ _ e rfl he
        show some e = some Fault.outOfBounds
        rw [this]
      · left
        rfl

end FailureLemmas

section FailureClaims

variable {K : Type} [LinearOrderedField K]

/-- C13, as amended. `loadCYHairModel` throws if and only if `LoadFromFile` returns a
negative value or the points array is absent. When `LoadFromFile` fails, the globals are
unchanged. When the points array is absent, the exception is thrown after `nStrands` and
`nTotalVertices` have been set from the header and `vertices` and `thicknesses` have been
resized to `point_count`; the strand vectors and the bounding box are unchanged. -/
theorem loadCYHairModel_throws_iff (cfg : Config K) (rnd : Nat → K) (f : CyHairFile K)
    (m : Model K) :
    (((loadCYHairModel cfg rnd f m).2 = some .cannotLoad ∨
        (loadCYHairModel cfg rnd f m).2 = some .noPointArray) ↔
      (f.loadResult < 0 ∨ f.pointsArray = none)) ∧
    (f.loadResult < 0 → loadCYHairModel cfg rnd f m = (m, some .cannotLoad)) ∧
    (0 ≤ f.loadResult → f.pointsArray = none →
      (loadCYHairModel cfg rnd f m).2 = some .noPointArray ∧
      (loadCYHairModel cfg rnd f m).1.nStrands = f.hair_count ∧
      (loadCYHairModel cfg rnd f m).1.nTotalVertices = f.point_count ∧
      (loadCYHairModel cfg rnd f m).1.vertices = resize m.vertices f.point_count ⟨0, 0, 0⟩ ∧
      (loadCYHairModel cfg rnd f m).1.thicknesses = resize m.thicknesses f.point_count 0 ∧
      (loadCYHairModel cfg rnd f m).1.strandRanges = m.strandRanges ∧
      (loadCYHairModel cfg rnd f m).1.strandNumSegments = m.strandNumSegments ∧
      (loadCYHairModel cfg rnd f m).1.bMin = m.bMin ∧
      (loadCYHairModel cfg rnd f m).1.bMax = m.bMax ∧
      (loadCYHairModel cfg rnd f m).1.diff = m.diff ∧
      (loadCYHairModel cfg rnd f m).1.center = m.center) := by
  obtain ⟨h1, h2, h3⟩ := loadCYHairModel_cases cfg rnd f m
  refine ⟨⟨?_, ?_⟩, h1, ?_⟩
  · intro h
    by_contra hn
    have hl : 0 ≤ f.loadResult := by
      by_contra hc
      exact hn (Or.inl (by omega))
    have hp : f.pointsArray ≠ none := fun hc => hn (Or.inr hc)
    rcases h3 hl hp with h4 | h4
    · rw [h4] at h
      rcases h with h | h <;> exact Option.noConfusion h
    · rw [h4] at h
      rcases h with h | h <;> exact Fault.noConfusion (Option.some.inj h)
  · intro h
    by_cases hl : f.loadResult < 0
    · left
      rw [h1 hl]
    · right
      have hp : f.pointsArray = none := by
        rcases h with h | h
        · exact absurd h hl
        · exact h
      rw [h2 (by omega) hp]
  · intro hl hp
    rw [h2 hl hp]
    exact ⟨rfl, rfl, rfl, rfl, rfl, rfl, rfl, rfl, rfl, rfl, rfl⟩

/-- Counterexample to C13 as stated: for a file that loads but has no points array, with a
header announcing one strand and five points, `loadCYHairModel` throws, and the globals
differ from their values before the call: `nStrands` is `1` instead of `0`,
`nTotalVertices` is `5` instead of `0`, and `vertices` and `thicknesses` have five
elements instead of none. -/
theorem loadCYHairModel_nullPoints_changes_state :
    (loadCYHairModel config noRand nullPointsFile (emptyModel ℚ)).2 = some .noPointArray ∧
    (loadCYHairModel config noRand nullPointsFile (emptyModel ℚ)).1.nStrands = 1 ∧
    (emptyModel ℚ).nStrands = 0 ∧
    (loadCYHairModel config noRand nullPointsFile (emptyModel ℚ)).1.nTotalVertices = 5 ∧
    (emptyModel ℚ).nTotalVertices = 0 ∧
    (loadCYHairModel config noRand nullPointsFile (emptyModel ℚ)).1.vertices.length = 5 ∧
    (emptyModel ℚ).vertices.length = 0 ∧
    (loadCYHairModel config noRand nullPointsFile (emptyModel ℚ)).1.thicknesses.length = 5 ∧
    (emptyModel ℚ).thicknesses.length = 0 ∧
    (loadCYHairModel config noRand nullPointsFile (emptyModel ℚ)).1.vertices ≠
      (emptyModel ℚ).vertices := by
  have h := (loadCYHairModel_cases config noRand nullPointsFile (emptyModel ℚ)).2.1
    (by decide) rfl
  rw [h]
  refine ⟨rfl, rfl, rfl, rfl, rfl, rfl, rfl, rfl, rfl, ?_⟩
  intro hc
  have := congrArg List.length hc
  exact absurd this (by decide)

/-- Witness of the amended C13: a file for which `LoadFromFile` fails leaves the globals
unchanged. -/
theorem loadCYHairModel_throws_iff_witness :
    failedFile.loadResult < 0 ∧
    loadCYHairModel config noRand failedFile (pointModel ℚ) = (pointModel ℚ, some .cannotLoad) :=
  ⟨by decide,
    (loadCYHairModel_throws_iff config noRand failedFile (pointModel ℚ)).2.1 (by decide)⟩

end FailureClaims

/-! ## Claims on the endpoints of the emitted curves -/

section ChainClaims

variable {K : Type} [LinearOrderedField K]

/-- The pairs of the second and third window index of a strand: `(s, s + 1)` for the head,
then `(s + k, s + k + 1)` for `k = 2, .., R - 2`. -/
theorem strandReads_inner_pairs (s R : Nat) (hR : 4 ≤ R) (h32 : s + R < 4294967296) :
    (strandReads (s, s + R)).map (fun r => (r.v1, r.v2)) =
      (s, s + 1) :: (List.range (R - 3)).map (fun i => (s + i + 2, s + i + 3)) := by
  obtain ⟨n, rfl⟩ : ∃ n, R = n + 4 := ⟨R - 4, by omega⟩
  rw [strandReads_closed s (n + 4) hR h32]
  have h3 : n + 4 - 3 = n + 1 := by omega
  have h4 : n + 4 - 4 = n := by omega
  simp only [h3, h4, List.map_cons, List.map_append, List.map_map, List.map_nil,
    List.range_succ]
  refine congrArg (List.cons (s, s + 1)) ?_
  refine congrArg₂ (· ++ ·) ?_ ?_
  · apply List.map_congr_left
    intro i _
    simp only [Function.comp, Prod.mk.injEq]
    exact ⟨by omega, by omega⟩
  · simp only [List.cons.injEq, Prod.mk.injEq, and_true]
    exact ⟨by omega, by omega⟩

/-- C14 at the failing input: for the five-vertex strand of `exampleModel` the emitted
curves have the endpoints `(v0, v1)`, `(v2, v3)`, `(v3, v4)`: the first curve ends at
`v1 = (1,0,0)` but the second starts at `v2 = (2,0,0)`. -/
theorem exampleModel_chain_broken :
    ∃ cs, strandBody powBase exampleModel (0, 5) = .ok cs ∧
      cs.map (fun c => (c.points.e0, c.points.e3)) =
        [(⟨0, 0, 0⟩, ⟨1, 0, 0⟩), (⟨2, 0, 0⟩, ⟨3, 0, 0⟩), (⟨3, 0, 0⟩, ⟨4, 0, 0⟩)] ∧
      cs[0]?.map (fun c => c.points.e3) ≠ cs[1]?.map (fun c => c.points.e0) := by
  have hw := strandWindows_ok exampleModel 0 5 (by decide) (by decide) (by decide) (by decide)
  refine ⟨_, strandBody_of_windows powBase exampleModel _ _ hw, ?_, ?_⟩
  · rw [strandReads_closed 0 5 (by decide) (by decide)]
    rfl
  · rw [strandReads_closed 0 5 (by decide) (by decide)]
    intro h
    have h1 : (some (⟨1, 0, 0⟩ : Vec3 ℚ)) = some ⟨2, 0, 0⟩ := h
    have h2 := congrArg Vec3.x (Option.some.inj h1)
    norm_num at h2

/-- C16 at the failing input: for the single four-vertex strand of `pointModel`
(`nStrands = 1`) the progress test `count % (nStrands / 10u)` divides by zero in the first
iteration of the strand loop, and `savePBRT` emits no curve. -/
theorem savePBRT_pointModel_fault :
    1 ≤ (pointModel ℚ).nStrands ∧
    progressTest 0 (pointModel ℚ).nStrands = .error .divByZero ∧
    savePBRT powBase true (pointModel ℚ) = .error .divByZero := by
  have h : savePBRTWindows true (pointModel ℚ) = .error .divByZero := by
    unfold savePBRTWindows
    rw [if_pos rfl]
    exact strandLoop_fault (pointModel ℚ) 0 (by decide) (0, 4) []
  refine ⟨by decide, rfl, ?_⟩
  unfold savePBRT
  rw [h]
  rfl

/-- C20. For a strand with `R ≥ 4` vertices lying inside the vectors, the endpoint pairs
`(B0, B3)` of the emitted curves are, in order, `(v_0, v_1)`, then `(v_k, v_{k+1})` for
`k = 2, .., R - 2`; the corresponding index pairs come from the window positions `P1`, `P2`,
and no emitted curve has the index pair `(start + 1, start + 2)` of the segment
`[v_1, v_2]`. -/
theorem strandBody_endpoint_pairs (pw : K → K → K) (m : Model K) (start stop : Nat)
    (hle : start ≤ stop) (h32 : stop < 4294967296) (hR : 4 ≤ stop - start)
    (hv : stop ≤ m.vertices.length) (ht : stop ≤ m.thicknesses.length) :
    (∃ cs, strandBody pw m (start, stop) = .ok cs ∧
      cs.map (fun c => (some c.points.e0, some c.points.e3)) =
        (m.vertices[start]?, m.vertices[start + 1]?) ::
          (List.range (stop - start - 3)).map
            (fun i => (m.vertices[start + i + 2]?, m.vertices[start + i + 3]?))) ∧
    (strandReads (start, stop)).map (fun r => (r.v1, r.v2)) =
      (start, start + 1) ::
        (List.range (stop - start - 3)).map (fun i => (start + i + 2, start + i + 3)) ∧
    (∀ r ∈ strandReads (start, stop), (r.v1, r.v2) ≠ (start + 1, start + 2)) := by
  obtain ⟨R, rfl⟩ := Nat.exists_eq_add_of_le hle
  have hR4 : 4 ≤ R := by omega
  have hRR : start + R - start = R := by omega
  rw [hRR]
  have hpairs := strandReads_inner_pairs start R hR4 h32
  have hw := strandWindows_ok m start R hR4 h32 hv ht
  refine ⟨⟨_, strandBody_of_windows pw m _ _ hw, ?_⟩, hpairs, ?_⟩
  · have hmap : List.map (fun c : Curve K => (some c.points.e0, some c.points.e3))
          (((strandReads (start, start + R)).map (peek m)).map (convertCurve pw)) =
        ((strandReads (start, start + R)).map (fun r => (r.v1, r.v2))).map
          (fun q => (m.vertices[q.1]?, m.vertices[q.2]?)) := by
      rw [List.map_map, List.map_map, List.map_map]
      apply List.map_congr_left
      intro r hr
      have hin := strandReads_within start R hR4 h32 r hr
      simp only [Function.comp, convertCurve, convert, peek, Prod.mk.injEq]
      exact ⟨(getElem?_eq_some_getD _ _ _ (by omega)).symm,
        (getElem?_eq_some_getD _ _ _ (by omega)).symm⟩
    rw [hmap, hpairs, List.map_cons, List.map_map]
    rfl
  · intro r hr
    have hmem : (r.v1, r.v2) ∈ (strandReads (start, start + R)).map (fun r => (r.v1, r.v2)) :=
      List.mem_map_of_mem _ hr
    rw [hpairs] at hmem
    intro hc
    rw [hc] at hmem
    rcases List.mem_cons.mp hmem with h | h
    · have := congrArg Prod.fst h
      simp only at this
      omega
    · obtain ⟨i, _, hi⟩ := List.mem_map.mp h
      have h1 := congrArg Prod.fst hi
      have h2 := congrArg Prod.snd hi
      simp only at h1 h2
      omega

/-- Witness of C20 on the five-vertex strand of `exampleModel`. -/
theorem strandBody_endpoint_pairs_witness :
    (0 ≤ 5 ∧ 5 < 4294967296 ∧ 4 ≤ 5 - 0 ∧ 5 ≤ exampleModel.vertices.length ∧
      5 ≤ exampleModel.thicknesses.length) ∧
    (∃ cs, strandBody powBase exampleModel (0, 5) = .ok cs ∧
      cs.map (fun c => (some c.points.e0, some c.points.e3)) =
        (exampleModel.vertices[0]?, exampleModel.vertices[0 + 1]?) ::
          (List.range (5 - 0 - 3)).map
            (fun i => (exampleModel.vertices[0 + i + 2]?, exampleModel.vertices[0 + i + 3]?))) :=
  ⟨⟨by decide, by decide, by decide, by decide, by decide⟩,
    (strandBody_endpoint_pairs powBase exampleModel 0 5 (by decide) (by decide) (by decide)
      (by decide) (by decide)).1⟩

end ChainClaims

/-! ## Claims on the bounds of the reads -/

section BoundsClaims

variable {K : Type} [LinearOrderedField K]

theorem memcpy_length {α : Type} (xs : List α) (src : Nat → α) (n : Nat)
    (h : xs.length = n) : (memcpy xs src n).length = n := by
  simp only [memcpy, List.length_append, List.length_map, List.length_range, List.length_drop]
  omega

/-- After a completed `loadCYHairModel`, `vertices` and `thicknesses` have `nTotalVertices`
elements. -/
theorem loadCYHairModel_lengths (cfg : Config K) (rnd : Nat → K) (f : CyHairFile K)
    (m : Model K) (pts : Nat → Vec3 K) (hload : 0 ≤ f.loadResult)
    (hpts : f.pointsArray = some pts)
    (hfit : strandOffset f f.hair_count ≤ f.point_count) (h32 : f.point_count < 4294967296) :
    (loadCYHairModel cfg rnd f m).1.vertices.length =
      (loadCYHairModel cfg rnd f m).1.nTotalVertices ∧
    (loadCYHairModel cfg rnd f m).1.thicknesses.length =
      (loadCYHairModel cfg rnd f m).1.nTotalVertices := by
  obtain ⟨s, hinv, heq⟩ := loadCYHairModel_ok cfg rnd f m pts hload hpts hfit h32
  rw [heq]
  refine ⟨?_, hinv.2.1⟩
  show (pass2 cfg _ (pass1 cfg _ _).1).length = f.point_count
  rw [pass2, List.length_map, pass1_fst, List.length_map]
  exact memcpy_length _ _ _ (resize_length _ _ _)

/-- C17. For a strand range `[start, stop)` with `stop - start ≥ 4`, every index used to
read `vertices` or `thicknesses` while the strand is processed lies in `[start, stop)`; the
unsigned subtractions `stop - 3`, `stop - 2`, `stop - 1` do not wrap around; and when the
two vectors have `nTotalVertices` elements and `stop ≤ nTotalVertices`, the strand is
processed without a read out of bounds. -/
theorem strandReads_in_range (m : Model K) (start stop : Nat)
    (hle : start ≤ stop) (h32 : stop < 4294967296) (hR : 4 ≤ stop - start) :
    (∀ r ∈ strandReads (start, stop),
      (start ≤ r.v0 ∧ r.v0 < stop) ∧ (start ≤ r.v1 ∧ r.v1 < stop) ∧
      (start ≤ r.v2 ∧ r.v2 < stop) ∧ (start ≤ r.v3 ∧ r.v3 < stop) ∧
      (start ≤ r.w0 ∧ r.w0 < stop) ∧ (start ≤ r.w1 ∧ r.w1 < stop)) ∧
    (3 ≤ stop ∧ u32sub stop 3 = stop - 3 ∧ u32sub stop 2 = stop - 2 ∧
      u32sub stop 1 = stop - 1) ∧
    (m.vertices.length = m.nTotalVertices → m.thicknesses.length = m.nTotalVertices →
      stop ≤ m.nTotalVertices →
      (∀ r ∈ strandReads (start, stop), InBounds m r) ∧
      ∃ ws, strandWindows m (start, stop) = .ok ws) := by
  obtain ⟨R, rfl⟩ := Nat.exists_eq_add_of_le hle
  have hR4 : 4 ≤ R := by omega
  have hin := strandReads_within start R hR4 h32
  refine ⟨hin, ⟨by omega, u32sub_of_le _ _ (by omega) h32, u32sub_of_le _ _ (by omega) h32,
    u32sub_of_le _ _ (by omega) h32⟩, ?_⟩
  intro hv ht hstop
  refine ⟨?_, _, strandWindows_ok m start R hR4 h32 (by omega) (by omega)⟩
  intro r hr
  have h := hin r hr
  unfold InBounds
  omega

/-- Witness of C17 on the five-vertex strand of `exampleModel`. -/
theorem strandReads_in_range_witness :
    (0 ≤ 5 ∧ 5 < 4294967296 ∧ 4 ≤ 5 - 0) ∧
    (∀ r ∈ strandReads (0, 5),
      (0 ≤ r.v0 ∧ r.v0 < 5) ∧ (0 ≤ r.v1 ∧ r.v1 < 5) ∧
      (0 ≤ r.v2 ∧ r.v2 < 5) ∧ (0 ≤ r.v3 ∧ r.v3 < 5) ∧
      (0 ≤ r.w0 ∧ r.w0 < 5) ∧ (0 ≤ r.w1 ∧ r.w1 < 5)) ∧
    ((∀ r ∈ strandReads (0, 5), InBounds exampleModel r) ∧
      ∃ ws, strandWindows exampleModel (0, 5) = .ok ws) :=
  have h := strandReads_in_range exampleModel 0 5 (by decide) (by decide) (by decide)
  ⟨⟨by decide, by decide, by decide⟩, h.1, h.2.2 rfl rfl (by decide)⟩

end BoundsClaims

/-! ## The conversion as written -/

section UniformClaims

variable {K : Type} [LinearOrderedField K]

/-- In exact arithmetic, for a `pw` with `PowLaws`: `d1`, `d2`, `d3` are the values of the
member function `length()`, which is `3` for every vector; hence for every window, whatever
the spacing of its points, `convert` returns `B0 = P1`, `B1 = P1 + (P2 - P0) / 6`, `B2 = P2 - (P3 - P1) / 6`,
`B3 = P2`, and its two denominators are `18`, never zero. -/
theorem convert_is_uniform (pw : K → K → K) (h : PowLaws pw) (w : VPoints K) :
    ((w.e0 - w.e1).length = 3 ∧ (w.e1 - w.e2).length = 3 ∧ (w.e2 - w.e3).length = 3) ∧
    (convert pw w).e0 = w.e1 ∧
    (convert pw w).e1 = w.e1 + (w.e2 - w.e0) / (6 : K) ∧
    (convert pw w).e2 = w.e2 - (w.e3 - w.e1) / (6 : K) ∧
    (convert pw w).e3 = w.e2 ∧
    convertDen1 pw w = 18 ∧ convertDen2 pw w = 18 ∧
    convertDen1 pw w ≠ 0 ∧ convertDen2 pw w ≠ 0 := by
  have hc := convert_uniform pw h w
  have hd := convertDen_eq pw h w
  refine ⟨⟨rfl, rfl, rfl⟩, ?_, ?_, ?_, ?_, hd.1, hd.2, ?_, ?_⟩
  · rw [hc]
  · rw [hc]
  · rw [hc]
  · rw [hc]
  · rw [hd.1]; norm_num
  · rw [hd.2]; norm_num

/-- An instance of `convert_is_uniform`: the real power function and a window with chord
lengths `1`, `4`, `1`. -/
theorem convert_is_uniform_witness :
    PowLaws (fun x y : ℝ => x ^ y) ∧
    (convert (fun x y : ℝ => x ^ y) (gapWindow ℝ)).e1 =
      (gapWindow ℝ).e1 + ((gapWindow ℝ).e2 - (gapWindow ℝ).e0) / (6 : ℝ) ∧
    (convert (fun x y : ℝ => x ^ y) (gapWindow ℝ)).e2 =
      (gapWindow ℝ).e2 - ((gapWindow ℝ).e3 - (gapWindow ℝ).e1) / (6 : ℝ) ∧
    convertDen1 (fun x y : ℝ => x ^ y) (gapWindow ℝ) ≠ 0 ∧
    convertDen2 (fun x y : ℝ => x ^ y) (gapWindow ℝ) ≠ 0 :=
  have h := convert_is_uniform (fun x y : ℝ => x ^ y) powLaws_real (gapWindow ℝ)
  ⟨powLaws_real, h.2.2.1, h.2.2.2.1, h.2.2.2.2.2.2.2.1, h.2.2.2.2.2.2.2.2⟩

end UniformClaims

/-! ## Binary32 arithmetic -/

section FloatLemmas

/-- Values of `roundF32`: binary32 values are kept; `17 / 100` and `1 / 3` are rounded to
the nearest 24-bit significand; a tie (`2 ^ 24 + 1`, `2 ^ 24 + 3`) goes to the even
significand; the sign is kept; below the normal range the spacing is `2 ^ (-149)`. -/
theorem roundF32_values :
    roundF32 0 = 0 ∧ roundF32 1 = 1 ∧ roundF32 (15 / 2) = 15 / 2 ∧
    roundF32 10000000000 = 10000000000 ∧ roundF32 (-10000000000) = -10000000000 ∧
    roundF32 (17 / 100) = 11408507 / 67108864 ∧
    roundF32 (1 / 3) = 11184811 / 33554432 ∧ roundF32 (-1 / 3) = -11184811 / 33554432 ∧
    roundF32 16777217 = 16777216 ∧ roundF32 16777219 = 16777220 ∧
    roundF32 (1 / 2 ^ 149) = 1 / 2 ^ 149 ∧ roundF32 (1 / 2 ^ 150) = 0 ∧
    roundF32 (3 / 2 ^ 150) = 2 / 2 ^ 149 := by
  decide!

/-- The constant `sqrt3F32` is a binary32 value, and the square root of `3` lies within half
a spacing `2 ^ (-23)` of it. -/
theorem sqrt3F32_nearest :
    roundF32 sqrt3F32 = sqrt3F32 ∧
    (sqrt3F32 - 1 / 2 ^ 24) * (sqrt3F32 - 1 / 2 ^ 24) < 3 ∧
    3 < (sqrt3F32 + 1 / 2 ^ 24) * (sqrt3F32 + 1 / 2 ^ 24) := by
  decide!

/-- Without rounding, `convertR` is `convert`. -/
theorem convertR_id (pw : ℚ → ℚ → ℚ) (w : VPoints ℚ) : convertR id pw w = convert pw w := rfl

/-- Without rounding, `transformVertexR` is `transformVertex`. -/
theorem transformVertexR_id (cfg : Config ℚ) (v : Vec3 ℚ) :
    transformVertexR id cfg v = transformVertex cfg v := rfl

theorem pass1R_id (cfg : Config ℚ) :
    ∀ (vs : List (Vec3 ℚ)) (b : Vec3 ℚ × Vec3 ℚ), pass1R id cfg vs b = pass1 cfg vs b := by
  intro vs
  induction vs with
  | nil => intro b; rfl
  | cons w ws ih =>
    intro b
    simp only [pass1R, pass1, transformVertexR_id, ih]

/-- Without rounding, `loadVerticesR` is `loadVertices`. -/
theorem loadVerticesR_id (cfg : Config ℚ) (pts : Nat → Vec3 ℚ) (m : Model ℚ) :
    loadVerticesR id cfg pts m = loadVertices cfg pts m := by
  unfold loadVerticesR loadVertices
  simp only [pass1R_id]
  rfl

/-- Without rounding, `loadCYHairModelR` is `loadCYHairModel`. -/
theorem loadCYHairModelR_id (cfg : Config ℚ) (rand : Nat → ℚ) (f : CyHairFile ℚ)
    (m : Model ℚ) : loadCYHairModelR id cfg rand f m = loadCYHairModel cfg rand f m := by
  have h1 : thicknessStepR id cfg rand f = thicknessStep cfg rand f := by
    funext j s
    unfold thicknessStepR thicknessStep
    by_cases h : cfg.thicknessJitter > 0
    · simp only [h, if_true, id]
      cases f.thicknessArray <;> rfl
    · simp only [h, if_false, id]
      cases f.thicknessArray <;> rfl
  have h2 : strandStepR id cfg rand f = strandStep cfg rand f := by
    funext idx s
    unfold strandStepR strandStep
    rw [h1]
    simp only
    generalize forLoopM _ (thicknessStep cfg rand f) _ _ = r
    cases r <;> rfl
  unfold loadCYHairModelR loadCYHairModel
  simp only [h2, loadVerticesR_id]
  by_cases hl : f.loadResult < 0
  · simp only [hl, if_true]
  · simp only [hl, if_false]
    cases f.pointsArray with
    | none => rfl
    | some pts =>
      simp only
      generalize forLoopM _ (strandStep cfg rand f) _ _ = r
      cases r <;> rfl

/-- The component count `length()` makes `d1 = d2 = d3 = 3` whatever the rounding. -/
theorem convertR_e1 (rnd : ℚ → ℚ) (pw : ℚ → ℚ → ℚ) (w : VPoints ℚ) :
    (convertR rnd pw w).e1 = Vec3.divR rnd (convertNum1R rnd pw w) (convertDen1R rnd pw w) ∧
    (convertR rnd pw w).e2 = Vec3.divR rnd (convertNum2R rnd pw w) (convertDen2R rnd pw w) :=
  ⟨rfl, rfl⟩

/-- In binary32 both denominators of `convert` are the constant
`9437183 / 524288 = 17.999998092651367`. -/
theorem convertDenR_roundF32 (w : VPoints ℚ) :
    convertDen1R roundF32 powF32 w = 9437183 / 524288 ∧
    convertDen2R roundF32 powF32 w = 9437183 / 524288 := by
  have hden : roundF32 (roundF32 (3 * powF32 ((3 : ℕ) : ℚ) alpha) *
      roundF32 (powF32 ((3 : ℕ) : ℚ) alpha + powF32 ((3 : ℕ) : ℚ) alpha)) =
      9437183 / 524288 := by decide!
  exact ⟨hden, hden⟩

/-- In binary32 `convert` uses the constant coefficients `3`, `3`, `18` and the constant
denominator `9437183 / 524288`. -/
theorem convertR_roundF32 (w : VPoints ℚ) :
    convertR roundF32 powF32 w =
      ⟨w.e1,
        Vec3.divR roundF32
          (Vec3.addR roundF32
            (Vec3.subR roundF32 (Vec3.smulR roundF32 3 w.e2) (Vec3.smulR roundF32 3 w.e0))
            (Vec3.smulR roundF32 18 w.e1))
          (9437183 / 524288),
        Vec3.divR roundF32
          (Vec3.addR roundF32
            (Vec3.subR roundF32 (Vec3.smulR roundF32 3 w.e1) (Vec3.smulR roundF32 3 w.e3))
            (Vec3.smulR roundF32 18 w.e2))
          (9437183 / 524288),
        w.e2⟩ := by
  have h2a : powF32 ((3 : ℕ) : ℚ) (roundF32 (2 * alpha)) = 3 := by decide!
  have hcoef : roundF32 (roundF32 (roundF32 (2 * powF32 ((3 : ℕ) : ℚ) (roundF32 (2 * alpha))) +
      roundF32 (roundF32 (3 * powF32 ((3 : ℕ) : ℚ) alpha) * powF32 ((3 : ℕ) : ℚ) alpha)) +
      powF32 ((3 : ℕ) : ℚ) (roundF32 (2 * alpha))) = 18 := by decide!
  have hden : roundF32 (roundF32 (3 * powF32 ((3 : ℕ) : ℚ) alpha) *
      roundF32 (powF32 ((3 : ℕ) : ℚ) alpha + powF32 ((3 : ℕ) : ℚ) alpha)) =
      9437183 / 524288 := by decide!
  unfold convertR
  simp only [Vec3.length]
  rw [hcoef, hden, h2a]

end FloatLemmas

/-! ## Claims on `convert` in binary32 -/

section FloatConvertClaims

/-- C19, as amended. For every window, whatever the spacing of its points, the three
`length()` values are the component count `3`; in `float` arithmetic both denominators of
`convert` are the same non-zero constant `9437183 / 524288 = 17.999998`, and `convert`
returns `B0 = P1`, `B3 = P2`,
`B1 = fl(fl(fl(fl(3 * P2) - fl(3 * P0)) + fl(18 * P1)) / 17.999998)` and
`B2 = fl(fl(fl(fl(3 * P1) - fl(3 * P3)) + fl(18 * P2)) / 17.999998)`, componentwise, where
`fl` rounds to binary32. Over the reals, without rounding and with the real power function,
the same formula gives the uniform Catmull-Rom to Bezier conversion `B1 = P1 + (P2 - P0) / 6`,
`B2 = P2 - (P3 - P1) / 6` for every window `wr`; in `float` arithmetic it does not for the
window `(0,0,0), (6,0,0), (12,0,0), (12,0,0)`. -/
theorem convert_float_constant_coefficients (w : VPoints ℚ) (wr : VPoints ℝ) :
    ((Vec3.subR roundF32 w.e0 w.e1).length = 3 ∧ (Vec3.subR roundF32 w.e1 w.e2).length = 3 ∧
      (Vec3.subR roundF32 w.e2 w.e3).length = 3) ∧
    (convertDen1R roundF32 powF32 w = 9437183 / 524288 ∧
      convertDen2R roundF32 powF32 w = 9437183 / 524288) ∧
    (convertDen1R roundF32 powF32 w ≠ 0 ∧ convertDen2R roundF32 powF32 w ≠ 0) ∧
    (convertR roundF32 powF32 w).e0 = w.e1 ∧
    (convertR roundF32 powF32 w).e3 = w.e2 ∧
    (convertR roundF32 powF32 w).e1 =
      Vec3.divR roundF32
        (Vec3.addR roundF32
          (Vec3.subR roundF32 (Vec3.smulR roundF32 3 w.e2) (Vec3.smulR roundF32 3 w.e0))
          (Vec3.smulR roundF32 18 w.e1))
        (9437183 / 524288) ∧
    (convertR roundF32 powF32 w).e2 =
      Vec3.divR roundF32
        (Vec3.addR roundF32
          (Vec3.subR roundF32 (Vec3.smulR roundF32 3 w.e1) (Vec3.smulR roundF32 3 w.e3))
          (Vec3.smulR roundF32 18 w.e2))
        (9437183 / 524288) ∧
    convert (fun x y : ℝ => x ^ y) wr =
      ⟨wr.e1, wr.e1 + (wr.e2 - wr.e0) / (6 : ℝ), wr.e2 - (wr.e3 - wr.e1) / (6 : ℝ), wr.e2⟩ ∧
    (convertR roundF32 powF32 (tailWindow ℚ)).e1 ≠
      (tailWindow ℚ).e1 + ((tailWindow ℚ).e2 - (tailWindow ℚ).e0) / (6 : ℚ) := by
  have hd := convertDenR_roundF32 w
  have hc := convertR_roundF32 w
  have hne : (convertR roundF32 powF32 (tailWindow ℚ)).e1 ≠
      (tailWindow ℚ).e1 + ((tailWindow ℚ).e2 - (tailWindow ℚ).e0) / (6 : ℚ) := by decide!
  refine ⟨⟨rfl, rfl, rfl⟩, hd, ?_, rfl, rfl, ?_, ?_, convert_uniform _ powLaws_real wr, hne⟩
  · rw [hd.1, hd.2]
    exact ⟨by norm_num, by norm_num⟩
  · rw [hc]
  · rw [hc]

/-- Counterexample to C19 as stated: for the window `(0,0,0), (6,0,0), (12,0,0), (12,0,0)`
the `float` arithmetic of `convert` returns `B1.x = 8388609 / 1048576 = 8.000001` and
`B2.x = 11534337 / 1048576 = 11.000001`, whereas the uniform conversion
`P1 + (P2 - P0) / 6`, `P2 - (P3 - P1) / 6` gives `8` and `11`. -/
theorem convert_float_tailWindow_not_uniform :
    convertR roundF32 powF32 (tailWindow ℚ) =
      ⟨⟨6, 0, 0⟩, ⟨8388609 / 1048576, 0, 0⟩, ⟨11534337 / 1048576, 0, 0⟩, ⟨12, 0, 0⟩⟩ ∧
    (tailWindow ℚ).e1 + ((tailWindow ℚ).e2 - (tailWindow ℚ).e0) / (6 : ℚ) = ⟨8, 0, 0⟩ ∧
    (tailWindow ℚ).e2 - ((tailWindow ℚ).e3 - (tailWindow ℚ).e1) / (6 : ℚ) = ⟨11, 0, 0⟩ ∧
    (convertR roundF32 powF32 (tailWindow ℚ)).e1 ≠
      (tailWindow ℚ).e1 + ((tailWindow ℚ).e2 - (tailWindow ℚ).e0) / (6 : ℚ) ∧
    (convertR roundF32 powF32 (tailWindow ℚ)).e2 ≠
      (tailWindow ℚ).e2 - ((tailWindow ℚ).e3 - (tailWindow ℚ).e1) / (6 : ℚ) := by
  decide!

/-- C6, as amended. `convert` has no degeneracy guard or fallback: whatever the rounding and
whatever `std::pow` returns, a head window `(v0, v0, v1, v2)` and a tail window
`(v0, v1, v2, v2)` are converted by the same formula as every window, with `B0 = P1`,
`B3 = P2`, and `B1`, `B2` the quotients of the numerator and the denominator of the formula.
For the collinear, equally spaced points `(0,0,0)`, `(6,0,0)`, `(12,0,0)` the `float`
arithmetic of `convert` gives `B1 ≠ P1` for the head window and `B2 ≠ P2` for the tail
window. -/
theorem convert_no_fallback (rnd : ℚ → ℚ) (pw : ℚ → ℚ → ℚ) (v0 v1 v2 : Vec3 ℚ) :
    ((convertR rnd pw ⟨v0, v0, v1, v2⟩).e0 = v0 ∧ (convertR rnd pw ⟨v0, v0, v1, v2⟩).e3 = v1 ∧
      (convertR rnd pw ⟨v0, v0, v1, v2⟩).e1 =
        Vec3.divR rnd (convertNum1R rnd pw ⟨v0, v0, v1, v2⟩)
          (convertDen1R rnd pw ⟨v0, v0, v1, v2⟩)) ∧
    ((convertR rnd pw ⟨v0, v1, v2, v2⟩).e0 = v1 ∧ (convertR rnd pw ⟨v0, v1, v2, v2⟩).e3 = v2 ∧
      (convertR rnd pw ⟨v0, v1, v2, v2⟩).e2 =
        Vec3.divR rnd (convertNum2R rnd pw ⟨v0, v1, v2, v2⟩)
          (convertDen2R rnd pw ⟨v0, v1, v2, v2⟩)) ∧
    ((headWindow ℚ).e0 = (headWindow ℚ).e1 ∧
      (convertR roundF32 powF32 (headWindow ℚ)).e1 ≠ (headWindow ℚ).e1) ∧
    ((tailWindow ℚ).e2 = (tailWindow ℚ).e3 ∧
      (convertR roundF32 powF32 (tailWindow ℚ)).e2 ≠ (tailWindow ℚ).e2) := by
  have hh : (convertR roundF32 powF32 (headWindow ℚ)).e1 ≠ (headWindow ℚ).e1 := by decide!
  have ht : (convertR roundF32 powF32 (tailWindow ℚ)).e2 ≠ (tailWindow ℚ).e2 := by decide!
  exact ⟨⟨rfl, rfl, (convertR_e1 rnd pw _).1⟩, ⟨rfl, rfl, (convertR_e1 rnd pw _).2⟩,
    ⟨rfl, hh⟩, ⟨rfl, ht⟩⟩

/-- Counterexample to C6 as stated: for the head window `(v0, v0, v1, v2)` of the collinear,
equally spaced points `v0 = (0,0,0)`, `v1 = (6,0,0)`, `v2 = (12,0,0)`, the `float`
arithmetic of `convert` yields `B1 = (8388609 / 8388608, 0, 0) = (1.0000001, 0, 0)`, which is
not `P1 = (0,0,0)`. -/
theorem convert_float_headWindow_b1_ne_p1 :
    (headWindow ℚ).e0 = (headWindow ℚ).e1 ∧
    (headWindow ℚ).e2 - (headWindow ℚ).e1 = (headWindow ℚ).e3 - (headWindow ℚ).e2 ∧
    (convertR roundF32 powF32 (headWindow ℚ)).e1 = ⟨8388609 / 8388608, 0, 0⟩ ∧
    (convertR roundF32 powF32 (headWindow ℚ)).e1 ≠ (headWindow ℚ).e1 := by
  decide!

theorem strandBodyR_of_windows (rnd : ℚ → ℚ) (pw : ℚ → ℚ → ℚ) (m : Model ℚ) (range : Nat × Nat)
    (ws : List (Curve ℚ)) (h : strandWindows m range = .ok ws) :
    strandBodyR rnd pw m range = .ok (ws.map (convertCurveR rnd pw)) := by
  unfold strandBodyR
  rw [h]
  rfl

/-- The two records written in `float` arithmetic for the strand of `liftedPointModel`. -/
theorem strandBodyR_liftedPointModel :
    ∃ cs, strandBodyR roundF32 powF32 liftedPointModel (0, 4) = .ok cs ∧
      cs = [⟨⟨⟨0, 15 / 2, 0⟩, ⟨0, 7864321 / 1048576, 0⟩, ⟨0, 7864321 / 1048576, 0⟩,
              ⟨0, 15 / 2, 0⟩⟩, 1, 1⟩,
            ⟨⟨⟨0, 15 / 2, 0⟩, ⟨0, 7864321 / 1048576, 0⟩, ⟨0, 7864321 / 1048576, 0⟩,
              ⟨0, 15 / 2, 0⟩⟩, 1, 1⟩] := by
  have hw := strandWindows_ok liftedPointModel 0 4 (by decide) (by decide) (by decide)
    (by decide)
  refine ⟨_, strandBodyR_of_windows roundF32 powF32 liftedPointModel _ _ hw, ?_⟩
  decide!

/-- C7, as amended. For a strand with `R ≥ 4` vertices that are all the same point `p` with
all the same thickness `t`, the `float` arithmetic of `convert` divides by non-zero
denominators only, and every emitted record has `B0 = B3 = p`, `B1 = B2`, and both widths
equal to `t`; when `p = (0,0,0)` all four control points are `p`. For the strand of
`liftedPointModel`, where `p = (0, 7.5, 0)`, no record has `B1 = p`. -/
theorem strandBody_float_constant_strand (m : Model ℚ) (start stop : Nat) (p : Vec3 ℚ) (t : ℚ)
    (hle : start ≤ stop) (h32 : stop < 4294967296) (hR : 4 ≤ stop - start)
    (hp : ∀ j, start ≤ j → j < stop → m.vertices[j]? = some p)
    (hthick : ∀ j, start ≤ j → j < stop → m.thicknesses[j]? = some t) :
    ∃ ws, strandWindows m (start, stop) = .ok ws ∧
      strandBodyR roundF32 powF32 m (start, stop) =
        .ok (ws.map (convertCurveR roundF32 powF32)) ∧
      ws.length = stop - start - 2 ∧
      (∀ w ∈ ws, convertDen1R roundF32 powF32 w.points ≠ 0 ∧
        convertDen2R roundF32 powF32 w.points ≠ 0) ∧
      (∀ c ∈ ws.map (convertCurveR roundF32 powF32),
        c.points.e0 = p ∧ c.points.e3 = p ∧ c.points.e1 = c.points.e2 ∧ c.t0 = t ∧ c.t1 = t ∧
        (p = ⟨0, 0, 0⟩ → c.points = ⟨p, p, p, p⟩)) ∧
      (∃ cs, strandBodyR roundF32 powF32 liftedPointModel (0, 4) = .ok cs ∧
        ∀ c ∈ cs, c.points.e1 ≠ ⟨0, 15 / 2, 0⟩) := by
  have hlift : ∃ cs, strandBodyR roundF32 powF32 liftedPointModel (0, 4) = .ok cs ∧
      ∀ c ∈ cs, c.points.e1 ≠ ⟨0, 15 / 2, 0⟩ := by
    obtain ⟨cs, hcs, hval⟩ := strandBodyR_liftedPointModel
    refine ⟨cs, hcs, ?_⟩
    rw [hval]
    decide!
  have hv : stop ≤ m.vertices.length := by
    have := lt_length_of_getElem? _ _ _ (hp (stop - 1) (by omega) (by omega))
    omega
  have ht : stop ≤ m.thicknesses.length := by
    have := lt_length_of_getElem? _ _ _ (hthick (stop - 1) (by omega) (by omega))
    omega
  obtain ⟨R, rfl⟩ := Nat.exists_eq_add_of_le hle
  have hR4 : 4 ≤ R := by omega
  have hRR : start + R - start = R := by omega
  rw [hRR]
  have hw := strandWindows_ok m start R hR4 h32 hv ht
  have hpeek : ∀ r ∈ strandReads (start, start + R), peek m r = ⟨⟨p, p, p, p⟩, t, t⟩ := by
    intro r hr
    have hin := strandReads_within start R hR4 h32 r hr
    simp only [peek, getD_of_getElem? _ _ _ _ (hp r.v0 hin.1.1 hin.1.2),
      getD_of_getElem? _ _ _ _ (hp r.v1 hin.2.1.1 hin.2.1.2),
      getD_of_getElem? _ _ _ _ (hp r.v2 hin.2.2.1.1 hin.2.2.1.2),
      getD_of_getElem? _ _ _ _ (hp r.v3 hin.2.2.2.1.1 hin.2.2.2.1.2),
      getD_of_getElem? _ _ _ _ (hthick r.w0 hin.2.2.2.2.1.1 hin.2.2.2.2.1.2),
      getD_of_getElem? _ _ _ _ (hthick r.w1 hin.2.2.2.2.2.1 hin.2.2.2.2.2.2)]
  have hzero : convertR roundF32 powF32 ⟨⟨0, 0, 0⟩, ⟨0, 0, 0⟩, ⟨0, 0, 0⟩, ⟨0, 0, 0⟩⟩ =
      ⟨⟨0, 0, 0⟩, ⟨0, 0, 0⟩, ⟨0, 0, 0⟩, ⟨0, 0, 0⟩⟩ := by decide!
  refine ⟨_, hw, strandBodyR_of_windows roundF32 powF32 m _ _ hw, ?_, ?_, ?_, hlift⟩
  · rw [List.length_map, strandReads_length start R hR4 h32]
  · intro w _
    have hd := convertDenR_roundF32 w.points
    rw [hd.1, hd.2]
    exact ⟨by norm_num, by norm_num⟩
  · intro c hc
    simp only [List.mem_map] at hc
    obtain ⟨w, ⟨r, hr, rfl⟩, rfl⟩ := hc
    rw [hpeek r hr]
    refine ⟨rfl, rfl, rfl, rfl, rfl, ?_⟩
    intro h0
    subst h0
    exact hzero

/-- Witness of the amended C7: four vertices at the origin with thickness `1`
(scenario D). -/
theorem strandBody_float_constant_strand_witness :
    (0 ≤ 4 ∧ 4 < 4294967296 ∧ 4 ≤ 4 - 0 ∧
      (∀ j, 0 ≤ j → j < 4 → (pointModel ℚ).vertices[j]? = some ⟨0, 0, 0⟩) ∧
      (∀ j, 0 ≤ j → j < 4 → (pointModel ℚ).thicknesses[j]? = some 1)) ∧
    ∃ ws, strandWindows (pointModel ℚ) (0, 4) = .ok ws ∧
      strandBodyR roundF32 powF32 (pointModel ℚ) (0, 4) =
        .ok (ws.map (convertCurveR roundF32 powF32)) ∧
      ws.length = 4 - 0 - 2 ∧
      (∀ w ∈ ws, convertDen1R roundF32 powF32 w.points ≠ 0 ∧
        convertDen2R roundF32 powF32 w.points ≠ 0) ∧
      (∀ c ∈ ws.map (convertCurveR roundF32 powF32),
        c.points = ⟨⟨0, 0, 0⟩, ⟨0, 0, 0⟩, ⟨0, 0, 0⟩, ⟨0, 0, 0⟩⟩ ∧ c.t0 = 1 ∧ c.t1 = 1) := by
  have hp : ∀ j, 0 ≤ j → j < 4 → (pointModel ℚ).vertices[j]? = some ⟨0, 0, 0⟩ := by
    intro j _ hj
    interval_cases j <;> rfl
  have hthick : ∀ j, 0 ≤ j → j < 4 → (pointModel ℚ).thicknesses[j]? = some 1 := by
    intro j _ hj
    interval_cases j <;> rfl
  obtain ⟨ws, h1, h2, h3, h4, h5, _⟩ :=
    strandBody_float_constant_strand (pointModel ℚ) 0 4 ⟨0, 0, 0⟩ 1 (by decide) (by decide)
      (by decide) hp hthick
  exact ⟨⟨by decide, by decide, by decide, hp, hthick⟩, ws, h1, h2, h3, h4,
    fun c hc => ⟨(h5 c hc).2.2.2.2.2 rfl, (h5 c hc).2.2.2.1, (h5 c hc).2.2.2.2.1⟩⟩

/-- Counterexample to C7 as stated: for the strand of four vertices that are all
`p = (0, 7.5, 0)` with thickness `1`, the `float` arithmetic of `convert` writes two records
whose `B1` and `B2` are `(0, 7864321 / 1048576, 0) = (0, 7.500001, 0)`, not `p`. -/
theorem strandBody_float_liftedPoint_b1_ne_p :
    (∀ v ∈ liftedPointModel.vertices, v = ⟨0, 15 / 2, 0⟩) ∧
    (∀ t ∈ liftedPointModel.thicknesses, t = 1) ∧
    (∃ cs, strandBodyR roundF32 powF32 liftedPointModel (0, 4) = .ok cs ∧
      cs = [⟨⟨⟨0, 15 / 2, 0⟩, ⟨0, 7864321 / 1048576, 0⟩, ⟨0, 7864321 / 1048576, 0⟩,
              ⟨0, 15 / 2, 0⟩⟩, 1, 1⟩,
            ⟨⟨⟨0, 15 / 2, 0⟩, ⟨0, 7864321 / 1048576, 0⟩, ⟨0, 7864321 / 1048576, 0⟩,
              ⟨0, 15 / 2, 0⟩⟩, 1, 1⟩]) ∧
    (⟨0, 7864321 / 1048576, 0⟩ : Vec3 ℚ) ≠ ⟨0, 15 / 2, 0⟩ :=
  ⟨by decide!, by decide!, strandBodyR_liftedPointModel, by decide!⟩

end FloatConvertClaims

/-! ## Claims on `loadCYHairModel` in binary32 -/

section FloatLoadLemmas

theorem pass1R_fst (rnd : ℚ → ℚ) (cfg : Config ℚ) :
    ∀ (vs : List (Vec3 ℚ)) (b : Vec3 ℚ × Vec3 ℚ),
      (pass1R rnd cfg vs b).1 = vs.map (transformVertexR rnd cfg) := by
  intro vs
  induction vs with
  | nil => intro b; rfl
  | cons w ws ih =>
    intro b
    simp only [pass1R, List.map_cons, ih]

/-- Whatever the rounding, after the first vertex loop every transformed vertex lies inside
the accumulated box, and the box contains the box it was started with. -/
theorem pass1R_bounds (rnd : ℚ → ℚ) (cfg : Config ℚ) :
    ∀ (vs : List (Vec3 ℚ)) (b : Vec3 ℚ × Vec3 ℚ),
      (∀ v ∈ (pass1R rnd cfg vs b).1,
        Vec3.le (pass1R rnd cfg vs b).2.1 v ∧ Vec3.le v (pass1R rnd cfg vs b).2.2) ∧
      Vec3.le (pass1R rnd cfg vs b).2.1 b.1 ∧ Vec3.le b.2 (pass1R rnd cfg vs b).2.2 := by
  intro vs
  induction vs with
  | nil =>
    intro b
    refine ⟨?_, ⟨le_refl _, le_refl _, le_refl _⟩, ⟨le_refl _, le_refl _, le_refl _⟩⟩
    intro v hv
    simp [pass1R] at hv
  | cons w ws ih =>
    intro b
    obtain ⟨hin, hlo, hhi⟩ := ih (boxLoop (transformVertexR rnd cfg w) b)
    have hb := boxLoop_eq (transformVertexR rnd cfg w) b
    have hlo1 : Vec3.le (boxLoop (transformVertexR rnd cfg w) b).1
        (transformVertexR rnd cfg w) := by
      rw [hb]; exact ⟨min_le_right _ _, min_le_right _ _, min_le_right _ _⟩
    have hlo2 : Vec3.le (boxLoop (transformVertexR rnd cfg w) b).1 b.1 := by
      rw [hb]; exact ⟨min_le_left _ _, min_le_left _ _, min_le_left _ _⟩
    have hhi1 : Vec3.le (transformVertexR rnd cfg w)
        (boxLoop (transformVertexR rnd cfg w) b).2 := by
      rw [hb]; exact ⟨le_max_right _ _, le_max_right _ _, le_max_right _ _⟩
    have hhi2 : Vec3.le b.2 (boxLoop (transformVertexR rnd cfg w) b).2 := by
      rw [hb]; exact ⟨le_max_left _ _, le_max_left _ _, le_max_left _ _⟩
    simp only [pass1R]
    refine ⟨?_, vec3_le_trans hlo hlo2, vec3_le_trans hhi2 hhi⟩
    intro v hv
    rcases List.mem_cons.mp hv with rfl | hv
    · exact ⟨vec3_le_trans hlo hlo1, vec3_le_trans hhi1 hhi⟩
    · exact hin v hv

/-- The second vertex loop changes only the `y` component. -/
theorem rescaleYR_xz (rnd : ℚ → ℚ) (cfg : Config ℚ) (center v : Vec3 ℚ) :
    (rescaleYR rnd cfg center v).x = v.x ∧ (rescaleYR rnd cfg center v).z = v.z ∧
    (rescaleYR rnd cfg center v).y = rnd (rnd (rnd (v.y - center.y) * cfg.yScale) + center.y) :=
  ⟨rfl, rfl, rfl⟩

/-- The vertices and the bounding box do not depend on the strand loop. -/
theorem loadCYHairModelR_vertices (rnd : ℚ → ℚ) (cfg : Config ℚ) (rand : Nat → ℚ)
    (f : CyHairFile ℚ) (m : Model ℚ) (pts : Nat → Vec3 ℚ) (hload : 0 ≤ f.loadResult)
    (hpts : f.pointsArray = some pts) :
    (loadCYHairModelR rnd cfg rand f m).1.vertices =
        (loadVerticesR rnd cfg pts (loadHeader f m)).vertices ∧
      (loadCYHairModelR rnd cfg rand f m).1.bMin =
        (loadVerticesR rnd cfg pts (loadHeader f m)).bMin ∧
      (loadCYHairModelR rnd cfg rand f m).1.bMax =
        (loadVerticesR rnd cfg pts (loadHeader f m)).bMax ∧
      (loadCYHairModelR rnd cfg rand f m).1.center =
        (loadVerticesR rnd cfg pts (loadHeader f m)).center := by
  unfold loadCYHairModelR
  rw [if_neg (by omega)]
  simp only [hpts]
  split <;> exact ⟨rfl, rfl, rfl, rfl⟩

/-- The result of `loadCYHairModel` in `float` arithmetic for `dipFile`: the call completes;
pass 1 leaves the `y` components `-26.5` and `41943 / 2097152 = 0.0199999809`, which are
`bMin.y` and `bMax.y`; pass 2, with `yScale = 1`, moves the second `y` component to
`5243 / 262144 = 0.0200004578`. -/
theorem loadCYHairModelR_dipFile :
    (loadCYHairModelR roundF32 configF32 noRand dipFile (emptyModel ℚ)).2 = none ∧
    (pass1R roundF32 configF32 [⟨0, 0, -200⟩, ⟨0, 0, -44⟩]
      (Vec3.splat 10000000000, Vec3.splat (-10000000000))).1 =
        [⟨0, -53 / 2, 0⟩, ⟨0, 41943 / 2097152, 0⟩] ∧
    (loadCYHairModelR roundF32 configF32 noRand dipFile (emptyModel ℚ)).1.bMin =
      ⟨0, -53 / 2, 0⟩ ∧
    (loadCYHairModelR roundF32 configF32 noRand dipFile (emptyModel ℚ)).1.bMax =
      ⟨0, 41943 / 2097152, 0⟩ ∧
    (loadCYHairModelR roundF32 configF32 noRand dipFile (emptyModel ℚ)).1.center =
      ⟨0, -6941573 / 524288, 0⟩ ∧
    (loadCYHairModelR roundF32 configF32 noRand dipFile (emptyModel ℚ)).1.vertices =
      [⟨0, -53 / 2, 0⟩, ⟨0, 5243 / 262144, 0⟩] := by
  decide!

/-- The result of lines 49-83 in `float` arithmetic for `farFile`. -/
theorem loadVerticesR_farFile :
    (loadVerticesR roundF32 configF32 (fun _ => (⟨0, 0, 100000000000⟩ : Vec3 ℚ))
        (loadHeader farFile (emptyModel ℚ))).vertices = [⟨0, 17000000512, 0⟩] ∧
    (loadVerticesR roundF32 configF32 (fun _ => (⟨0, 0, 100000000000⟩ : Vec3 ℚ))
        (loadHeader farFile (emptyModel ℚ))).bMin = ⟨0, 10000000000, 0⟩ ∧
    (loadVerticesR roundF32 configF32 (fun _ => (⟨0, 0, 100000000000⟩ : Vec3 ℚ))
        (loadHeader farFile (emptyModel ℚ))).bMax = ⟨0, 17000000512, 0⟩ ∧
    (loadVerticesR roundF32 configF32 (fun _ => (⟨0, 0, 100000000000⟩ : Vec3 ℚ))
        (loadHeader farFile (emptyModel ℚ))).center = ⟨0, 13500000256, 0⟩ := by
  decide!

end FloatLoadLemmas

section FloatLoadClaims

/-- C10, as amended. Let the file load and have a points array, and let every `float`
operation be rounded by any function `rnd` (binary32 rounding in particular). After pass 1
every transformed vertex satisfies `bMin[i] ≤ v[i] ≤ bMax[i]` on every axis `i`. Pass 2 runs
for every `yScale` and replaces only `y`, by `fl(fl(fl(y - center.y) * yScale) + center.y)`.
So after `loadCYHairModel` every vertex satisfies `bMin[i] ≤ v[i] ≤ bMax[i]` on the axes
`i = 0` and `i = 2`. On the axis `i = 1` this can fail in `float` arithmetic, also with the
configured `yScale = 1`, as it does for `dipFile`. -/
theorem loadCYHairModel_float_vertices_in_box (rnd : ℚ → ℚ) (cfg : Config ℚ) (rand : Nat → ℚ)
    (f : CyHairFile ℚ) (m : Model ℚ) (pts : Nat → Vec3 ℚ) (hload : 0 ≤ f.loadResult)
    (hpts : f.pointsArray = some pts) :
    (∀ v ∈ (pass1R rnd cfg (memcpy (loadHeader f m).vertices pts f.point_count)
          (Vec3.splat 10000000000, Vec3.splat (-10000000000))).1,
      ∀ i : Fin 3, (loadCYHairModelR rnd cfg rand f m).1.bMin.get i ≤ v.get i ∧
        v.get i ≤ (loadCYHairModelR rnd cfg rand f m).1.bMax.get i) ∧
    (loadCYHairModelR rnd cfg rand f m).1.vertices =
      (pass1R rnd cfg (memcpy (loadHeader f m).vertices pts f.point_count)
          (Vec3.splat 10000000000, Vec3.splat (-10000000000))).1.map
        (rescaleYR rnd cfg (loadCYHairModelR rnd cfg rand f m).1.center) ∧
    (∀ c v : Vec3 ℚ, rescaleYR rnd cfg c v =
      ⟨v.x, rnd (rnd (rnd (v.y - c.y) * cfg.yScale) + c.y), v.z⟩) ∧
    (∀ v ∈ (loadCYHairModelR rnd cfg rand f m).1.vertices, ∀ i : Fin 3, i ≠ 1 →
      (loadCYHairModelR rnd cfg rand f m).1.bMin.get i ≤ v.get i ∧
        v.get i ≤ (loadCYHairModelR rnd cfg rand f m).1.bMax.get i) ∧
    (configF32.yScale = 1 ∧
      ∃ v ∈ (loadCYHairModelR roundF32 configF32 noRand dipFile (emptyModel ℚ)).1.vertices,
        (loadCYHairModelR roundF32 configF32 noRand dipFile (emptyModel ℚ)).1.bMax.get 1 <
          v.get 1) := by
  obtain ⟨hv, hmin, hmax, hc⟩ := loadCYHairModelR_vertices rnd cfg rand f m pts hload hpts
  have hb := pass1R_bounds rnd cfg (memcpy (loadHeader f m).vertices pts f.point_count)
    (Vec3.splat 10000000000, Vec3.splat (-10000000000))
  have hbox : ∀ v ∈ (pass1R rnd cfg (memcpy (loadHeader f m).vertices pts f.point_count)
        (Vec3.splat 10000000000, Vec3.splat (-10000000000))).1,
      ∀ i : Fin 3, (loadCYHairModelR rnd cfg rand f m).1.bMin.get i ≤ v.get i ∧
        v.get i ≤ (loadCYHairModelR rnd cfg rand f m).1.bMax.get i := by
    intro v hmem i
    rw [hmin, hmax]
    have h := hb.1 v hmem
    exact ⟨(Vec3.le_iff_get _ _).mp h.1 i, (Vec3.le_iff_get _ _).mp h.2 i⟩
  have hvs : (loadCYHairModelR rnd cfg rand f m).1.vertices =
      (pass1R rnd cfg (memcpy (loadHeader f m).vertices pts f.point_count)
          (Vec3.splat 10000000000, Vec3.splat (-10000000000))).1.map
        (rescaleYR rnd cfg (loadCYHairModelR rnd cfg rand f m).1.center) := by
    rw [hv, hc]
    rfl
  refine ⟨hbox, hvs, fun c v => rfl, ?_, rfl, ?_⟩
  · intro v hmem i hi
    rw [hvs] at hmem
    obtain ⟨u, hu, rfl⟩ := List.mem_map.mp hmem
    have h := hbox u hu i
    fin_cases i
    · exact h
    · exact absurd rfl hi
    · exact h
  · obtain ⟨_, _, _, hbmax, _, hvert⟩ := loadCYHairModelR_dipFile
    rw [hvert, hbmax]
    exact ⟨⟨0, 5243 / 262144, 0⟩, by simp, by decide!⟩

/-- Witness of the amended C10: binary32 rounding, the configured constants and
`dipFile`. -/
theorem loadCYHairModel_float_vertices_in_box_witness :
    (0 ≤ dipFile.loadResult ∧
      dipFile.pointsArray = some (fun j => if j = 0 then ⟨0, 0, -200⟩ else ⟨0, 0, -44⟩)) ∧
    (∀ v ∈ (loadCYHairModelR roundF32 configF32 noRand dipFile (emptyModel ℚ)).1.vertices,
      ∀ i : Fin 3, i ≠ 1 →
        (loadCYHairModelR roundF32 configF32 noRand dipFile (emptyModel ℚ)).1.bMin.get i ≤
          v.get i ∧
        v.get i ≤
          (loadCYHairModelR roundF32 configF32 noRand dipFile (emptyModel ℚ)).1.bMax.get i) :=
  ⟨⟨by decide, rfl⟩,
    (loadCYHairModel_float_vertices_in_box roundF32 configF32 noRand dipFile (emptyModel ℚ)
      (fun j => if j = 0 then ⟨0, 0, -200⟩ else ⟨0, 0, -44⟩) (by decide) rfl).2.2.2.1⟩

/-- Counterexample to C10 as stated: for the two points `(0, 0, -200)` and `(0, 0, -44)` of
`dipFile` and the configured constants (`yScale = 1`), `loadCYHairModel` completes in
`float` arithmetic with `bMax.y = 41943 / 2097152 = 0.0199999809`, and the second vertex has
`y = 5243 / 262144 = 0.0200004578 > bMax.y`. -/
theorem loadCYHairModel_float_dipFile_y_above_bMax :
    configF32.yScale = 1 ∧
    (loadCYHairModelR roundF32 configF32 noRand dipFile (emptyModel ℚ)).2 = none ∧
    (loadCYHairModelR roundF32 configF32 noRand dipFile (emptyModel ℚ)).1.bMax =
      ⟨0, 41943 / 2097152, 0⟩ ∧
    (loadCYHairModelR roundF32 configF32 noRand dipFile (emptyModel ℚ)).1.vertices =
      [⟨0, -53 / 2, 0⟩, ⟨0, 5243 / 262144, 0⟩] ∧
    ¬ (∀ v ∈ (loadCYHairModelR roundF32 configF32 noRand dipFile (emptyModel ℚ)).1.vertices,
      ∀ i : Fin 3,
        (loadCYHairModelR roundF32 configF32 noRand dipFile (emptyModel ℚ)).1.bMin.get i ≤
          v.get i ∧
        v.get i ≤
          (loadCYHairModelR roundF32 configF32 noRand dipFile (emptyModel ℚ)).1.bMax.get i) := by
  obtain ⟨hnone, _, _, hbmax, _, hvert⟩ := loadCYHairModelR_dipFile
  refine ⟨rfl, hnone, hbmax, hvert, ?_⟩
  rw [hvert, hbmax]
  intro h
  have h1 := (h ⟨0, 5243 / 262144, 0⟩ (by simp) 1).2
  exact absurd h1 (by decide!)

end FloatLoadClaims

/-! ## Claims on the vertical rescale -/

section RescaleFloatClaims

variable {K : Type} [LinearOrderedField K]

/-- C18, as amended. In exact arithmetic: let the vertex set contain a vertex whose
transformed `y` component is at most `1e10` and one whose transformed `y` component is at
least `-1e10` (so that `bMin.y` and `bMax.y` are the extrema of the transformed `y`
components). Then for every `yScale` the vertical pass changes only `y`, to
`(y - center.y) * yScale + center.y`, and the extrema `lo`, `hi` of the new `y` components
satisfy `(lo + hi) / 2 = center.y` and `hi - lo = |yScale| * (bMax.y - bMin.y)`. In `float`
arithmetic each of the three operations of the pass rounds, and with the configured
`yScale = 1` the pass changes a vertex of `dipFile`. -/
theorem loadVertices_rescale (cfg : Config K) (pts : Nat → Vec3 K) (m : Model K)
    (hlo : ∃ v ∈ memcpy m.vertices pts m.nTotalVertices,
      (transformVertex cfg v).get 1 ≤ 10000000000)
    (hhi : ∃ v ∈ memcpy m.vertices pts m.nTotalVertices,
      -10000000000 ≤ (transformVertex cfg v).get 1) :
    (loadVertices cfg pts m).vertices =
      (memcpy m.vertices pts m.nTotalVertices).map
        (fun v => rescaleY cfg (loadVertices cfg pts m).center (transformVertex cfg v)) ∧
    (∀ v, rescaleY cfg (loadVertices cfg pts m).center v =
      ⟨v.x, (v.y - (loadVertices cfg pts m).center.y) * cfg.yScale
        + (loadVertices cfg pts m).center.y, v.z⟩) ∧
    (∃ lo hi, (∃ v ∈ (loadVertices cfg pts m).vertices, v.y = lo) ∧
      (∀ v ∈ (loadVertices cfg pts m).vertices, lo ≤ v.y) ∧
      (∃ v ∈ (loadVertices cfg pts m).vertices, v.y = hi) ∧
      (∀ v ∈ (loadVertices cfg pts m).vertices, v.y ≤ hi) ∧
      (lo + hi) / 2 = (loadVertices cfg pts m).center.y ∧
      hi - lo = |cfg.yScale| *
        ((loadVertices cfg pts m).bMax.y - (loadVertices cfg pts m).bMin.y)) ∧
    (configF32.yScale = 1 ∧
      ∃ v ∈ (pass1R roundF32 configF32 [⟨0, 0, -200⟩, ⟨0, 0, -44⟩]
          (Vec3.splat 10000000000, Vec3.splat (-10000000000))).1,
        rescaleYR roundF32 configF32
          (loadCYHairModelR roundF32 configF32 noRand dipFile (emptyModel ℚ)).1.center v ≠ v) := by
  have hfst := pass1_fst cfg (memcpy m.vertices pts m.nTotalVertices)
    (Vec3.splat 10000000000, Vec3.splat (-10000000000))
  have hbd := (pass1_get_bounds cfg (memcpy m.vertices pts m.nTotalVertices)
    (Vec3.splat 10000000000, Vec3.splat (-10000000000)) 1).1
  have hat := pass1_seeded_attained cfg (memcpy m.vertices pts m.nTotalVertices) 1 hlo hhi
  refine ⟨?_, fun v => rfl, ?_, rfl, ?_⟩
  · show pass2 cfg _ _ = _
    rw [hfst, pass2, List.map_map]
    rfl
  · show ∃ lo hi, (∃ v ∈ pass2 cfg _ _, v.y = lo) ∧ (∀ v ∈ pass2 cfg _ _, lo ≤ v.y) ∧
      (∃ v ∈ pass2 cfg _ _, v.y = hi) ∧ (∀ v ∈ pass2 cfg _ _, v.y ≤ hi) ∧ _
    unfold pass2
    have hmid : ∀ p q : Vec3 K, p.y + q.y = 2 * ((p + q) * (1 / 2 : K)).y := by
      intro p q
      simp only [Vec3.mul_y, Vec3.add_y]
      ring
    exact rescale_extrema _ _ _ _ _ _ (rescaleY_y cfg _) (hmid _ _)
      (fun v hv => (hbd v hv).1) (fun v hv => (hbd v hv).2) hat.1 hat.2
  · obtain ⟨_, hp1, _, _, hc, _⟩ := loadCYHairModelR_dipFile
    rw [hp1, hc]
    exact ⟨⟨0, 41943 / 2097152, 0⟩, by simp, by decide!⟩

/-- Witness of the amended C18: `yScale = 1 / 2` and the three points of `tallFile`, whose
transformed `y` components `7.5`, `24.5`, `41.5` have the midpoint `center.y = 24.5` and
the extent `34`; the pass maps them to `16`, `24.5`, `33`. -/
theorem loadVertices_rescale_witness :
    ((∃ v ∈ memcpy (loadHeader tallFile (emptyModel ℚ)).vertices
          (fun j => (⟨0, 0, 100 * j⟩ : Vec3 ℚ)) (loadHeader tallFile (emptyModel ℚ)).nTotalVertices,
        (transformVertex halfConfig v).get 1 ≤ 10000000000) ∧
      (∃ v ∈ memcpy (loadHeader tallFile (emptyModel ℚ)).vertices
          (fun j => (⟨0, 0, 100 * j⟩ : Vec3 ℚ)) (loadHeader tallFile (emptyModel ℚ)).nTotalVertices,
        -10000000000 ≤ (transformVertex halfConfig v).get 1)) ∧
    (halfConfig.yScale = 1 / 2 ∧
      (loadVertices halfConfig (fun j => (⟨0, 0, 100 * j⟩ : Vec3 ℚ))
        (loadHeader tallFile (emptyModel ℚ))).bMin.y = 15 / 2 ∧
      (loadVertices halfConfig (fun j => (⟨0, 0, 100 * j⟩ : Vec3 ℚ))
        (loadHeader tallFile (emptyModel ℚ))).bMax.y = 83 / 2 ∧
      (loadVertices halfConfig (fun j => (⟨0, 0, 100 * j⟩ : Vec3 ℚ))
        (loadHeader tallFile (emptyModel ℚ))).center.y = 49 / 2 ∧
      (loadVertices halfConfig (fun j => (⟨0, 0, 100 * j⟩ : Vec3 ℚ))
        (loadHeader tallFile (emptyModel ℚ))).vertices =
          [⟨0, 16, 0⟩, ⟨0, 49 / 2, 0⟩, ⟨0, 33, 0⟩]) ∧
    (∃ lo hi,
      (∃ v ∈ (loadVertices halfConfig (fun j => (⟨0, 0, 100 * j⟩ : Vec3 ℚ))
          (loadHeader tallFile (emptyModel ℚ))).vertices, v.y = lo) ∧
      (∀ v ∈ (loadVertices halfConfig (fun j => (⟨0, 0, 100 * j⟩ : Vec3 ℚ))
          (loadHeader tallFile (emptyModel ℚ))).vertices, lo ≤ v.y) ∧
      (∃ v ∈ (loadVertices halfConfig (fun j => (⟨0, 0, 100 * j⟩ : Vec3 ℚ))
          (loadHeader tallFile (emptyModel ℚ))).vertices, v.y = hi) ∧
      (∀ v ∈ (loadVertices halfConfig (fun j => (⟨0, 0, 100 * j⟩ : Vec3 ℚ))
          (loadHeader tallFile (emptyModel ℚ))).vertices, v.y ≤ hi) ∧
      (lo + hi) / 2 = (loadVertices halfConfig (fun j => (⟨0, 0, 100 * j⟩ : Vec3 ℚ))
          (loadHeader tallFile (emptyModel ℚ))).center.y ∧
      hi - lo = |halfConfig.yScale| *
        ((loadVertices halfConfig (fun j => (⟨0, 0, 100 * j⟩ : Vec3 ℚ))
            (loadHeader tallFile (emptyModel ℚ))).bMax.y -
          (loadVertices halfConfig (fun j => (⟨0, 0, 100 * j⟩ : Vec3 ℚ))
            (loadHeader tallFile (emptyModel ℚ))).bMin.y)) :=
  have hval : (transformVertex halfConfig ((fun j : Nat => (⟨0, 0, 100 * j⟩ : Vec3 ℚ)) 0)).get 1 =
      15 / 2 := by decide!
  have hlo : ∃ v ∈ memcpy (loadHeader tallFile (emptyModel ℚ)).vertices
      (fun j => (⟨0, 0, 100 * j⟩ : Vec3 ℚ)) (loadHeader tallFile (emptyModel ℚ)).nTotalVertices,
      (transformVertex halfConfig v).get 1 ≤ 10000000000 :=
    ⟨_, mem_memcpy _ _ _ 0 (by decide), by rw [hval]; norm_num⟩
  have hhi : ∃ v ∈ memcpy (loadHeader tallFile (emptyModel ℚ)).vertices
      (fun j => (⟨0, 0, 100 * j⟩ : Vec3 ℚ)) (loadHeader tallFile (emptyModel ℚ)).nTotalVertices,
      -10000000000 ≤ (transformVertex halfConfig v).get 1 :=
    ⟨_, mem_memcpy _ _ _ 0 (by decide), by rw [hval]; norm_num⟩
  ⟨⟨hlo, hhi⟩, by decide!, (loadVertices_rescale halfConfig _ _ hlo hhi).2.2.1⟩

/-- Counterexample to C18 as stated, in `float` arithmetic with the configured constants
(`yScale = 1`). For the single point `(0, 0, 1e11)` of `farFile` the only new `y` component
is `17000000512`, while `bMin.y = 1e10` is the seed and `center.y = 13500000256`: the
midpoint is not `center.y`. For the two points of `dipFile` the new `y` components are
`-26.5` and `0.0200004578`, while `bMax.y - bMin.y = 0.0199999809 + 26.5`: the extent is not
`|yScale| * (bMax.y - bMin.y)`. -/
theorem loadVertices_float_midpoint_extent_off :
    (configF32.yScale = 1 ∧
      memcpy (loadHeader farFile (emptyModel ℚ)).vertices
        (fun _ => (⟨0, 0, 100000000000⟩ : Vec3 ℚ))
        (loadHeader farFile (emptyModel ℚ)).nTotalVertices ≠ [] ∧
      ¬ ∃ lo hi,
        (∃ v ∈ (loadVerticesR roundF32 configF32 (fun _ => (⟨0, 0, 100000000000⟩ : Vec3 ℚ))
            (loadHeader farFile (emptyModel ℚ))).vertices, v.y = lo) ∧
        (∃ v ∈ (loadVerticesR roundF32 configF32 (fun _ => (⟨0, 0, 100000000000⟩ : Vec3 ℚ))
            (loadHeader farFile (emptyModel ℚ))).vertices, v.y = hi) ∧
        (lo + hi) / 2 =
          (loadVerticesR roundF32 configF32 (fun _ => (⟨0, 0, 100000000000⟩ : Vec3 ℚ))
            (loadHeader farFile (emptyModel ℚ))).center.y) ∧
    (¬ ∃ lo hi,
      (∃ v ∈ (loadCYHairModelR roundF32 configF32 noRand dipFile (emptyModel ℚ)).1.vertices,
        v.y = lo) ∧
      (∀ v ∈ (loadCYHairModelR roundF32 configF32 noRand dipFile (emptyModel ℚ)).1.vertices,
        lo ≤ v.y) ∧
      (∃ v ∈ (loadCYHairModelR roundF32 configF32 noRand dipFile (emptyModel ℚ)).1.vertices,
        v.y = hi) ∧
      (∀ v ∈ (loadCYHairModelR roundF32 configF32 noRand dipFile (emptyModel ℚ)).1.vertices,
        v.y ≤ hi) ∧
      hi - lo = |configF32.yScale| *
        ((loadCYHairModelR roundF32 configF32 noRand dipFile (emptyModel ℚ)).1.bMax.y -
          (loadCYHairModelR roundF32 configF32 noRand dipFile (emptyModel ℚ)).1.bMin.y)) := by
  obtain ⟨hv, _, _, hc⟩ := loadVerticesR_farFile
  obtain ⟨_, _, hbmin, hbmax, _, hvert⟩ := loadCYHairModelR_dipFile
  rw [hv, hc, hvert, hbmin, hbmax]
  refine ⟨⟨rfl, by decide, ?_⟩, ?_⟩
  · rintro ⟨lo, hi, ⟨v, hv1, rfl⟩, ⟨w, hw1, rfl⟩, h⟩
    rw [List.mem_singleton] at hv1 hw1
    subst hv1 hw1
    norm_num at h
  · rintro ⟨lo, hi, _, hlo, _, hhi, h⟩
    have h1 : lo ≤ -53 / 2 := hlo ⟨0, -53 / 2, 0⟩ (by simp)
    have h2 : (5243 / 262144 : ℚ) ≤ hi := hhi ⟨0, 5243 / 262144, 0⟩ (by simp)
    have hy : configF32.yScale = 1 := rfl
    rw [hy, abs_one, one_mul] at h
    have h3 : hi - lo = (41943 / 2097152 : ℚ) - -53 / 2 := h
    have h4 : (5243 / 262144 : ℚ) - -53 / 2 ≤ hi - lo := by linarith
    rw [h3] at h4
    norm_num at h4

end RescaleFloatClaims

end PBRTCurve
